import Mathlib

/-!
Verification development for the SAMdisk rescuing extension

Shallow embedding of

* `include/ByteBitPosition.h` : the (byte, bit) cursor and its operators,
* `src/Header.cpp`            : `Header::compare_chrn`, `Header::compare_crn`,
                                `Headers::has_id_sequence`, `operator*` of `CylHead`,
* `src/Disk.cpp`              : `Disk::TransferTrack`, and of the base `Disk` the members
                                `cyls`, `heads`, `readNC`, `writeNC`, `track_exists`,
                                `flip_sides`, `resize`,
* `src/FdrawcmdSys.cpp`       : `FdrawcmdSys::SetEncRate`, `Recalibrate`, `Seek`,
* `include/OrphanDataCapableTrack.h` : `MergeOrphansIntoParents`, declared there and
                                written after its description.

Machine integers are natural numbers / integers with explicit wrap-around:
`size_t` is 64 bits wide (arithmetic modulo `2 ^ 64`), `uint8_t` is 8 bits wide
(modulo `256`), `int` is 32 bits wide.
-/

namespace Samdisk

/-! ## Machine integers -/

/-- Modulus of `size_t` arithmetic. -/
def SIZE_T_MOD : Nat := 2 ^ 64

/-- Modulus of `uint8_t` arithmetic. -/
def UINT8_T_MOD : Nat := 256

/-- The constant `UINT8_T_BIT_SIZE = sizeof(uint8_t) * CHAR_BIT`. -/
def UINT8_T_BIT_SIZE : Nat := 8

/-- Addition of two `size_t` values. -/
def sizeAdd (a b : Nat) : Nat := (a + b) % SIZE_T_MOD

/-- Subtraction of two `size_t` values (wraps below zero). -/
def sizeSub (a b : Nat) : Nat := (a + (SIZE_T_MOD - b % SIZE_T_MOD)) % SIZE_T_MOD

/-- Multiplication of two `size_t` values. -/
def sizeMul (a b : Nat) : Nat := (a * b) % SIZE_T_MOD

/-- Conversion of a `size_t` value to `uint8_t`. -/
def toUInt8 (a : Nat) : Nat := a % UINT8_T_MOD

/-- The conversion `static_cast<int>(n)` of an unsigned value to a 32 bit `int`. -/
def toInt32 (n : Nat) : Int :=
  if n % 2 ^ 32 < 2 ^ 31 then ((n % 2 ^ 32 : Nat) : Int) else ((n % 2 ^ 32 : Nat) : Int) - 2 ^ 32

/-- The largest value of the 32 bit `int`. -/
def INT_MAX : Int := 2147483647

/-- The value of an `int` expression whose exact value is `n`: 32 bits wide in two's
complement, so a result outside `[-2 ^ 31, 2 ^ 31)` wraps around. -/
def wrapInt32 (n : Int) : Int := (n + 2 ^ 31) % 2 ^ 32 - 2 ^ 31

/-- The sum `a + b` of two `int` values. -/
def intAdd (a b : Int) : Int := wrapInt32 (a + b)

/-- The difference `a - b` of two `int` values. -/
def intSub (a b : Int) : Int := wrapInt32 (a - b)

/-! ## `ByteBitPosition` -/

/-- The class `ByteBitPosition`: `size_t m_byte_position; uint8_t m_bit_position`. -/
structure ByteBitPosition where
  m_byte_position : Nat
  m_bit_position : Nat
  deriving DecidableEq, Repr

namespace ByteBitPosition

/-- The values of the two members lie in the range of their C++ types. -/
def InRange (c : ByteBitPosition) : Prop :=
  c.m_byte_position < SIZE_T_MOD ∧ c.m_bit_position < UINT8_T_MOD

instance (c : ByteBitPosition) : Decidable c.InRange := by
  unfold InRange; infer_instance

/-- Member function `BytePosition()`. -/
def BytePosition (c : ByteBitPosition) : Nat := c.m_byte_position

/-- Member function `BitPosition()`. -/
def BitPosition (c : ByteBitPosition) : Nat := c.m_bit_position

/-- Member function `TotalBitPosition()`:
`m_byte_position * UINT8_T_BIT_SIZE + m_bit_position` in `size_t` arithmetic. -/
def TotalBitPosition (c : ByteBitPosition) : Nat :=
  sizeAdd (sizeMul c.m_byte_position UINT8_T_BIT_SIZE) c.m_bit_position

/-- The assignment `operator=(size_t totalBitPosition)`; both members are overwritten. -/
def assign (_self : ByteBitPosition) (totalBitPosition : Nat) : ByteBitPosition :=
  { m_bit_position := toUInt8 (totalBitPosition % UINT8_T_BIT_SIZE)
    m_byte_position := totalBitPosition / UINT8_T_BIT_SIZE }

/-- The members as initialised by the default member initialisers. -/
def init : ByteBitPosition := { m_byte_position := 0, m_bit_position := 0 }

/-- The default constructor `ByteBitPosition()`: `*this = 0`. -/
def default : ByteBitPosition := init.assign 0

/-- The constructor `ByteBitPosition(size_t byte_bit_position)`: `*this = byte_bit_position`. -/
def ofSizeT (byte_bit_position : Nat) : ByteBitPosition := init.assign byte_bit_position

/-- The comparison `operator==` of two `std::tie` pairs of `size_t`. -/
def tieEq (l r : Nat × Nat) : Bool := decide (l.1 = r.1) && decide (l.2 = r.2)

/-- The comparison `operator<` of two `std::tie` pairs of `size_t` (lexicographic). -/
def tieLt (l r : Nat × Nat) : Bool :=
  decide (l.1 < r.1) || (!decide (r.1 < l.1) && decide (l.2 < r.2))

/-- The friend `operator==`: both pairs are built from `m_byte_position` twice. -/
def eq (lhs rhs : ByteBitPosition) : Bool :=
  tieEq (lhs.m_byte_position, lhs.m_byte_position) (rhs.m_byte_position, rhs.m_byte_position)

/-- The friend `operator<`: both pairs are built from `m_byte_position` twice. -/
def lt (lhs rhs : ByteBitPosition) : Bool :=
  tieLt (lhs.m_byte_position, lhs.m_byte_position) (rhs.m_byte_position, rhs.m_byte_position)

/-- The free `operator!=`. -/
def ne (lhs rhs : ByteBitPosition) : Bool := !(eq lhs rhs)

/-- The free `operator>`: `rhs < lhs`. -/
def gt (lhs rhs : ByteBitPosition) : Bool := lt rhs lhs

/-- The free `operator<=`: `!(lhs > rhs)`. -/
def le (lhs rhs : ByteBitPosition) : Bool := !(gt lhs rhs)

/-- The free `operator>=`: `!(lhs < rhs)`. -/
def ge (lhs rhs : ByteBitPosition) : Bool := !(lt lhs rhs)

/-- The compound assignment `operator+=(const ByteBitPosition& rhs)`. -/
def addAssign (c rhs : ByteBitPosition) : ByteBitPosition :=
  c.assign (sizeAdd c.TotalBitPosition rhs.TotalBitPosition)

/-- The compound assignment `operator+=(size_t bits)`. -/
def addAssignBits (c : ByteBitPosition) (bits : Nat) : ByteBitPosition :=
  c.assign (sizeAdd c.TotalBitPosition bits)

/-- The friend `operator+`: `lhs += rhs; return lhs`. -/
def add (lhs rhs : ByteBitPosition) : ByteBitPosition := lhs.addAssign rhs

/-- The prefix `operator++`. -/
def preInc (c : ByteBitPosition) : ByteBitPosition :=
  if c.m_bit_position < UINT8_T_BIT_SIZE - 1 then
    { c with m_bit_position := toUInt8 (c.m_bit_position + 1) }
  else
    { m_bit_position := 0, m_byte_position := sizeAdd c.m_byte_position 1 }

/-- The postfix `operator++(int)`: the returned copy and the new value of `*this`. -/
def postInc (c : ByteBitPosition) : ByteBitPosition × ByteBitPosition := (c, c.preInc)

/-- The compound assignment `operator-=(const ByteBitPosition& rhs)`. -/
def subAssign (c rhs : ByteBitPosition) : ByteBitPosition :=
  c.assign (sizeSub c.TotalBitPosition rhs.TotalBitPosition)

/-- The compound assignment `operator-=(size_t bits)`. -/
def subAssignBits (c : ByteBitPosition) (bits : Nat) : ByteBitPosition :=
  c.assign (sizeSub c.TotalBitPosition bits)

/-- The friend `operator-`: `lhs -= rhs; return lhs`. -/
def sub (lhs rhs : ByteBitPosition) : ByteBitPosition := lhs.subAssign rhs

/-- The prefix `operator--`. -/
def preDec (c : ByteBitPosition) : ByteBitPosition :=
  if c.m_bit_position > 0 then
    { c with m_bit_position := c.m_bit_position - 1 }
  else
    { m_bit_position := toUInt8 (UINT8_T_BIT_SIZE - 1)
      m_byte_position := sizeSub c.m_byte_position 1 }

/-- The postfix `operator--(int)`: the returned copy and the new value of `*this`. -/
def postDec (c : ByteBitPosition) : ByteBitPosition × ByteBitPosition := (c, c.preDec)

/-- The compound assignment `operator*=(const size_t multiplier)`. -/
def mulAssign (c : ByteBitPosition) (multiplier : Nat) : ByteBitPosition :=
  c.assign (sizeMul c.TotalBitPosition multiplier)

/-- The friend `operator*`: `lhs *= multiplier; return lhs`. -/
def mul (lhs : ByteBitPosition) (multiplier : Nat) : ByteBitPosition := lhs.mulAssign multiplier

/-- Member function `PreAddBytes(size_t bytes)`: `m_byte_position += bytes`. -/
def PreAddBytes (c : ByteBitPosition) (bytes : Nat) : ByteBitPosition :=
  { c with m_byte_position := sizeAdd c.m_byte_position bytes }

/-- Member function `PostAddBytes(size_t bytes)`: the returned copy and the new `*this`. -/
def PostAddBytes (c : ByteBitPosition) (bytes : Nat) : ByteBitPosition × ByteBitPosition :=
  (c, c.PreAddBytes bytes)

/-- Member function `AddBytes(size_t bytes)`: works on a copy and returns it. -/
def AddBytes (c : ByteBitPosition) (bytes : Nat) : ByteBitPosition := c.PreAddBytes bytes

/-- Member function `PreSubBytes(size_t bytes)`: `m_byte_position -= bytes`. -/
def PreSubBytes (c : ByteBitPosition) (bytes : Nat) : ByteBitPosition :=
  { c with m_byte_position := sizeSub c.m_byte_position bytes }

/-- Member function `PostSubBytes(size_t bytes)`: the returned copy and the new `*this`. -/
def PostSubBytes (c : ByteBitPosition) (bytes : Nat) : ByteBitPosition × ByteBitPosition :=
  (c, c.PreSubBytes bytes)

/-- Member function `SubBytes(size_t bytes)`: works on a copy and returns it. -/
def SubBytes (c : ByteBitPosition) (bytes : Nat) : ByteBitPosition := c.PreSubBytes bytes

end ByteBitPosition

/-! ## `Header` and `Headers` -/

/-- The class `Header`: the four `int` members `cyl`, `head`, `sector`, `size`
(as initialised by `Header::Header(int cyl_, int head_, int sector_, int size_)`). -/
structure Header where
  cyl : Int
  head : Int
  sector : Int
  size : Int
  deriving DecidableEq, Repr

namespace Header

/-- Member function `Header::compare_chrn`. -/
def compare_chrn (h rhs : Header) : Bool :=
  decide (h.cyl = rhs.cyl) &&
    decide (h.head = rhs.head) &&
    decide (h.sector = rhs.sector) &&
    decide (h.size = rhs.size)

/-- Member function `Header::compare_crn`: compare without head match, like WD17xx. -/
def compare_crn (h rhs : Header) : Bool :=
  decide (h.cyl = rhs.cyl) &&
    decide (h.sector = rhs.sector) &&
    decide (h.size = rhs.size)

end Header

/-- The class `Headers`, a `std::vector<Header>`. -/
abbrev Headers := List Header

namespace Headers

/-- The body of the `for_each` lambda of `Headers::has_id_sequence`: a header whose sector id
lies outside `[first_id, first_id + length)` is passed over, otherwise its id is marked. The
sum `first_id + length` is the sum of two `int` values. -/
def markHeader (first_id length : Int) (sequence : List Bool) (header : Header) : List Bool :=
  if header.sector ≥ intAdd first_id length ∨ header.sector < first_id then sequence
  else sequence.set header.sector.toNat true

/-- Member function `Headers::has_id_sequence(const int first_id, const int length)`.
`sequence` is the `std::vector<bool>` of `first_id + length` unmarked entries, the sum being
the sum of two `int` values, and the result is `std::all_of` over
`sequence.begin() + first_id .. sequence.end()`. There is no result (`none`) when the vector
cannot be built, its size being negative (`std::vector` throws), or when
`sequence.begin() + first_id` does not lie within the vector, where the range of `all_of` is
not defined. -/
def has_id_sequence (hs : Headers) (first_id length : Int) : Option Bool :=
  if toInt32 hs.length < length then some false
  else if intAdd first_id length < 0 ∨ first_id < 0 ∨ intAdd first_id length < first_id then
    none
  else
    let sequence : List Bool := List.replicate (intAdd first_id length).toNat false
    let sequence := hs.foldl (markHeader first_id length) sequence
    some ((sequence.drop first_id.toNat).all (fun marked => marked))

end Headers

/-! ## Track transfer: `Disk::TransferTrack`

The collaborators of `Disk::TransferTrack` that are declared outside `Disk.cpp` (the track,
bitstream and track data classes, the reading policy, the normalisation, repair and scan
functions, the options, the two disks) are parameters of the embedding. The state of the
source disk, of the destination disk and of the scan context is passed explicitly, and every
call on a disk, every `RepairTrack` call and every diagnostic is recorded in a trace. -/

/-- The class `CylHead`: the `int` members `cyl` and `head`. -/
structure CylHead where
  cyl : Int
  head : Int
  deriving DecidableEq, Repr

/-- The `operator*(const CylHead& cylhead, int cyl_step)` of `Header.cpp`. -/
def CylHead.mul (cylhead : CylHead) (cyl_step : Int) : CylHead :=
  { cyl := cylhead.cyl * cyl_step, head := cylhead.head }

/-- The enumeration `TransferMode`: "Transfer means copy, merge or repair". -/
inductive TransferMode where
  | Copy
  | Merge
  | Repair
  deriving DecidableEq, Repr

/-- The option values read by `Disk::TransferTrack` (`getOpt<...>` of `Disk.cpp`). -/
structure Options where
  opt_minimal : Int
  opt_skip_stable_sectors : Bool
  opt_step : Int
  opt_track_retries : Int
  opt_verbose : Int
  deriving DecidableEq, Repr

/-- The types, constants and functions used by `Disk::TransferTrack` whose definitions lie
outside `Disk.cpp`. A function that modifies an argument in place returns its new value. -/
structure Collaborators where
  /-- The class `Track`. -/
  Track : Type
  /-- The class `BitBuffer`. -/
  BitBuffer : Type
  /-- The class `TrackData`. -/
  TrackData : Type
  /-- The type of `SkippableSectors()` and of `stable_sectors()`. -/
  Sectors : Type
  /-- The type of `WantedSectorHeaderIds()`. -/
  WantedIds : Type
  /-- The class `DeviceReadingPolicy`. -/
  DeviceReadingPolicy : Type
  /-- The class `ScanContext`. -/
  ScanContext : Type
  /-- The state of the source disk `src_disk`. -/
  SrcDisk : Type
  /-- The state of the destination disk `dst_disk`. -/
  DstDisk : Type
  /-- The constant `DISK_RETRY_AUTO`. -/
  DISK_RETRY_AUTO : Int
  /-- The function `IsTrackUsed(cyl, head)`. -/
  IsTrackUsed : Int → Int → Bool
  /-- The default constructed `Track`. -/
  trackDefault : Track
  /-- Member function `Track::stable_sectors()`. -/
  stable_sectors : Track → Sectors
  /-- The default constructed `TrackData`. -/
  trackDataDefault : TrackData
  /-- The constructor `TrackData(cylhead, track)`. -/
  trackDataOfTrack : CylHead → Track → TrackData
  /-- The constructor `TrackData(cylhead, bitstream)`. -/
  trackDataOfBitstream : CylHead → BitBuffer → TrackData
  /-- The member `TrackData::cylhead`. -/
  cylheadOf : TrackData → CylHead
  /-- The assignment to the member `TrackData::cylhead`. -/
  setCylhead : TrackData → CylHead → TrackData
  /-- Member function `TrackData::track()`. -/
  track : TrackData → Track
  /-- Member function `TrackData::has_bitstream()`. -/
  has_bitstream : TrackData → Bool
  /-- Member function `TrackData::bitstream()`. -/
  bitstream : TrackData → BitBuffer
  /-- The constructor of `DeviceReadingPolicy` from wanted ids and the look-for-possible flag. -/
  newPolicy : WantedIds → Bool → DeviceReadingPolicy
  /-- Member function `DeviceReadingPolicy::WantedSectorHeaderIds()`. -/
  WantedSectorHeaderIds : DeviceReadingPolicy → WantedIds
  /-- Member function `DeviceReadingPolicy::LookForPossibleSectors()`. -/
  LookForPossibleSectors : DeviceReadingPolicy → Bool
  /-- Member function `DeviceReadingPolicy::SkippableSectors()`. -/
  SkippableSectors : DeviceReadingPolicy → Sectors
  /-- Member function `DeviceReadingPolicy::SetSkippableSectors(sectors)`. -/
  SetSkippableSectors : DeviceReadingPolicy → Sectors → DeviceReadingPolicy
  /-- Member function `DeviceReadingPolicy::AddSkippableSectors(sectors)`. -/
  AddSkippableSectors : DeviceReadingPolicy → Sectors → DeviceReadingPolicy
  /-- Member function `DeviceReadingPolicy::WantMoreSectors()`. -/
  WantMoreSectors : DeviceReadingPolicy → Bool
  /-- Member function `empty()` of the skippable sectors. -/
  sectorsEmpty : Sectors → Bool
  /-- The function `NormaliseTrack(cylhead, track)`: its result and the track afterwards. -/
  NormaliseTrack : CylHead → Track → Bool × Track
  /-- The function `NormaliseBitstream(bitbuf)`: its result and the bitstream afterwards. -/
  NormaliseBitstream : BitBuffer → Bool × BitBuffer
  /-- The function `RepairTrack(cylhead, track, src_track, skippable)`: the number of fixes
  and the repaired track. -/
  RepairTrack : CylHead → Track → Track → Sectors → Int × Track
  /-- The function `ScanTrack(cylhead, track, context, skippable)`: the context afterwards. -/
  ScanTrack : CylHead → Track → ScanContext → Sectors → ScanContext
  /-- Member function `is_constant_disk()` of the source disk. -/
  src_is_constant_disk : SrcDisk → Bool
  /-- Member function `cyls()` of the source disk. -/
  src_cyls : SrcDisk → Int
  /-- Member function `read(cylhead, uncached, with_head_seek_to, deviceReadingPolicy)` of the
  source disk: the track data read and the disk afterwards. -/
  src_read : SrcDisk → CylHead → Bool → Int → DeviceReadingPolicy → TrackData × SrcDisk
  /-- Member function `read(cylhead)` of the destination disk. -/
  dst_read : DstDisk → CylHead → TrackData × DstDisk
  /-- Member function `write(trackdata)` of the destination disk. -/
  dst_write : DstDisk → TrackData → DstDisk

/-- The `Message` calls of `Disk::TransferTrack`. -/
inductive Diagnostic (Sectors : Type) where
  /-- `Message(msgStatus, "%seading %s", ...)`. -/
  | reading (is_track_retried : Bool) (cylhead : CylHead)
  /-- `Message(msgInfoAlways, "Ignoring already good sectors on %s: %s", ...)`. -/
  | ignoringGoodSectors (cylhead : CylHead) (skippable : Sectors)
  /-- `Message(msgInfoAlways, "Destination disk's track %s was repaired %u times", ...)`. -/
  | repairedTimes (cylhead : CylHead) (trackFixesNumber : Int)

/-- A call of `src_disk.read(cylhead, uncached, with_head_seek_to, deviceReadingPolicy)` as
recorded in the trace: its four arguments, the round in which it was issued and the value
of `src_disk.cyls()` at that moment. -/
structure SrcRead (E : Collaborators) where
  track_round : Nat
  src_cyls : Int
  cylhead : CylHead
  uncached : Bool
  with_head_seek_to : Int
  deviceReadingPolicy : E.DeviceReadingPolicy

/-- The calls recorded in the trace of a transfer: reads of the destination and of the source
disk, `RepairTrack` calls with their result, `ScanTrack` and `Message` calls, writes to the
destination disk with the track data written. -/
inductive Event (E : Collaborators) where
  | dstRead (cylhead : CylHead)
  | srcRead (read : SrcRead E)
  | repairTrack (repair_track_changed_amount : Int)
  | scanTrack (cylhead : CylHead)
  | message (diagnostic : Diagnostic E.Sectors)
  | dstWrite (trackdata : E.TrackData)

namespace Event

/-- The source read recorded by the event, if it is one. -/
def asSrcRead {E : Collaborators} : Event E → Option (SrcRead E)
  | srcRead read => some read
  | _ => none

/-- The cylinder and head of the destination read recorded by the event, if it is one. -/
def asDstRead {E : Collaborators} : Event E → Option CylHead
  | dstRead cylhead => some cylhead
  | _ => none

/-- The track data of the destination write recorded by the event, if it is one. -/
def asDstWrite {E : Collaborators} : Event E → Option E.TrackData
  | dstWrite trackdata => some trackdata
  | _ => none

/-- The result of the `RepairTrack` call recorded by the event, if it is one. -/
def asRepairTrack {E : Collaborators} : Event E → Option Int
  | repairTrack amount => some amount
  | _ => none

end Event

/-- The reads of the source disk in a trace, in order. -/
def srcReads {E : Collaborators} (trace : List (Event E)) : List (SrcRead E) :=
  trace.filterMap Event.asSrcRead

/-- The reads of the destination disk in a trace, in order. -/
def dstReads {E : Collaborators} (trace : List (Event E)) : List CylHead :=
  trace.filterMap Event.asDstRead

/-- The track data written to the destination disk in a trace, in order. -/
def dstWrites {E : Collaborators} (trace : List (Event E)) : List E.TrackData :=
  trace.filterMap Event.asDstWrite

/-- The results of the `RepairTrack` calls in a trace, in order. -/
def repairAmounts {E : Collaborators} (trace : List (Event E)) : List Int :=
  trace.filterMap Event.asRepairTrack

/-- The local variables of `Disk::TransferTrack` that live across the rounds, with the state
of the source disk, the scan context and the trace. -/
structure RoundState (E : Collaborators) where
  trackFixesNumber : Int
  dst_data : E.TrackData
  deviceReadingPolicyLocal : E.DeviceReadingPolicy
  src_disk : E.SrcDisk
  context : E.ScanContext
  trace : List (Event E)

/-- Append an event to the trace. -/
def RoundState.log {E : Collaborators} (st : RoundState E) (e : Event E) : RoundState E :=
  { st with trace := st.trace ++ [e] }

/-- The outcome of `Disk::TransferTrack`: the returned `trackFixesNumber`, the disks and the
scan context afterwards, and the trace. -/
structure TransferResult (E : Collaborators) where
  trackFixesNumber : Int
  src_disk : E.SrcDisk
  dst_disk : E.DstDisk
  context : E.ScanContext
  trace : List (Event E)

/-- The retry budget `track_retries` of `Disk::TransferTrack`:
`repairMode && !src_disk.is_constant_disk() && opt_track_retries >= 0 ? opt_track_retries : 0`. -/
def trackRetries (repairMode src_is_constant_disk : Bool) (opt_track_retries : Int) : Int :=
  if repairMode && !src_is_constant_disk && decide (opt_track_retries ≥ 0) then opt_track_retries
  else 0

/-- The head seek target `with_head_seek_to` of a round:
`is_track_retried ? std::max(0, std::min(cylhead.cyl + (track_round % 2 == 1 ? 1 : -1),
src_disk.cyls() - 1)) : -1`. The sum and the difference are those of `int` values. -/
def with_head_seek_to (track_round : Nat) (cyl src_cyls : Int) : Int :=
  if track_round > 0 then
    max 0 (min (intAdd cyl (if track_round % 2 = 1 then 1 else -1)) (intSub src_cyls 1))
  else -1

/-- The local reading policy after `SetSkippableSectors(deviceReadingPolicy.SkippableSectors())`
and `AddSkippableSectors(dst_track.stable_sectors())`. -/
def stablePolicy (E : Collaborators) (deviceReadingPolicy deviceReadingPolicyLocal :
    E.DeviceReadingPolicy) (dst_track : E.Track) : E.DeviceReadingPolicy :=
  E.AddSkippableSectors
    (E.SetSkippableSectors deviceReadingPolicyLocal (E.SkippableSectors deviceReadingPolicy))
    (E.stable_sectors dst_track)

/-- The bitstream normalisation of a round: if the source data has a bitstream and
`NormaliseBitstream` changes it, the source data is rebuilt from the normalised bitstream and
the source track is taken from the rebuilt data. Result: `src_data` and `src_track`. -/
def normaliseSource (E : Collaborators) (src_data : E.TrackData) : E.TrackData × E.Track :=
  if E.has_bitstream src_data then
    let normalised := E.NormaliseBitstream (E.bitstream src_data)
    if normalised.1 then
      let rebuilt := E.trackDataOfBitstream (E.cylheadOf src_data) normalised.2
      (rebuilt, E.track rebuilt)
    else (src_data, E.track src_data)
  else (src_data, E.track src_data)

/-- The source read of a round: `src_disk.read(cylhead * opt_step, uncached ||
is_track_retried, with_head_seek_to, deviceReadingPolicyLocal)`. Result: the track data read
and the source disk afterwards. -/
def roundRead (E : Collaborators) (opts : Options) (cylhead : CylHead) (uncached : Bool)
    (track_round : Nat) (st : RoundState E) : E.TrackData × E.SrcDisk :=
  E.src_read st.src_disk (cylhead.mul opts.opt_step) (uncached || decide (track_round > 0))
    (with_head_seek_to track_round cylhead.cyl (E.src_cyls st.src_disk))
    st.deviceReadingPolicyLocal

/-- The source of a round after both normalisations: `src_data` after the bitstream
normalisation, the result `changed` of `NormaliseTrack(cylhead, src_track)`, and `src_track`
after it. -/
def roundSource (E : Collaborators) (opts : Options) (cylhead : CylHead) (uncached : Bool)
    (track_round : Nat) (st : RoundState E) : E.TrackData × Bool × E.Track :=
  let source := normaliseSource E (roundRead E opts cylhead uncached track_round st).1
  (source.1, E.NormaliseTrack cylhead source.2)

/-- The repair of a round: `RepairTrack(cylhead, dst_track, src_track,
deviceReadingPolicyLocal.SkippableSectors())`. Result: `repair_track_changed_amount` and
the repaired `dst_track`. -/
def roundRepair (E : Collaborators) (opts : Options) (cylhead : CylHead) (uncached : Bool)
    (track_round : Nat) (dst_track : E.Track) (st : RoundState E) : Int × E.Track :=
  E.RepairTrack cylhead dst_track (roundSource E opts cylhead uncached track_round st).2.2
    (E.SkippableSectors st.deviceReadingPolicyLocal)

/-- The record of the source read of a round in the trace. -/
def roundReadRecord (E : Collaborators) (opts : Options) (cylhead : CylHead) (uncached : Bool)
    (track_round : Nat) (st : RoundState E) : SrcRead E :=
  { track_round := track_round
    src_cyls := E.src_cyls st.src_disk
    cylhead := cylhead.mul opts.opt_step
    uncached := uncached || decide (track_round > 0)
    with_head_seek_to := with_head_seek_to track_round cylhead.cyl (E.src_cyls st.src_disk)
    deviceReadingPolicy := st.deviceReadingPolicyLocal }

/-- The call `src_disk.read(cylhead, uncached, with_head_seek_to, deviceReadingPolicy)` that a
record of the trace describes, issued on the source disk `src_disk`. -/
def SrcRead.call {E : Collaborators} (rd : SrcRead E) (src_disk : E.SrcDisk) :
    E.TrackData × E.SrcDisk :=
  E.src_read src_disk rd.cylhead rd.uncached rd.with_head_seek_to rd.deviceReadingPolicy

/-- The source disk after the calls that a list of records describes, issued in order. -/
def replayReads {E : Collaborators} (reads : List (SrcRead E)) (src_disk : E.SrcDisk) :
    E.SrcDisk :=
  reads.foldl (fun disk rd => (rd.call disk).2) src_disk

/-- The reads recorded in a trace are the calls that made the source disk what it is: the
source disk is the one after the recorded calls, and every record holds the number of
cylinders of the disk it was issued on. -/
def ReadsReplayed (E : Collaborators) (src_disk : E.SrcDisk) (st : RoundState E) : Prop :=
  st.src_disk = replayReads (srcReads st.trace) src_disk ∧
  ∀ (i : Nat) (rd : SrcRead E), (srcReads st.trace)[i]? = some rd →
    rd.src_cyls = E.src_cyls (replayReads ((srcReads st.trace).take i) src_disk)

/-- The second half of a round of `Disk::TransferTrack`: the read of the source disk, the
normalisations, the verbose scan, and the repair or the copy/merge of the track. The result
is the state after the round and whether the round left the loop with `break`. -/
def readAndTransfer (E : Collaborators) (opts : Options) (cylhead : CylHead)
    (repairMode uncached : Bool) (track_retries : Int) (track_round : Nat)
    (dst_track : E.Track) (st : RoundState E) : RoundState E × Bool :=
  let read := roundRead E opts cylhead uncached track_round st
  let st1 : RoundState E :=
    { st with
      src_disk := read.2
      trace := st.trace ++ [Event.srcRead (roundReadRecord E opts cylhead uncached track_round st)] }
  let source := roundSource E opts cylhead uncached track_round st
  let changed := source.2.1
  let src_track := source.2.2
  let st2 : RoundState E :=
    if opts.opt_verbose ≠ 0 then
      { st1 with
        context := E.ScanTrack cylhead src_track st1.context
          (E.SkippableSectors st1.deviceReadingPolicyLocal)
        trace := st1.trace ++ [Event.scanTrack cylhead] }
    else st1
  if repairMode then
    let repaired := roundRepair E opts cylhead uncached track_round dst_track st
    let repair_track_changed_amount := repaired.1
    let st3 : RoundState E :=
      { st2 with
        dst_data := E.trackDataOfTrack cylhead repaired.2
        trace := st2.trace ++ [Event.repairTrack repair_track_changed_amount] }
    if track_retries = E.DISK_RETRY_AUTO ∧ repair_track_changed_amount = 0 then (st3, true)
    else
      let st4 : RoundState E :=
        { st3 with trackFixesNumber := st3.trackFixesNumber + repair_track_changed_amount }
      if opts.opt_verbose ≠ 0 ∧ st4.trackFixesNumber > 0 then
        (st4.log (Event.message (Diagnostic.repairedTimes cylhead st4.trackFixesNumber)), false)
      else (st4, false)
  else if changed then
    ({ st2 with dst_data := E.trackDataOfTrack cylhead src_track }, false)
  else
    ({ st2 with dst_data := E.setCylhead source.1 cylhead }, false)

/-- One round of the loop of `Disk::TransferTrack`. In repair mode the destination track is
taken from `dst_data` and normalised, and with `skip_stable_sectors` the round leaves the
loop when the local reading policy does not want more sectors. The result is the state
after the round and whether the round left the loop with `break`. -/
def transferRound (E : Collaborators) (opts : Options) (cylhead : CylHead)
    (repairMode uncached : Bool) (deviceReadingPolicy : E.DeviceReadingPolicy)
    (skip_stable_sectors : Bool) (track_retries : Int) (track_round : Nat)
    (st : RoundState E) : RoundState E × Bool :=
  let is_track_retried : Bool := decide (track_round > 0)
  let st1 := st.log (Event.message (Diagnostic.reading is_track_retried cylhead))
  if repairMode then
    let dst_track := (E.NormaliseTrack cylhead (E.track st1.dst_data)).2
    if skip_stable_sectors then
      let st2 : RoundState E :=
        { st1 with
          deviceReadingPolicyLocal :=
            stablePolicy E deviceReadingPolicy st1.deviceReadingPolicyLocal dst_track }
      if E.WantMoreSectors st2.deviceReadingPolicyLocal = false then (st2, true)
      else
        let st3 : RoundState E :=
          if opts.opt_verbose ≠ 0 ∧
              E.sectorsEmpty (E.SkippableSectors st2.deviceReadingPolicyLocal) = false then
            st2.log (Event.message (Diagnostic.ignoringGoodSectors cylhead
              (E.SkippableSectors st2.deviceReadingPolicyLocal)))
          else st2
        readAndTransfer E opts cylhead repairMode uncached track_retries track_round dst_track st3
    else
      readAndTransfer E opts cylhead repairMode uncached track_retries track_round dst_track st1
  else
    readAndTransfer E opts cylhead repairMode uncached track_retries track_round
      E.trackDefault st1

/-- The loop `for (track_round = 0; track_round <= track_retries; track_round++)` over the
list of its round numbers: the body runs for each round in turn until it breaks. -/
def transferRounds {E : Collaborators} (body : Nat → RoundState E → RoundState E × Bool) :
    List Nat → RoundState E → RoundState E
  | [], st => st
  | track_round :: later, st =>
    let after := body track_round st
    if after.2 then after.1 else transferRounds body later after.1

/-- The round numbers `0, 1, ..., track_retries` of the loop, for a `track_retries` below
`INT_MAX`, where the `int` counter reaches `track_retries + 1` and the loop condition
fails; `transferRoundsCounted` is the loop with the counter itself. -/
def roundNumbers (track_retries : Int) : List Nat := List.range (track_retries + 1).toNat

/-- The state of `Disk::TransferTrack` before the first round: `trackFixesNumber = 0`, the
local reading policy built from the wanted ids and the look-for-possible flag of the
caller's policy, and `dst_data`, which in repair mode is read from the destination disk
(`dst_data = dst_disk.read(cylhead)`) and is default constructed otherwise. -/
def initialState (E : Collaborators) (src_disk : E.SrcDisk) (cylhead : CylHead)
    (dst_disk : E.DstDisk) (context : E.ScanContext) (repairMode : Bool)
    (deviceReadingPolicy : E.DeviceReadingPolicy) : RoundState E :=
  { trackFixesNumber := 0
    dst_data := if repairMode then (E.dst_read dst_disk cylhead).1 else E.trackDataDefault
    deviceReadingPolicyLocal := E.newPolicy (E.WantedSectorHeaderIds deviceReadingPolicy)
      (E.LookForPossibleSectors deviceReadingPolicy)
    src_disk := src_disk
    context := context
    trace := if repairMode then [Event.dstRead cylhead] else [] }

/-- The destination disk after the early read of repair mode. -/
def dstAfterEarlyRead (E : Collaborators) (cylhead : CylHead) (dst_disk : E.DstDisk)
    (repairMode : Bool) : E.DstDisk :=
  if repairMode then (E.dst_read dst_disk cylhead).2 else dst_disk

/-- The flag `skip_stable_sectors` of `Disk::TransferTrack`:
`opt_skip_stable_sectors && !src_disk.is_constant_disk() ? true : false`. -/
def skipStableSectors (E : Collaborators) (opts : Options) (src_disk : E.SrcDisk) : Bool :=
  if opts.opt_skip_stable_sectors && !E.src_is_constant_disk src_disk then true else false

/-- The loop of `Disk::TransferTrack` from the initial state: the state after the last
round. -/
def transferLoop (E : Collaborators) (opts : Options) (src_disk : E.SrcDisk)
    (cylhead : CylHead) (dst_disk : E.DstDisk) (context : E.ScanContext)
    (repairMode uncached : Bool) (deviceReadingPolicy : E.DeviceReadingPolicy) : RoundState E :=
  let track_retries := trackRetries repairMode (E.src_is_constant_disk src_disk)
    opts.opt_track_retries
  transferRounds
    (transferRound E opts cylhead repairMode uncached deviceReadingPolicy
      (skipStableSectors E opts src_disk) track_retries)
    (roundNumbers track_retries)
    (initialState E src_disk cylhead dst_disk context repairMode deviceReadingPolicy)

/-- The static member function `Disk::TransferTrack(src_disk, cylhead, dst_disk, context,
transferMode, uncached, deviceReadingPolicy)`: in minimal reading mode an unused track is
skipped; otherwise the rounds run and the final `dst_data` is written to the destination
disk. -/
def TransferTrack (E : Collaborators) (opts : Options) (src_disk : E.SrcDisk)
    (cylhead : CylHead) (dst_disk : E.DstDisk) (context : E.ScanContext)
    (transferMode : TransferMode) (uncached : Bool)
    (deviceReadingPolicy : E.DeviceReadingPolicy) : TransferResult E :=
  if opts.opt_minimal ≠ 0 ∧ E.IsTrackUsed cylhead.cyl cylhead.head = false then
    { trackFixesNumber := 0, src_disk := src_disk, dst_disk := dst_disk, context := context
      trace := [] }
  else
    let repairMode : Bool := decide (transferMode = TransferMode.Repair)
    let final := transferLoop E opts src_disk cylhead dst_disk context repairMode uncached
      deviceReadingPolicy
    { trackFixesNumber := final.trackFixesNumber
      src_disk := final.src_disk
      dst_disk := E.dst_write (dstAfterEarlyRead E cylhead dst_disk repairMode) final.dst_data
      context := final.context
      trace := final.trace ++ [Event.dstWrite final.dst_data] }

/-- The loop `for (auto track_round = 0; track_round <= track_retries; track_round++)` of
`Disk::TransferTrack` with its counter as the `int` it is, run for at most `fuel`
evaluations of the loop condition: `none` when the loop has not ended by then. The
increment is the sum of two `int` values. The body reads the counter through
`track_round > 0` and, in a retried round, `track_round % 2 == 1` only, so for a counter
below 0 it is the body of a round that is not retried. -/
def transferRoundsCounted {E : Collaborators}
    (body : Nat → RoundState E → RoundState E × Bool) (track_retries : Int) :
    Nat → Int → RoundState E → Option (RoundState E)
  | 0, _, _ => none
  | fuel + 1, track_round, st =>
    if track_round ≤ track_retries then
      let after := body track_round.toNat st
      if after.2 then some after.1
      else transferRoundsCounted body track_retries fuel (intAdd track_round 1) after.1
    else some st

/-- The static member function `Disk::TransferTrack` with the counter of its loop as the
`int` it is, run for at most `fuel` evaluations of the loop condition: `none` when the
loop has not ended by then, otherwise the outcome of the call. -/
def TransferTrackCounted (E : Collaborators) (opts : Options) (src_disk : E.SrcDisk)
    (cylhead : CylHead) (dst_disk : E.DstDisk) (context : E.ScanContext)
    (transferMode : TransferMode) (uncached : Bool)
    (deviceReadingPolicy : E.DeviceReadingPolicy) (fuel : Nat) : Option (TransferResult E) :=
  if opts.opt_minimal ≠ 0 ∧ E.IsTrackUsed cylhead.cyl cylhead.head = false then
    some { trackFixesNumber := 0, src_disk := src_disk, dst_disk := dst_disk
           context := context, trace := [] }
  else
    let repairMode : Bool := decide (transferMode = TransferMode.Repair)
    let track_retries := trackRetries repairMode (E.src_is_constant_disk src_disk)
      opts.opt_track_retries
    (transferRoundsCounted
      (transferRound E opts cylhead repairMode uncached deviceReadingPolicy
        (skipStableSectors E opts src_disk) track_retries)
      track_retries fuel 0
      (initialState E src_disk cylhead dst_disk context repairMode deviceReadingPolicy)).map
      (fun final =>
        { trackFixesNumber := final.trackFixesNumber
          src_disk := final.src_disk
          dst_disk := E.dst_write (dstAfterEarlyRead E cylhead dst_disk repairMode)
            final.dst_data
          context := final.context
          trace := final.trace ++ [Event.dstWrite final.dst_data] })

/-- The source read of round 0 of a transfer: `src_disk.read(cylhead * opt_step, uncached, -1,
deviceReadingPolicyLocal)` with the local reading policy as first built. Result: the track
data read by this call. -/
def firstRead (E : Collaborators) (opts : Options) (src_disk : E.SrcDisk) (cylhead : CylHead)
    (uncached : Bool) (deviceReadingPolicy : E.DeviceReadingPolicy) : E.TrackData :=
  (E.src_read src_disk (cylhead.mul opts.opt_step) uncached (-1)
    (E.newPolicy (E.WantedSectorHeaderIds deviceReadingPolicy)
      (E.LookForPossibleSectors deviceReadingPolicy))).1

/-- The part of a round state that does not consist of diagnostics: the fix count, the
destination data, the local reading policy, the source disk, and the reads, `RepairTrack`
results, writes and destination reads of the trace. The scan context and the `Message` and
`ScanTrack` events are left out. -/
def RoundState.core {E : Collaborators} (st : RoundState E) :
    Int × E.TrackData × E.DeviceReadingPolicy × E.SrcDisk × List (SrcRead E) × List Int ×
      List E.TrackData × List CylHead :=
  (st.trackFixesNumber, st.dst_data, st.deviceReadingPolicyLocal, st.src_disk,
    srcReads st.trace, repairAmounts st.trace, dstWrites st.trace, dstReads st.trace)

/-! ### A concrete set of collaborators

A small instance of `Collaborators` on which `TransferTrack` can be evaluated: a track is a
list of sector ids with a "good" flag, a disk read takes the next of a list of prepared
results, and the normalisation and repair functions are simple stand-ins. -/

/-- Example track data: a decoded track and possibly a raw bitstream. -/
structure ExampleTrackData where
  cylhead : CylHead
  track : List (Int × Bool)
  bitstream : Option (List Bool)
  deriving DecidableEq, Repr

/-- Example reading policy. -/
structure ExamplePolicy where
  wanted : List Int
  lookForPossibleSectors : Bool
  skippable : List Int
  deriving DecidableEq, Repr

/-- Example source disk: whether it is constant, its number of cylinders, and the results of
its coming reads. -/
structure ExampleSource where
  constant : Bool
  cyls : Int
  pending : List ExampleTrackData
  deviceReads : Nat
  deriving DecidableEq, Repr

/-- Example `RepairTrack`: a bad destination sector is fixed when its id is not skippable and
the source track has a good sector of the same id. -/
def exampleRepairTrack (dst_track src_track : List (Int × Bool)) (skippable : List Int) :
    Int × List (Int × Bool) :=
  let fixable : Int × Bool → Bool := fun sector =>
    !sector.2 && !skippable.contains sector.1 && src_track.contains (sector.1, true)
  (((dst_track.filter fixable).length : Nat),
   dst_track.map (fun sector => if fixable sector then (sector.1, true) else sector))

/-- The example collaborators, for a given value of `DISK_RETRY_AUTO`. Cylinder 5 head 0 is
the only unused track, `NormaliseTrack` drops sectors with a negative id, `NormaliseBitstream`
cuts a bitstream down to 4 bits. -/
def exampleCollaborators (auto : Int) : Collaborators where
  Track := List (Int × Bool)
  BitBuffer := List Bool
  TrackData := ExampleTrackData
  Sectors := List Int
  WantedIds := List Int
  DeviceReadingPolicy := ExamplePolicy
  ScanContext := Nat
  SrcDisk := ExampleSource
  DstDisk := List ExampleTrackData
  DISK_RETRY_AUTO := auto
  IsTrackUsed := fun cyl head => !(decide (cyl = 5) && decide (head = 0))
  trackDefault := []
  stable_sectors := fun track => (track.filter (fun sector => sector.2)).map (fun s => s.1)
  trackDataDefault := { cylhead := { cyl := 0, head := 0 }, track := [], bitstream := none }
  trackDataOfTrack := fun cylhead track =>
    { cylhead := cylhead, track := track, bitstream := none }
  trackDataOfBitstream := fun cylhead bits =>
    { cylhead := cylhead, track := [], bitstream := some bits }
  cylheadOf := fun trackdata => trackdata.cylhead
  setCylhead := fun trackdata cylhead => { trackdata with cylhead := cylhead }
  track := fun trackdata => trackdata.track
  has_bitstream := fun trackdata => trackdata.bitstream.isSome
  bitstream := fun trackdata => trackdata.bitstream.getD []
  newPolicy := fun wanted look =>
    { wanted := wanted, lookForPossibleSectors := look, skippable := [] }
  WantedSectorHeaderIds := fun policy => policy.wanted
  LookForPossibleSectors := fun policy => policy.lookForPossibleSectors
  SkippableSectors := fun policy => policy.skippable
  SetSkippableSectors := fun policy sectors => { policy with skippable := sectors }
  AddSkippableSectors := fun policy sectors =>
    { policy with skippable := policy.skippable ++ sectors }
  WantMoreSectors := fun policy =>
    policy.lookForPossibleSectors || policy.wanted.any (fun id => !policy.skippable.contains id)
  sectorsEmpty := fun sectors => sectors.isEmpty
  NormaliseTrack := fun _ track =>
    (track.any (fun sector => decide (sector.1 < 0)),
     track.filter (fun sector => decide (0 ≤ sector.1)))
  NormaliseBitstream := fun bits => (decide (4 < bits.length), bits.take 4)
  RepairTrack := fun _ dst_track src_track skippable =>
    exampleRepairTrack dst_track src_track skippable
  ScanTrack := fun _ _ context _ => context + 1
  src_is_constant_disk := fun disk => disk.constant
  src_cyls := fun disk => disk.cyls
  src_read := fun disk _ _ _ _ =>
    match disk.pending with
    | [] => ({ cylhead := { cyl := 0, head := 0 }, track := [], bitstream := none },
             { disk with deviceReads := disk.deviceReads + 1 })
    | data :: later => (data, { disk with pending := later, deviceReads := disk.deviceReads + 1 })
  dst_read := fun disk _ =>
    (disk.headD { cylhead := { cyl := 0, head := 0 }, track := [], bitstream := none }, disk)
  dst_write := fun disk trackdata => trackdata :: disk

/-- Example options: no minimal mode, step 1, not verbose. -/
def exampleOptions (opt_track_retries : Int) (opt_skip_stable_sectors : Bool) : Options :=
  { opt_minimal := 0, opt_skip_stable_sectors := opt_skip_stable_sectors, opt_step := 1
    opt_track_retries := opt_track_retries, opt_verbose := 0 }

/-- Example destination track data: sector 1 good, sector 2 with bad CRC. -/
def exampleDstData : ExampleTrackData :=
  { cylhead := { cyl := 3, head := 0 }, track := [(1, true), (2, false)], bitstream := none }

/-- Example source track data: sectors 1 and 2 good, no raw bitstream. -/
def exampleSrcData : ExampleTrackData :=
  { cylhead := { cyl := 3, head := 0 }, track := [(1, true), (2, true)], bitstream := none }

/-- Example source track data with a raw bitstream of 6 bits, which the example
`NormaliseBitstream` changes. -/
def exampleRawData : ExampleTrackData :=
  { cylhead := { cyl := 3, head := 0 }, track := [(1, true), (2, true)]
    bitstream := some [true, false, true, true, false, false] }

/-! ## The base `Disk`: the track map and its operations

The member `m_trackdata` is a `std::map<CylHead, TrackData>`: here a list of key and value
pairs in the order of the keys. The track data class, its default value and its `cylhead`
member are those of the collaborators of `Disk::TransferTrack`. -/

/-- Modelled from the spec: the order of the keys of the track map, by cylinder and then by
head (the comparison of `CylHead` values is declared in `Header.h`, which is not among the
sources; the spec has unique keys that are physical locations). -/
def CylHead.less (a b : CylHead) : Bool :=
  decide (a.cyl < b.cyl) || (decide (a.cyl = b.cyl) && decide (a.head < b.head))

/-- The statement `cylhead.head ^= 1` of `Disk::flip_sides` on its copy of a key: the lowest
bit of the `int` member `head` is flipped (the exclusive or of two `int` values is the one
of the integers, which never leaves the range of `int`). -/
def CylHead.flipHead (cylhead : CylHead) : CylHead :=
  { cylhead with head := Int.xor cylhead.head 1 }

/-- The type `std::map<CylHead, TrackData>` of `m_trackdata`. -/
abbrev TrackMap (TD : Type) := List (CylHead × TD)

namespace TrackMap

/-- Member function `find(key)` of the map: the value stored under the key, if any. -/
def find {TD : Type} : TrackMap TD → CylHead → Option TD
  | [], _ => none
  | (k, x) :: rest, key => if key = k then some x else find rest key

/-- The insertion of a key that is not stored yet, at its place in the order of the keys. -/
def insertOrdered {TD : Type} : TrackMap TD → CylHead → TD → TrackMap TD
  | [], key, v => [(key, v)]
  | (k, x) :: rest, key, v =>
    if key.less k then (key, v) :: (k, x) :: rest
    else (k, x) :: insertOrdered rest key v

/-- The replacement of the value stored under a key. -/
def replace {TD : Type} (m : TrackMap TD) (key : CylHead) (v : TD) : TrackMap TD :=
  m.map (fun p => if p.1 = key then (p.1, v) else p)

/-- The insertion done by `operator[]` of the map: a key that is not stored yet is inserted
at its place in the order with the given (default constructed) value; a stored key and its
value are left alone. -/
def emplace {TD : Type} (m : TrackMap TD) (key : CylHead) (v : TD) : TrackMap TD :=
  if (m.find key).isSome then m else m.insertOrdered key v

/-- The assignment `map[key] = v`: the value of a stored key is replaced, a new key is
inserted at its place in the order. -/
def assign {TD : Type} (m : TrackMap TD) (key : CylHead) (v : TD) : TrackMap TD :=
  if (m.find key).isSome then m.replace key v else m.insertOrdered key v

/-- The keys of the map, in order. -/
def keys {TD : Type} (m : TrackMap TD) : List CylHead := m.map (fun p => p.1)

/-- The invariant of a `std::map`: the keys are stored in strictly increasing order, so no
key is stored twice. -/
abbrev Ordered {TD : Type} (m : TrackMap TD) : Prop :=
  List.Pairwise (fun a b => CylHead.less a.1 b.1 = true) m

/-- The body of the loop of `Disk::flip_sides` for one pair of the old map: the value is
assigned in the new map `trackdata` under the key with the head flipped. -/
def flipInto {TD : Type} (trackdata : TrackMap TD) (pair : CylHead × TD) : TrackMap TD :=
  trackdata.assign pair.1.flipHead pair.2

end TrackMap

/-- The members of the base `Disk` that its track operations use: the track map
`m_trackdata` and the member `sectors` of the format `m_fmt`. -/
structure Disk (E : Collaborators) where
  m_trackdata : TrackMap E.TrackData
  fmt_sectors : Int

namespace Disk

/-- Member function `Disk::cyls()`: 0 for an empty map, else the cylinder of the last key
plus one. -/
def cyls {E : Collaborators} (d : Disk E) : Int :=
  match d.m_trackdata.getLast? with
  | none => 0
  | some p => p.1.cyl + 1

/-- Member function `Disk::heads()`: 0 for an empty map, else 2 when some key has a head
other than 0, else 1. -/
def heads {E : Collaborators} (d : Disk E) : Int :=
  if d.m_trackdata.isEmpty then 0
  else if d.m_trackdata.any (fun p => decide (p.1.head ≠ 0)) then 2 else 1

/-- Member function `Disk::readNC(cylhead, ...)` of the base class: `GetTrackData()[cylhead]`.
Result: the track data returned and the disk afterwards. -/
def readNC {E : Collaborators} (d : Disk E) (cylhead : CylHead) : E.TrackData × Disk E :=
  let m := d.m_trackdata.emplace cylhead E.trackDataDefault
  ((m.find cylhead).getD E.trackDataDefault, { d with m_trackdata := m })

/-- Member function `Disk::read(cylhead, ...)`: `readNC`. -/
def read {E : Collaborators} (d : Disk E) (cylhead : CylHead) : E.TrackData × Disk E :=
  d.readNC cylhead

/-- Member function `Disk::writeNC(trackdata)`: the stored format is invalidated, the track
data is assigned under its own `cylhead`, and the stored value is returned. -/
def writeNC {E : Collaborators} (d : Disk E) (trackdata : E.TrackData) :
    E.TrackData × Disk E :=
  let cylhead := E.cylheadOf trackdata
  let m := d.m_trackdata.assign cylhead trackdata
  let m2 := m.emplace cylhead E.trackDataDefault
  ((m2.find cylhead).getD E.trackDataDefault, { m_trackdata := m2, fmt_sectors := 0 })

/-- Member function `Disk::write(trackdata)`: `writeNC`. -/
def write {E : Collaborators} (d : Disk E) (trackdata : E.TrackData) :
    E.TrackData × Disk E :=
  d.writeNC trackdata

/-- Member function `Disk::track_exists(cylhead)`. -/
def track_exists {E : Collaborators} (d : Disk E) (cylhead : CylHead) : Bool :=
  (d.m_trackdata.find cylhead).isSome

/-- Member function `Disk::resize(new_cyls, new_heads)`: with both arguments at most 0 the
map is cleared; otherwise the tracks beyond the new extent are erased and, if the disk is
then too small, a blank track is inserted at `CylHead(new_cyls - 1, new_heads - 1)`. -/
def resize {E : Collaborators} (d : Disk E) (new_cyls new_heads : Int) : Disk E :=
  if new_cyls ≤ 0 ∧ new_heads ≤ 0 then { d with m_trackdata := [] }
  else
    let kept : Disk E :=
      { d with
        m_trackdata := d.m_trackdata.filter
          (fun p => !(decide (p.1.cyl ≥ new_cyls) || decide (p.1.head ≥ new_heads))) }
    if kept.cyls < new_cyls ∨ kept.heads < new_heads then
      { kept with
        m_trackdata := kept.m_trackdata.emplace
          { cyl := new_cyls - 1, head := new_heads - 1 } E.trackDataDefault }
    else kept

/-- The loop of `Disk::resize` that removes the tracks beyond the new extent, on its own:
the disk that `resize` calls `cyls()` and `heads()` on. -/
def eraseBeyond {E : Collaborators} (d : Disk E) (new_cyls new_heads : Int) : Disk E :=
  { d with
    m_trackdata := d.m_trackdata.filter
      (fun p => !(decide (p.1.cyl ≥ new_cyls) || decide (p.1.head ≥ new_heads))) }

/-- Member function `Disk::flip_sides()`: the pairs of the map are visited in the order of
the keys and moved into a new map under the key with the head flipped; the new map then
takes the place of the old one. -/
def flip_sides {E : Collaborators} (d : Disk E) : Disk E :=
  { d with m_trackdata := d.m_trackdata.foldl TrackMap.flipInto [] }

end Disk

/-! ## `FdrawcmdSys`: data rate, encoding and seek

The driver constants of `fdrawcmd.h` are parameters. Every `Ioctl` call is recorded with its
control code and input buffer, and its result is given by the device. A thrown
`util::exception` is an error result; the object is returned as it is at that moment. -/

/-- The enumeration `DataRate`, with the enumerators named in `Header.cpp`. -/
inductive DataRate where
  | _250K
  | _300K
  | _500K
  | _1M
  | Unknown
  deriving DecidableEq, Repr

/-- The enumeration `Encoding`, with the enumerators named in `Header.cpp`. -/
inductive Encoding where
  | MFM
  | FM
  | RX02
  | Amiga
  | GCR
  | Ace
  | MX
  | Agat
  | Apple
  | Victor
  | Vista
  | Unknown
  deriving DecidableEq, Repr

/-- The constants of `fdrawcmd.h` used by `SetEncRate`. -/
structure FdConstants where
  FD_OPTION_MFM : Nat
  FD_OPTION_FM : Nat
  FD_RATE_250K : Nat
  FD_RATE_300K : Nat
  FD_RATE_500K : Nat
  FD_RATE_1M : Nat

/-- The control codes of the `Ioctl` calls of `SetEncRate`, `Recalibrate` and `Seek`. -/
inductive IoctlCode where
  | IOCTL_FDCMD_PERPENDICULAR_MODE
  | IOCTL_FD_SET_DATA_RATE
  | IOCTL_FDCMD_RECALIBRATE
  | IOCTL_FDCMD_SEEK
  deriving DecidableEq, Repr

/-- An `Ioctl` call: the control code and the bytes of the input buffer. -/
structure IoctlCall where
  code : IoctlCode
  inbuf : List Nat
  deriving DecidableEq, Repr

/-- The members of `FdrawcmdSys` used here, `m_encoding_flags`, with the `Ioctl` calls issued
so far. -/
structure FdrawcmdSys where
  m_encoding_flags : Nat
  issued : List IoctlCall
  deriving DecidableEq, Repr

namespace FdrawcmdSys

/-- Member function `Ioctl(code, inbuf, insize)`: the call goes to the device, whose answer
is the result. -/
def Ioctl (device : IoctlCall → Bool) (s : FdrawcmdSys) (call : IoctlCall) :
    Bool × FdrawcmdSys :=
  (device call, { s with issued := s.issued ++ [call] })

/-- Member function `FdrawcmdSys::SetEncRate(encoding, datarate)`. A thrown `util::exception`
is the error result; its text is kept without the value printed between the parentheses. -/
def SetEncRate (c : FdConstants) (device : IoctlCall → Bool) (s : FdrawcmdSys)
    (encoding : Encoding) (datarate : DataRate) : Except String Bool × FdrawcmdSys :=
  if encoding ≠ Encoding.MFM ∧ encoding ≠ Encoding.FM then
    (Except.error "unsupported encoding for fdrawcmd.sys", s)
  else
    let ow_ds_gap_wgate : Nat := if datarate = DataRate._1M then 0xbc else 0x00
    let s1 := (Ioctl device s
      { code := IoctlCode.IOCTL_FDCMD_PERPENDICULAR_MODE, inbuf := [ow_ds_gap_wgate] }).2
    let rate : Option Nat :=
      match datarate with
      | DataRate._250K => some c.FD_RATE_250K
      | DataRate._300K => some c.FD_RATE_300K
      | DataRate._500K => some c.FD_RATE_500K
      | DataRate._1M => some c.FD_RATE_1M
      | _ => none
    match rate with
    | none => (Except.error "unsupported datarate", s1)
    | some rate =>
      let s2 : FdrawcmdSys :=
        { s1 with
          m_encoding_flags :=
            if encoding = Encoding.MFM then c.FD_OPTION_MFM else c.FD_OPTION_FM }
      let result := Ioctl device s2
        { code := IoctlCode.IOCTL_FD_SET_DATA_RATE, inbuf := [toUInt8 rate] }
      (Except.ok result.1, result.2)

end FdrawcmdSys

/-! ## Orphan and parent merge of `OrphanDataCapableTrack`

`OrphanDataCapableTrack.h` declares the static `MergeOrphansIntoParents`; its body and the
classes `Track` and `Sector` are defined elsewhere. The merge is therefore written after its
description: a track is the sequence of its sectors, the sector class is a type parameter
with its header read by `headerOf`, and the sector level precedence rule, shared with
repair, is the parameter `precedence parent orphan`, which returns the parent sector after
the merge and the number of corrections it made. -/

namespace OrphanDataCapableTrack

end OrphanDataCapableTrack

/-! ## Arithmetic of the machine integers -/

theorem sizeAdd_lt (a b : Nat) : sizeAdd a b < 2 ^ 64 := by
  unfold sizeAdd SIZE_T_MOD; omega

theorem sizeSub_lt (a b : Nat) : sizeSub a b < 2 ^ 64 := by
  unfold sizeSub SIZE_T_MOD; omega

theorem sizeMul_lt (a b : Nat) : sizeMul a b < 2 ^ 64 := by
  unfold sizeMul SIZE_T_MOD; omega

theorem sizeAdd_of_lt (a b : Nat) (h : a + b < 2 ^ 64) : sizeAdd a b = a + b := by
  unfold sizeAdd SIZE_T_MOD; omega

theorem sizeSub_of_le (a b : Nat) (ha : a < 2 ^ 64) (h : b ≤ a) : sizeSub a b = a - b := by
  unfold sizeSub SIZE_T_MOD; omega

theorem sizeMul_of_lt (a b : Nat) (h : a * b < 2 ^ 64) : sizeMul a b = a * b := by
  unfold sizeMul SIZE_T_MOD; exact Nat.mod_eq_of_lt h

theorem sizeSub_sizeAdd_cancel (a b : Nat) (ha : a < 2 ^ 64) :
    sizeSub (sizeAdd a b) b = a := by
  unfold sizeSub sizeAdd SIZE_T_MOD; omega

namespace ByteBitPosition

theorem TotalBitPosition_lt (c : ByteBitPosition) : c.TotalBitPosition < 2 ^ 64 :=
  sizeAdd_lt _ _

theorem TotalBitPosition_of_lt (c : ByteBitPosition)
    (h : c.m_byte_position * 8 + c.m_bit_position < 2 ^ 64) :
    c.TotalBitPosition = c.m_byte_position * 8 + c.m_bit_position := by
  unfold TotalBitPosition sizeAdd sizeMul SIZE_T_MOD UINT8_T_BIT_SIZE; omega

theorem assign_byte (c : ByteBitPosition) (t : Nat) : (c.assign t).m_byte_position = t / 8 := rfl

theorem assign_bit (c : ByteBitPosition) (t : Nat) : (c.assign t).m_bit_position = t % 8 := by
  show toUInt8 (t % UINT8_T_BIT_SIZE) = t % 8
  unfold toUInt8 UINT8_T_MOD UINT8_T_BIT_SIZE; omega

theorem assign_TotalBitPosition (c : ByteBitPosition) (t : Nat) (h : t < 2 ^ 64) :
    (c.assign t).TotalBitPosition = t := by
  rw [TotalBitPosition_of_lt] <;> rw [assign_byte, assign_bit] <;> omega

theorem assign_TotalBitPosition_self (c other : ByteBitPosition)
    (hbit : c.m_bit_position < 8) (hbyte : c.m_byte_position < 2 ^ 61) :
    other.assign c.TotalBitPosition = c := by
  have ht := TotalBitPosition_of_lt c (by omega)
  have h1 := assign_byte other c.TotalBitPosition
  have h2 := assign_bit other c.TotalBitPosition
  cases c with
  | mk byte bit =>
    cases hr : other.assign (TotalBitPosition ⟨byte, bit⟩) with
    | mk byte2 bit2 =>
      rw [hr] at h1 h2
      simp only at h1 h2 ht hbit hbyte
      rw [ht] at h1 h2
      congr 1 <;> omega

theorem operator_lt_iff (a b : ByteBitPosition) :
    lt a b = true ↔ a.m_byte_position < b.m_byte_position := by
  simp [lt, tieLt]

theorem operator_eq_iff (a b : ByteBitPosition) :
    eq a b = true ↔ a.m_byte_position = b.m_byte_position := by
  simp [eq, tieEq]

/-! ## The cursor: comparison, round trips, invariant, arithmetic -/

/-- C2 (evaluation of the code at the failing input): the cursors `(byte 0, bit 1)` and
`(byte 0, bit 2)` have bit positions below 8 and total bit positions `1 < 2`, yet
`operator<` answers `false` and `operator==` answers `true` for them, because both
operators compare `m_byte_position` with itself and never read `m_bit_position`. -/
theorem C2_comparison_ignores_bit_position :
    (ByteBitPosition.mk 0 1).m_bit_position < 8 ∧ (ByteBitPosition.mk 0 2).m_bit_position < 8 ∧
    (ByteBitPosition.mk 0 1).TotalBitPosition = 1 ∧
    (ByteBitPosition.mk 0 2).TotalBitPosition = 2 ∧
    lt (ByteBitPosition.mk 0 1) (ByteBitPosition.mk 0 2) = false ∧
    eq (ByteBitPosition.mk 0 1) (ByteBitPosition.mk 0 2) = true := by
  refine ⟨by decide, by decide, ?_, ?_, ?_, ?_⟩
  · exact TotalBitPosition_of_lt _ (by decide)
  · exact TotalBitPosition_of_lt _ (by decide)
  · simp [lt, tieLt]
  · simp [eq, tieEq]

/-- C3: for a cursor with bit position below 8 and byte position below `2 ^ 61`, assigning its
`TotalBitPosition()` to any cursor through `operator=(size_t)`, or constructing a cursor
from it, reproduces the same byte position and bit position. -/
theorem C3_total_bit_position_round_trip (c other : ByteBitPosition)
    (hbit : c.m_bit_position < 8) (hbyte : c.m_byte_position < 2 ^ 61) :
    other.assign c.TotalBitPosition = c ∧ ofSizeT c.TotalBitPosition = c :=
  ⟨assign_TotalBitPosition_self c other hbit hbyte,
   assign_TotalBitPosition_self c init hbit hbyte⟩

/-- Witness of C3 at the cursor `(byte 5, bit 7)`. -/
theorem C3_total_bit_position_round_trip_witness :
    (ByteBitPosition.mk 5 7).m_bit_position < 8 ∧
    (ByteBitPosition.mk 5 7).m_byte_position < 2 ^ 61 ∧
    (ByteBitPosition.mk 9 3).assign (ByteBitPosition.mk 5 7).TotalBitPosition
      = ByteBitPosition.mk 5 7 ∧
    ofSizeT (ByteBitPosition.mk 5 7).TotalBitPosition = ByteBitPosition.mk 5 7 :=
  ⟨by decide, by decide,
   C3_total_bit_position_round_trip (ByteBitPosition.mk 5 7) (ByteBitPosition.mk 9 3)
     (by decide) (by decide)⟩

/-- C4: for a cursor `c` with bit position below 8 and byte position below `2 ^ 61` and every
bit count `n` (in particular every `size_t` value), `c += n` followed by `-= n`, both in
wrapping `size_t` arithmetic, gives back the byte position and the bit position of `c`. -/
theorem C4_add_then_sub_bits (c : ByteBitPosition) (n : Nat)
    (hbit : c.m_bit_position < 8) (hbyte : c.m_byte_position < 2 ^ 61) :
    (c.addAssignBits n).subAssignBits n = c := by
  unfold subAssignBits addAssignBits
  rw [assign_TotalBitPosition _ _ (sizeAdd_lt _ _),
    sizeSub_sizeAdd_cancel _ _ (TotalBitPosition_lt c)]
  exact assign_TotalBitPosition_self c _ hbit hbyte

/-- Witness of C4: adding `2 ^ 64 - 3` bits to `(byte 5, bit 7)` wraps around, and subtracting
them again gives `(byte 5, bit 7)` back. -/
theorem C4_add_then_sub_bits_witness :
    (ByteBitPosition.mk 5 7).m_bit_position < 8 ∧
    (ByteBitPosition.mk 5 7).m_byte_position < 2 ^ 61 ∧
    ((ByteBitPosition.mk 5 7).addAssignBits (2 ^ 64 - 3)).subAssignBits (2 ^ 64 - 3)
      = ByteBitPosition.mk 5 7 :=
  ⟨by decide, by decide,
   C4_add_then_sub_bits (ByteBitPosition.mk 5 7) (2 ^ 64 - 3) (by decide) (by decide)⟩

/-- C5: for a cursor with bit position below 8 (byte position a `size_t`), `operator++`
followed by `operator--` restores the byte position and the bit position, in the prefix and
in the postfix form, also across a byte boundary. -/
theorem C5_increment_then_decrement (c : ByteBitPosition)
    (hbit : c.m_bit_position < 8) (hbyte : c.m_byte_position < SIZE_T_MOD) :
    c.preInc.preDec = c ∧ (c.postInc.2).postDec.2 = c := by
  have key : c.preInc.preDec = c := by
    cases c with
    | mk byte bit =>
      simp only [SIZE_T_MOD] at hbit hbyte
      by_cases h7 : bit < 7
      · have e : toUInt8 (bit + 1) = bit + 1 := by
          unfold toUInt8 UINT8_T_MOD; omega
        simp [preInc, preDec, UINT8_T_BIT_SIZE, h7, e]
      · have hb : bit = 7 := by omega
        subst hb
        have e : sizeSub (sizeAdd byte 1) 1 = byte := sizeSub_sizeAdd_cancel _ _ hbyte
        simp [preInc, preDec, UINT8_T_BIT_SIZE, e, toUInt8, UINT8_T_MOD]
  exact ⟨key, key⟩

/-- Witness of C5 at the cursor `(byte 5, bit 7)`, which crosses a byte boundary. -/
theorem C5_increment_then_decrement_witness :
    (ByteBitPosition.mk 5 7).m_bit_position < 8 ∧
    (ByteBitPosition.mk 5 7).m_byte_position < SIZE_T_MOD ∧
    (ByteBitPosition.mk 5 7).preInc = ByteBitPosition.mk 6 0 ∧
    (ByteBitPosition.mk 5 7).preInc.preDec = ByteBitPosition.mk 5 7 :=
  ⟨by decide, by decide, by decide,
   (C5_increment_then_decrement (ByteBitPosition.mk 5 7) (by decide) (by decide)).1⟩

/-- C6: for all cursors `a` and `b`, exactly one of `a < b`, `a == b`, `a > b` is true,
where `a > b` is `b < a`. -/
theorem C6_comparison_trichotomy (a b : ByteBitPosition) :
    (lt a b = true ∧ eq a b = false ∧ gt a b = false) ∨
    (lt a b = false ∧ eq a b = true ∧ gt a b = false) ∨
    (lt a b = false ∧ eq a b = false ∧ gt a b = true) := by
  have hlt := operator_lt_iff a b
  have hgt := operator_lt_iff b a
  have heq := operator_eq_iff a b
  unfold gt
  rcases Nat.lt_trichotomy a.m_byte_position b.m_byte_position with h | h | h
  · left
    refine ⟨hlt.2 h, ?_, ?_⟩
    · cases hx : eq a b
      · rfl
      · have := heq.1 hx; omega
    · cases hx : lt b a
      · rfl
      · have := hgt.1 hx; omega
  · right; left
    refine ⟨?_, heq.2 h, ?_⟩
    · cases hx : lt a b
      · rfl
      · have := hlt.1 hx; omega
    · cases hx : lt b a
      · rfl
      · have := hgt.1 hx; omega
  · right; right
    refine ⟨?_, ?_, hgt.2 h⟩
    · cases hx : lt a b
      · rfl
      · have := hlt.1 hx; omega
    · cases hx : eq a b
      · rfl
      · have := heq.1 hx; omega

/-- C7: a default-constructed and a `size_t`-constructed cursor have bit position below 8,
and if a cursor has bit position below 8 then it still has after each mutating operation:
assignment from `size_t`, `+=` and `-=` with a cursor or a bit count, `*=`, prefix and
postfix `++` and `--` (new value of the cursor and returned copy), `PreAddBytes`,
`PostAddBytes`, `PreSubBytes`, `PostSubBytes`. -/
theorem C7_bit_position_invariant (c rhs : ByteBitPosition) (n : Nat)
    (hbit : c.m_bit_position < 8) :
    ByteBitPosition.default.m_bit_position < 8 ∧
    (ofSizeT n).m_bit_position < 8 ∧
    (c.assign n).m_bit_position < 8 ∧
    (c.addAssign rhs).m_bit_position < 8 ∧
    (c.addAssignBits n).m_bit_position < 8 ∧
    (c.subAssign rhs).m_bit_position < 8 ∧
    (c.subAssignBits n).m_bit_position < 8 ∧
    (c.mulAssign n).m_bit_position < 8 ∧
    c.preInc.m_bit_position < 8 ∧
    (c.postInc.1.m_bit_position < 8 ∧ c.postInc.2.m_bit_position < 8) ∧
    c.preDec.m_bit_position < 8 ∧
    (c.postDec.1.m_bit_position < 8 ∧ c.postDec.2.m_bit_position < 8) ∧
    (c.PreAddBytes n).m_bit_position < 8 ∧
    ((c.PostAddBytes n).1.m_bit_position < 8 ∧ (c.PostAddBytes n).2.m_bit_position < 8) ∧
    (c.PreSubBytes n).m_bit_position < 8 ∧
    ((c.PostSubBytes n).1.m_bit_position < 8 ∧ (c.PostSubBytes n).2.m_bit_position < 8) := by
  have hassign : ∀ (d : ByteBitPosition) (t : Nat), (d.assign t).m_bit_position < 8 := by
    intro d t
    rw [assign_bit]; omega
  have hinc : c.preInc.m_bit_position < 8 := by
    unfold preInc
    split
    · rename_i h
      simp only [UINT8_T_BIT_SIZE] at h
      show toUInt8 (c.m_bit_position + 1) < 8
      unfold toUInt8 UINT8_T_MOD; omega
    · show 0 < 8
      omega
  have hdec : c.preDec.m_bit_position < 8 := by
    unfold preDec
    split
    · show c.m_bit_position - 1 < 8
      omega
    · show toUInt8 (UINT8_T_BIT_SIZE - 1) < 8
      decide
  exact ⟨hassign _ _, hassign _ _, hassign _ _, hassign _ _, hassign _ _, hassign _ _,
    hassign _ _, hassign _ _, hinc, ⟨hbit, hinc⟩, hdec, ⟨hbit, hdec⟩, hbit, ⟨hbit, hbit⟩,
    hbit, ⟨hbit, hbit⟩⟩

/-- Witness of C7 at the cursor `(byte 0, bit 0)`, whose decrement wraps the byte position. -/
theorem C7_bit_position_invariant_witness :
    (ByteBitPosition.mk 0 0).m_bit_position < 8 ∧
    (ByteBitPosition.mk 0 0).preDec.m_bit_position < 8 ∧
    ((ByteBitPosition.mk 0 0).subAssignBits 3).m_bit_position < 8 :=
  have h := C7_bit_position_invariant (ByteBitPosition.mk 0 0) (ByteBitPosition.mk 1 7) 3
    (by decide)
  ⟨by decide, h.2.2.2.2.2.2.2.2.2.2.1, h.2.2.2.2.2.2.1⟩

/-- C8: cursor arithmetic is a homomorphism onto total bit positions and normalises by
carrying. When `a.TotalBitPosition() + b.TotalBitPosition()` does not overflow `size_t`,
`a + b` has that sum as total bit position; when `b`'s total does not exceed `a`'s, `a - b`
has the difference as total bit position; when `a.TotalBitPosition() * k` does not overflow,
`a * k` has that product as total bit position. Each result has byte position = total / 8
and bit position = total mod 8. -/
theorem C8_arithmetic_homomorphism (a b : ByteBitPosition) (k : Nat) :
    (a.TotalBitPosition + b.TotalBitPosition < SIZE_T_MOD →
      (add a b).TotalBitPosition = a.TotalBitPosition + b.TotalBitPosition ∧
      (add a b).m_byte_position = (a.TotalBitPosition + b.TotalBitPosition) / 8 ∧
      (add a b).m_bit_position = (a.TotalBitPosition + b.TotalBitPosition) % 8) ∧
    (b.TotalBitPosition ≤ a.TotalBitPosition →
      (sub a b).TotalBitPosition = a.TotalBitPosition - b.TotalBitPosition ∧
      (sub a b).m_byte_position = (a.TotalBitPosition - b.TotalBitPosition) / 8 ∧
      (sub a b).m_bit_position = (a.TotalBitPosition - b.TotalBitPosition) % 8) ∧
    (a.TotalBitPosition * k < SIZE_T_MOD →
      (mul a k).TotalBitPosition = a.TotalBitPosition * k ∧
      (mul a k).m_byte_position = (a.TotalBitPosition * k) / 8 ∧
      (mul a k).m_bit_position = (a.TotalBitPosition * k) % 8) := by
  have ha := TotalBitPosition_lt a
  refine ⟨fun h => ?_, fun h => ?_, fun h => ?_⟩
  · have e : sizeAdd a.TotalBitPosition b.TotalBitPosition
        = a.TotalBitPosition + b.TotalBitPosition := sizeAdd_of_lt _ _ h
    unfold add addAssign
    rw [e]
    exact ⟨assign_TotalBitPosition _ _ h, assign_byte _ _, assign_bit _ _⟩
  · have e : sizeSub a.TotalBitPosition b.TotalBitPosition
        = a.TotalBitPosition - b.TotalBitPosition := sizeSub_of_le _ _ ha h
    unfold sub subAssign
    rw [e]
    exact ⟨assign_TotalBitPosition _ _ (by omega), assign_byte _ _, assign_bit _ _⟩
  · have e : sizeMul a.TotalBitPosition k = a.TotalBitPosition * k := sizeMul_of_lt _ _ h
    unfold mul mulAssign
    rw [e]
    exact ⟨assign_TotalBitPosition _ _ h, assign_byte _ _, assign_bit _ _⟩

/-- Witness of C8: with `a = (byte 2, bit 5)` (total 21), `b = (byte 1, bit 6)` (total 14)
and `k = 3`, the sum is `(byte 4, bit 3)`, the difference `(byte 0, bit 7)` and the
product `(byte 7, bit 7)`. -/
theorem C8_arithmetic_homomorphism_witness :
    (add (ByteBitPosition.mk 2 5) (ByteBitPosition.mk 1 6)).TotalBitPosition
      = (ByteBitPosition.mk 2 5).TotalBitPosition + (ByteBitPosition.mk 1 6).TotalBitPosition ∧
    (sub (ByteBitPosition.mk 2 5) (ByteBitPosition.mk 1 6)).TotalBitPosition
      = (ByteBitPosition.mk 2 5).TotalBitPosition - (ByteBitPosition.mk 1 6).TotalBitPosition ∧
    (mul (ByteBitPosition.mk 2 5) 3).TotalBitPosition
      = (ByteBitPosition.mk 2 5).TotalBitPosition * 3 ∧
    add (ByteBitPosition.mk 2 5) (ByteBitPosition.mk 1 6) = ByteBitPosition.mk 4 3 ∧
    sub (ByteBitPosition.mk 2 5) (ByteBitPosition.mk 1 6) = ByteBitPosition.mk 0 7 ∧
    mul (ByteBitPosition.mk 2 5) 3 = ByteBitPosition.mk 7 7 :=
  have h := C8_arithmetic_homomorphism (ByteBitPosition.mk 2 5) (ByteBitPosition.mk 1 6) 3
  ⟨(h.1 (by decide)).1, (h.2.1 (by decide)).1, (h.2.2 (by decide)).1,
   by decide, by decide, by decide⟩

/-- C9: for every cursor `c` and byte count `n`, `c.AddBytes(n)` has the bit position of `c`
and byte position `c.BytePosition() + n` (the `size_t` sum, which is the exact sum when it
does not overflow), `c.SubBytes(n)` has the bit position of `c` and, for
`n <= c.BytePosition()`, byte position `c.BytePosition() - n`, and `SubBytes(n)` applied to
`c.AddBytes(n)` gives back `c`. -/
theorem C9_whole_byte_steps (c : ByteBitPosition) (n : Nat)
    (hbyte : c.m_byte_position < SIZE_T_MOD) :
    (c.AddBytes n).BitPosition = c.BitPosition ∧
    (c.AddBytes n).BytePosition = sizeAdd c.BytePosition n ∧
    (c.BytePosition + n < SIZE_T_MOD → (c.AddBytes n).BytePosition = c.BytePosition + n) ∧
    (c.SubBytes n).BitPosition = c.BitPosition ∧
    (n ≤ c.BytePosition → (c.SubBytes n).BytePosition = c.BytePosition - n) ∧
    (c.AddBytes n).SubBytes n = c := by
  cases c with
  | mk byte bit =>
    simp only [SIZE_T_MOD] at hbyte
    refine ⟨rfl, rfl, fun h => ?_, rfl, fun h => ?_, ?_⟩
    · exact sizeAdd_of_lt _ _ h
    · exact sizeSub_of_le _ _ hbyte h
    · show ByteBitPosition.mk (sizeSub (sizeAdd byte n) n) bit = ByteBitPosition.mk byte bit
      rw [sizeSub_sizeAdd_cancel _ _ hbyte]

/-- Witness of C9 at the cursor `(byte 5, bit 3)` and 4 bytes. -/
theorem C9_whole_byte_steps_witness :
    (ByteBitPosition.mk 5 3).m_byte_position < SIZE_T_MOD ∧
    (ByteBitPosition.mk 5 3).AddBytes 4 = ByteBitPosition.mk 9 3 ∧
    (ByteBitPosition.mk 5 3).SubBytes 4 = ByteBitPosition.mk 1 3 ∧
    ((ByteBitPosition.mk 5 3).AddBytes 4).SubBytes 4 = ByteBitPosition.mk 5 3 :=
  ⟨by decide, by decide, by decide,
   (C9_whole_byte_steps (ByteBitPosition.mk 5 3) 4 (by decide)).2.2.2.2.2⟩

end ByteBitPosition

/-! ## Header identity -/

/-- C10: for headers `h` and `h2` with equal `cyl`, `sector` and `size`, `h.compare_crn(h2)`
is true whatever the heads, and `h.compare_chrn(h2)` is true exactly when the heads are
equal; so when the heads differ `compare_crn` is true and `compare_chrn` is false. -/
theorem C10_header_identity (h h2 : Header)
    (hcyl : h.cyl = h2.cyl) (hsector : h.sector = h2.sector) (hsize : h.size = h2.size) :
    h.compare_crn h2 = true ∧
    (h.compare_chrn h2 = true ↔ h.head = h2.head) ∧
    (h.head ≠ h2.head → h.compare_crn h2 = true ∧ h.compare_chrn h2 = false) := by
  have hcrn : h.compare_crn h2 = true := by
    simp [Header.compare_crn, hcyl, hsector, hsize]
  have hchrn : h.compare_chrn h2 = true ↔ h.head = h2.head := by
    simp [Header.compare_chrn, hcyl, hsector, hsize]
  refine ⟨hcrn, hchrn, fun hne => ⟨hcrn, ?_⟩⟩
  cases hx : h.compare_chrn h2
  · rfl
  · exact absurd (hchrn.1 hx) hne

/-- Witness of C10: two headers of cylinder 3, sector 1, size code 2 on heads 0 and 1. -/
theorem C10_header_identity_witness :
    (Header.mk 3 0 1 2).compare_crn (Header.mk 3 1 1 2) = true ∧
    (Header.mk 3 0 1 2).compare_chrn (Header.mk 3 1 1 2) = false :=
  (C10_header_identity (Header.mk 3 0 1 2) (Header.mk 3 1 1 2) rfl rfl rfl).2.2 (by decide)

/-- Within the range of `int` the sum of two `int` values is their sum. -/
theorem intAdd_of_range (a b : Int) (hlo : -2 ^ 31 ≤ a + b) (hhi : a + b ≤ INT_MAX) :
    intAdd a b = a + b := by
  unfold intAdd wrapInt32
  unfold INT_MAX at hhi
  omega

/-- Within the range of `int` the difference of two `int` values is their difference. -/
theorem intSub_of_range (a b : Int) (hlo : -2 ^ 31 ≤ a - b) (hhi : a - b ≤ INT_MAX) :
    intSub a b = a - b := by
  unfold intSub wrapInt32
  unfold INT_MAX at hhi
  omega

theorem toInt32_of_lt (n : Nat) (h : n < 2 ^ 31) : toInt32 n = (n : Int) := by
  unfold toInt32
  have e : n % 2 ^ 32 = n := Nat.mod_eq_of_lt (by omega)
  rw [e, if_pos h]

/-! ## Id sequences of a header collection -/

namespace Headers

theorem markHeader_length (f l : Int) (seq : List Bool) (h : Header) :
    (markHeader f l seq h).length = seq.length := by
  unfold markHeader
  split
  · rfl
  · exact List.length_set _ _ _

theorem foldl_markHeader_length (f l : Int) (hs : List Header) (seq : List Bool) :
    (hs.foldl (markHeader f l) seq).length = seq.length := by
  induction hs generalizing seq with
  | nil => rfl
  | cons h t ih => rw [List.foldl_cons, ih, markHeader_length]

/-- An entry of `sequence` is marked after the `for_each` exactly when it was marked before or
some header with an id from `first_id` up to the `int` sum `first_id + length` has that
entry as its id. -/
theorem foldl_markHeader_marked (f l : Int) (hs : List Header) (seq : List Bool) (i : Nat) :
    (hs.foldl (markHeader f l) seq)[i]? = some true ↔
      seq[i]? = some true ∨
        (i < seq.length ∧ ∃ h ∈ hs, f ≤ h.sector ∧ h.sector < intAdd f l ∧ h.sector.toNat = i) := by
  induction hs generalizing seq with
  | nil => simp
  | cons h t ih =>
    rw [List.foldl_cons, ih, markHeader_length]
    have hm : (markHeader f l seq h)[i]? = some true ↔
        seq[i]? = some true ∨
          (i < seq.length ∧ f ≤ h.sector ∧ h.sector < intAdd f l ∧ h.sector.toNat = i) := by
      unfold markHeader
      split
      · rename_i hout
        constructor
        · exact fun hx => Or.inl hx
        · rintro (hx | ⟨_, h1, h2, _⟩)
          · exact hx
          · omega
      · rename_i hin
        rw [List.getElem?_set]
        by_cases hi : h.sector.toNat = i
        · rw [if_pos hi]
          by_cases hlen : h.sector.toNat < seq.length
          · rw [if_pos hlen]
            constructor
            · intro _
              exact Or.inr ⟨by omega, by omega, by omega, hi⟩
            · intro _; rfl
          · rw [if_neg hlen]
            constructor
            · intro hx; cases hx
            · rintro (hx | ⟨h0, _⟩)
              · rw [List.getElem?_eq_none (by omega)] at hx
                cases hx
              · omega
        · rw [if_neg hi]
          constructor
          · exact fun hx => Or.inl hx
          · rintro (hx | ⟨_, _, _, h3⟩)
            · exact hx
            · exact absurd h3 hi
    rw [hm]
    constructor
    · rintro ((hx | ⟨h0, h1, h2, h3⟩) | ⟨h0, h', hmem, h1, h2, h3⟩)
      · exact Or.inl hx
      · exact Or.inr ⟨h0, h, List.mem_cons_self _ _, h1, h2, h3⟩
      · exact Or.inr ⟨h0, h', List.mem_cons_of_mem _ hmem, h1, h2, h3⟩
    · rintro (hx | ⟨h0, h', hmem, h1, h2, h3⟩)
      · exact Or.inl (Or.inl hx)
      · rcases List.mem_cons.1 hmem with hc | hc
        · subst hc
          exact Or.inl (Or.inr ⟨h0, h1, h2, h3⟩)
        · exact Or.inr ⟨h0, h', hc, h1, h2, h3⟩

/-- The final `std::all_of` over `sequence.begin() + first_id .. sequence.end()`. -/
theorem all_drop_iff (seq : List Bool) (k : Nat) :
    (seq.drop k).all (fun marked => marked) = true ↔
      ∀ i, k ≤ i → i < seq.length → seq[i]? = some true := by
  rw [List.all_eq_true]
  constructor
  · intro hall i hk hi
    have hget : (seq.drop k)[i - k]? = seq[i]? := by
      rw [List.getElem?_drop]; congr 1; omega
    have hsome : seq[i]? = some seq[i] := List.getElem?_eq_getElem hi
    have hmem : seq[i] ∈ seq.drop k := by
      rw [List.mem_iff_getElem?]
      exact ⟨i - k, by rw [hget, hsome]⟩
    rw [hsome, hall _ hmem]
  · intro hall x hx
    rw [List.mem_iff_getElem?] at hx
    obtain ⟨n, hn⟩ := hx
    rw [List.getElem?_drop] at hn
    have hlt : k + n < seq.length := by
      by_contra hcon
      rw [List.getElem?_eq_none (by omega)] at hn
      cases hn
    have := hall (k + n) (by omega) hlt
    rw [hn] at this
    exact (Option.some.inj this)

/-- Pigeonhole: a collection that holds every id of `[first_id, first_id + length)` has at
least `length` headers. -/
theorem length_le_of_all_ids (hs : List Header) (f l : Int)
    (hall : ∀ id : Int, f ≤ id → id < f + l → ∃ h ∈ hs, h.sector = id) :
    l ≤ (hs.length : Int) := by
  have hsub : Finset.Ico f (f + l) ⊆ (hs.map Header.sector).toFinset := by
    intro id hid
    rw [Finset.mem_Ico] at hid
    obtain ⟨h, hmem, hsec⟩ := hall id hid.1 hid.2
    rw [List.mem_toFinset, List.mem_map]
    exact ⟨h, hmem, hsec⟩
  have hcard := Finset.card_le_card hsub
  rw [Int.card_Ico] at hcard
  have hle := List.toFinset_card_le (hs.map Header.sector)
  rw [List.length_map] at hle
  omega

/-- C1 (does not hold as stated): with `first_id = 2147483647` and `length = 1` the only id of
the range is the sector of the one header of the collection, yet there is no result `true`:
the `int` sum `first_id + length` overflows, the size of `sequence` is negative and the
vector cannot be built. And a collection of `2147483648` headers with sector 0 holds the id
0, yet `has_id_sequence(0, 1)` returns false, because `static_cast<int>(size())` is
negative. -/
theorem C1_id_sum_overflow :
    has_id_sequence [Header.mk 0 0 2147483647 2] 2147483647 1 = none ∧
    (∃ h ∈ [Header.mk 0 0 2147483647 2], h.sector = 2147483647) ∧
    has_id_sequence (List.replicate 2147483648 (Header.mk 0 0 0 2)) 0 1 = some false ∧
    (∃ h ∈ List.replicate 2147483648 (Header.mk 0 0 0 2), h.sector = 0) := by
  refine ⟨by decide, ⟨_, List.mem_singleton.mpr rfl, rfl⟩, ?_, ⟨Header.mk 0 0 0 2, ?_, rfl⟩⟩
  · have hcast : toInt32 2147483648 < 1 := by decide
    unfold has_id_sequence
    rw [List.length_replicate, if_pos hcast]
  · rw [List.mem_replicate]
    exact ⟨by decide, rfl⟩

/-- C1 (amended): for every header collection of at most `INT_MAX` headers (so that
`static_cast<int>(size())` is the size) and every `first_id >= 0` and `length >= 0` with
`first_id + length <= INT_MAX` (so that the `int` sum does not overflow),
`has_id_sequence(first_id, length)` returns a result, which is true if and only if every
sector id in `[first_id, first_id + length)` is the `sector` of at least one header of the
collection, whatever the order of the headers and however often an id is repeated; and it
returns false whenever the collection has fewer than `length` headers, in agreement with the
equivalence. -/
theorem C1_has_id_sequence_iff (hs : Headers) (first_id length : Int)
    (hsize : hs.length < 2 ^ 31) (hfirst : 0 ≤ first_id) (hlength : 0 ≤ length)
    (hsum : first_id + length ≤ INT_MAX) :
    (has_id_sequence hs first_id length = some true ↔
      ∀ id : Int, first_id ≤ id → id < first_id + length → ∃ h ∈ hs, h.sector = id) ∧
    (∃ result, has_id_sequence hs first_id length = some result) ∧
    ((hs.length : Int) < length →
      has_id_sequence hs first_id length = some false ∧
      ¬ ∀ id : Int, first_id ≤ id → id < first_id + length → ∃ h ∈ hs, h.sector = id) := by
  have hadd : intAdd first_id length = first_id + length :=
    intAdd_of_range first_id length (by omega) hsum
  have hdefined : ¬(intAdd first_id length < 0 ∨ first_id < 0 ∨
      intAdd first_id length < first_id) := by
    rw [hadd]
    omega
  have hshort : (hs.length : Int) < length →
      ¬ ∀ id : Int, first_id ≤ id → id < first_id + length → ∃ h ∈ hs, h.sector = id := by
    intro hlt hall
    have := length_le_of_all_ids hs first_id length hall
    omega
  have hreject : (hs.length : Int) < length →
      has_id_sequence hs first_id length = some false := by
    intro hlt
    unfold has_id_sequence
    rw [toInt32_of_lt _ hsize, if_pos hlt]
  have hresult : ∃ result, has_id_sequence hs first_id length = some result := by
    unfold has_id_sequence
    by_cases hlt : toInt32 hs.length < length
    · rw [if_pos hlt]
      exact ⟨_, rfl⟩
    · rw [if_neg hlt, if_neg hdefined]
      exact ⟨_, rfl⟩
  refine ⟨?_, hresult, fun hlt => ⟨hreject hlt, hshort hlt⟩⟩
  by_cases hlt : (hs.length : Int) < length
  · rw [hreject hlt]
    constructor
    · intro hx; cases hx
    · intro hall; exact absurd hall (hshort hlt)
  · unfold has_id_sequence
    rw [toInt32_of_lt _ hsize, if_neg hlt, if_neg hdefined]
    simp only [Option.some.injEq]
    rw [all_drop_iff, foldl_markHeader_length, List.length_replicate]
    constructor
    · intro H id h1 h2
      have hmark := H id.toNat (by omega) (by omega)
      rw [foldl_markHeader_marked] at hmark
      rcases hmark with hx | ⟨_, h, hmem, h3, _, h5⟩
      · rw [List.getElem?_replicate] at hx
        split at hx <;> cases hx
      · exact ⟨h, hmem, by omega⟩
    · intro H i hk hi
      rw [foldl_markHeader_marked]
      obtain ⟨h, hmem, hsec⟩ := H (i : Int) (by omega) (by omega)
      refine Or.inr ⟨?_, h, hmem, by omega, by omega, by omega⟩
      rw [List.length_replicate]
      exact hi

/-- Witness of C1 (amended): the collection with sector ids 3, 1, 2, 2 holds the sequence
1, 2, 3. -/
theorem C1_has_id_sequence_iff_witness :
    has_id_sequence [Header.mk 0 0 3 2, Header.mk 0 0 1 2, Header.mk 0 1 2 2, Header.mk 0 0 2 2]
      1 3 = some true ∧
    ∀ id : Int, 1 ≤ id → id < 1 + 3 →
      ∃ h ∈ [Header.mk 0 0 3 2, Header.mk 0 0 1 2, Header.mk 0 1 2 2, Header.mk 0 0 2 2],
        h.sector = id :=
  have hrun : has_id_sequence
      [Header.mk 0 0 3 2, Header.mk 0 0 1 2, Header.mk 0 1 2 2, Header.mk 0 0 2 2] 1 3 =
        some true := by
    decide
  ⟨hrun, (C1_has_id_sequence_iff _ 1 3 (by decide) (by decide) (by decide) (by decide)).1.1
    hrun⟩

end Headers

/-! ## Track transfer: the effect of one round -/

section TransferRound

variable {E : Collaborators}

theorem srcReads_append (a b : List (Event E)) : srcReads (a ++ b) = srcReads a ++ srcReads b :=
  List.filterMap_append _ _ _

theorem dstWrites_append (a b : List (Event E)) :
    dstWrites (a ++ b) = dstWrites a ++ dstWrites b :=
  List.filterMap_append _ _ _

theorem repairAmounts_append (a b : List (Event E)) :
    repairAmounts (a ++ b) = repairAmounts a ++ repairAmounts b :=
  List.filterMap_append _ _ _

/-- A round that reaches its read issues exactly one read of the source disk. -/
theorem readAndTransfer_srcReads (opts : Options) (cylhead : CylHead)
    (repairMode uncached : Bool) (track_retries : Int) (track_round : Nat)
    (dst_track : E.Track) (st : RoundState E) :
    srcReads (readAndTransfer E opts cylhead repairMode uncached track_retries track_round
      dst_track st).1.trace =
    srcReads st.trace ++ [roundReadRecord E opts cylhead uncached track_round st] := by
  unfold readAndTransfer
  simp only []
  split_ifs <;>
    simp [srcReads, RoundState.log, List.filterMap_append, List.filterMap_cons, Event.asSrcRead]

/-- A round never writes to the destination disk. -/
theorem readAndTransfer_dstWrites (opts : Options) (cylhead : CylHead)
    (repairMode uncached : Bool) (track_retries : Int) (track_round : Nat)
    (dst_track : E.Track) (st : RoundState E) :
    dstWrites (readAndTransfer E opts cylhead repairMode uncached track_retries track_round
      dst_track st).1.trace = dstWrites st.trace := by
  unfold readAndTransfer
  simp only []
  split_ifs <;>
    simp [dstWrites, RoundState.log, List.filterMap_append, List.filterMap_cons, Event.asDstWrite]

/-- Copy and merge: the round calls no `RepairTrack`, leaves the fix count alone, does not
break, and stores either the changed source track or the source data under `cylhead`. -/
theorem readAndTransfer_copy (opts : Options) (cylhead : CylHead)
    (uncached : Bool) (track_retries : Int) (track_round : Nat)
    (dst_track : E.Track) (st : RoundState E) :
    repairAmounts (readAndTransfer E opts cylhead false uncached track_retries track_round
      dst_track st).1.trace = repairAmounts st.trace ∧
    (readAndTransfer E opts cylhead false uncached track_retries track_round
      dst_track st).1.trackFixesNumber = st.trackFixesNumber ∧
    (readAndTransfer E opts cylhead false uncached track_retries track_round
      dst_track st).2 = false ∧
    (readAndTransfer E opts cylhead false uncached track_retries track_round
      dst_track st).1.dst_data =
      (if (roundSource E opts cylhead uncached track_round st).2.1 then
        E.trackDataOfTrack cylhead (roundSource E opts cylhead uncached track_round st).2.2
      else E.setCylhead (roundSource E opts cylhead uncached track_round st).1 cylhead) := by
  unfold readAndTransfer
  simp only []
  split_ifs <;>
    simp_all [repairAmounts, RoundState.log, List.filterMap_append, List.filterMap_cons,
      Event.asRepairTrack]

/-- Repair: the round calls `RepairTrack` once; its events after that call are at most the
"repaired" message, which needs a positive fix count; it breaks exactly when the retry
budget is the auto sentinel and nothing was fixed; otherwise the result is added to the fix
count. -/
theorem readAndTransfer_repair (opts : Options) (cylhead : CylHead)
    (uncached : Bool) (track_retries : Int) (track_round : Nat)
    (dst_track : E.Track) (st : RoundState E) :
    ∃ mid tail : List (Event E),
      (readAndTransfer E opts cylhead true uncached track_retries track_round
        dst_track st).1.trace =
        st.trace ++ mid ++
          Event.repairTrack (roundRepair E opts cylhead uncached track_round dst_track st).1 ::
          tail ∧
      repairAmounts mid = [] ∧ repairAmounts tail = [] ∧ srcReads tail = [] ∧
      (tail ≠ [] →
        0 < st.trackFixesNumber +
          (roundRepair E opts cylhead uncached track_round dst_track st).1 ∧
        (readAndTransfer E opts cylhead true uncached track_retries track_round
          dst_track st).2 = false) ∧
      ((readAndTransfer E opts cylhead true uncached track_retries track_round
          dst_track st).2 = true ↔
        track_retries = E.DISK_RETRY_AUTO ∧
          (roundRepair E opts cylhead uncached track_round dst_track st).1 = 0) ∧
      (readAndTransfer E opts cylhead true uncached track_retries track_round
          dst_track st).1.trackFixesNumber =
        st.trackFixesNumber +
          (roundRepair E opts cylhead uncached track_round dst_track st).1 ∧
      (readAndTransfer E opts cylhead true uncached track_retries track_round
          dst_track st).1.dst_data =
        E.trackDataOfTrack cylhead
          (roundRepair E opts cylhead uncached track_round dst_track st).2 := by
  by_cases hv : opts.opt_verbose = 0
  · refine ⟨[Event.srcRead (roundReadRecord E opts cylhead uncached track_round st)], [], ?_⟩
    by_cases hb : track_retries = E.DISK_RETRY_AUTO ∧
        (roundRepair E opts cylhead uncached track_round dst_track st).1 = 0
    · simp [readAndTransfer, hv, hb, repairAmounts, srcReads, Event.asRepairTrack,
        Event.asSrcRead]
    · simp [readAndTransfer, hv, hb, repairAmounts, srcReads, Event.asRepairTrack,
        Event.asSrcRead]
  · by_cases hb : track_retries = E.DISK_RETRY_AUTO ∧
        (roundRepair E opts cylhead uncached track_round dst_track st).1 = 0
    · refine ⟨[Event.srcRead (roundReadRecord E opts cylhead uncached track_round st),
        Event.scanTrack cylhead], [], ?_⟩
      simp [readAndTransfer, hv, hb, repairAmounts, srcReads, Event.asRepairTrack,
        Event.asSrcRead]
    · by_cases hm : st.trackFixesNumber +
          (roundRepair E opts cylhead uncached track_round dst_track st).1 > 0
      · refine ⟨[Event.srcRead (roundReadRecord E opts cylhead uncached track_round st),
          Event.scanTrack cylhead],
          [Event.message (Diagnostic.repairedTimes cylhead (st.trackFixesNumber +
            (roundRepair E opts cylhead uncached track_round dst_track st).1))], ?_⟩
        simp [readAndTransfer, hv, hb, hm, repairAmounts, srcReads, Event.asRepairTrack,
          Event.asSrcRead, RoundState.log]
      · refine ⟨[Event.srcRead (roundReadRecord E opts cylhead uncached track_round st),
          Event.scanTrack cylhead], [], ?_⟩
        simp [readAndTransfer, hv, hb, hm, repairAmounts, srcReads, Event.asRepairTrack,
          Event.asSrcRead, RoundState.log]

/-- One round either leaves the loop before its read because the reading policy wants no
more sectors (repair mode with `skip_stable_sectors` only), or it continues with
`readAndTransfer` after diagnostics only. -/
theorem transferRound_cases (opts : Options) (cylhead : CylHead)
    (repairMode uncached : Bool) (deviceReadingPolicy : E.DeviceReadingPolicy)
    (skip_stable_sectors : Bool) (track_retries : Int) (track_round : Nat)
    (st : RoundState E) :
    (repairMode = true ∧ skip_stable_sectors = true ∧
      E.WantMoreSectors (stablePolicy E deviceReadingPolicy st.deviceReadingPolicyLocal
        (E.NormaliseTrack cylhead (E.track st.dst_data)).2) = false ∧
      transferRound E opts cylhead repairMode uncached deviceReadingPolicy skip_stable_sectors
          track_retries track_round st =
        ({ st with
            deviceReadingPolicyLocal :=
              stablePolicy E deviceReadingPolicy st.deviceReadingPolicyLocal
                (E.NormaliseTrack cylhead (E.track st.dst_data)).2
            trace := st.trace ++
              [Event.message (Diagnostic.reading (decide (track_round > 0)) cylhead)] },
          true)) ∨
    (∃ (st0 : RoundState E) (dst_track : E.Track) (evs : List (Event E)),
      transferRound E opts cylhead repairMode uncached deviceReadingPolicy skip_stable_sectors
          track_retries track_round st =
        readAndTransfer E opts cylhead repairMode uncached track_retries track_round
          dst_track st0 ∧
      st0.trackFixesNumber = st.trackFixesNumber ∧ st0.dst_data = st.dst_data ∧
      st0.src_disk = st.src_disk ∧ st0.context = st.context ∧
      st0.trace = st.trace ++ evs ∧
      srcReads evs = [] ∧ repairAmounts evs = [] ∧ dstWrites evs = [] ∧ dstReads evs = [] ∧
      (repairMode = true → dst_track = (E.NormaliseTrack cylhead (E.track st.dst_data)).2) ∧
      (repairMode = false ∨ skip_stable_sectors = false →
        st0.deviceReadingPolicyLocal = st.deviceReadingPolicyLocal)) := by
  cases repairMode with
  | false =>
    right
    refine ⟨st.log (Event.message (Diagnostic.reading (decide (track_round > 0)) cylhead)),
      E.trackDefault, [Event.message (Diagnostic.reading (decide (track_round > 0)) cylhead)],
      ?_⟩
    simp [transferRound, RoundState.log, srcReads, repairAmounts, dstWrites, dstReads,
      Event.asSrcRead, Event.asRepairTrack, Event.asDstWrite, Event.asDstRead]
  | true =>
    cases skip_stable_sectors with
    | false =>
      right
      refine ⟨st.log (Event.message (Diagnostic.reading (decide (track_round > 0)) cylhead)),
        (E.NormaliseTrack cylhead (E.track st.dst_data)).2,
        [Event.message (Diagnostic.reading (decide (track_round > 0)) cylhead)], ?_⟩
      simp [transferRound, RoundState.log, srcReads, repairAmounts, dstWrites, dstReads,
        Event.asSrcRead, Event.asRepairTrack, Event.asDstWrite, Event.asDstRead]
    | true =>
      by_cases hw : E.WantMoreSectors (stablePolicy E deviceReadingPolicy
          st.deviceReadingPolicyLocal (E.NormaliseTrack cylhead (E.track st.dst_data)).2) = false
      · left
        simp [transferRound, RoundState.log, hw]
      · right
        by_cases hm : opts.opt_verbose ≠ 0 ∧
            E.sectorsEmpty (E.SkippableSectors (stablePolicy E deviceReadingPolicy
              st.deviceReadingPolicyLocal
              (E.NormaliseTrack cylhead (E.track st.dst_data)).2)) = false
        · refine ⟨{ st with
              deviceReadingPolicyLocal :=
                stablePolicy E deviceReadingPolicy st.deviceReadingPolicyLocal
                  (E.NormaliseTrack cylhead (E.track st.dst_data)).2
              trace := st.trace ++
                [Event.message (Diagnostic.reading (decide (track_round > 0)) cylhead),
                 Event.message (Diagnostic.ignoringGoodSectors cylhead
                  (E.SkippableSectors (stablePolicy E deviceReadingPolicy
                    st.deviceReadingPolicyLocal
                    (E.NormaliseTrack cylhead (E.track st.dst_data)).2)))] },
            (E.NormaliseTrack cylhead (E.track st.dst_data)).2,
            [Event.message (Diagnostic.reading (decide (track_round > 0)) cylhead),
             Event.message (Diagnostic.ignoringGoodSectors cylhead
              (E.SkippableSectors (stablePolicy E deviceReadingPolicy
                st.deviceReadingPolicyLocal
                (E.NormaliseTrack cylhead (E.track st.dst_data)).2)))], ?_⟩
          simp [transferRound, RoundState.log, hw, hm, srcReads, repairAmounts, dstWrites,
            dstReads, Event.asSrcRead, Event.asRepairTrack, Event.asDstWrite, Event.asDstRead]
        · refine ⟨{ st with
              deviceReadingPolicyLocal :=
                stablePolicy E deviceReadingPolicy st.deviceReadingPolicyLocal
                  (E.NormaliseTrack cylhead (E.track st.dst_data)).2
              trace := st.trace ++
                [Event.message (Diagnostic.reading (decide (track_round > 0)) cylhead)] },
            (E.NormaliseTrack cylhead (E.track st.dst_data)).2,
            [Event.message (Diagnostic.reading (decide (track_round > 0)) cylhead)], ?_⟩
          simp [transferRound, RoundState.log, hw, hm, srcReads, repairAmounts, dstWrites,
            dstReads, Event.asSrcRead, Event.asRepairTrack, Event.asDstWrite, Event.asDstRead]

/-- Induction over the rounds of the loop: a property that every round preserves holds
after the loop. -/
theorem transferRounds_induction (body : Nat → RoundState E → RoundState E × Bool)
    (P : RoundState E → Prop) (hstep : ∀ track_round st, P st → P (body track_round st).1) :
    ∀ (rounds : List Nat) (st : RoundState E), P st → P (transferRounds body rounds st) := by
  intro rounds
  induction rounds with
  | nil => intro st h; exact h
  | cons r rs ih =>
    intro st h
    unfold transferRounds
    simp only []
    split
    · exact hstep r st h
    · exact ih _ (hstep r st h)

/-- A loop over a single round is that round. -/
theorem transferRounds_single (body : Nat → RoundState E → RoundState E × Bool)
    (track_round : Nat) (st : RoundState E) :
    transferRounds body [track_round] st = (body track_round st).1 := by
  unfold transferRounds
  simp only []
  split
  · rfl
  · rfl

/-- A round issues at most one read of the source disk: none if it breaks before its read,
otherwise exactly one, recorded with the number of the round. -/
theorem transferRound_srcReads (opts : Options) (cylhead : CylHead)
    (repairMode uncached : Bool) (deviceReadingPolicy : E.DeviceReadingPolicy)
    (skip_stable_sectors : Bool) (track_retries : Int) (track_round : Nat)
    (st : RoundState E) :
    (srcReads (transferRound E opts cylhead repairMode uncached deviceReadingPolicy
        skip_stable_sectors track_retries track_round st).1.trace = srcReads st.trace ∧
      (transferRound E opts cylhead repairMode uncached deviceReadingPolicy
        skip_stable_sectors track_retries track_round st).2 = true) ∨
    (∃ st0 : RoundState E,
      srcReads (transferRound E opts cylhead repairMode uncached deviceReadingPolicy
        skip_stable_sectors track_retries track_round st).1.trace =
        srcReads st.trace ++ [roundReadRecord E opts cylhead uncached track_round st0]) := by
  rcases transferRound_cases opts cylhead repairMode uncached deviceReadingPolicy
      skip_stable_sectors track_retries track_round st with
    ⟨_, _, _, heq⟩ | ⟨st0, dst_track, evs, heq, _, _, _, _, htr, hs, _, _, _, _, _⟩
  · left
    rw [heq]
    simp [srcReads, List.filterMap_append, Event.asSrcRead]
  · right
    refine ⟨st0, ?_⟩
    rw [heq, readAndTransfer_srcReads, htr, srcReads_append, hs]
    simp

/-- Every round adds to the fix count what its `RepairTrack` call returned. -/
theorem transferRound_fixes (opts : Options) (cylhead : CylHead)
    (repairMode uncached : Bool) (deviceReadingPolicy : E.DeviceReadingPolicy)
    (skip_stable_sectors : Bool) (track_retries : Int) (track_round : Nat)
    (st : RoundState E) :
    (transferRound E opts cylhead repairMode uncached deviceReadingPolicy
        skip_stable_sectors track_retries track_round st).1.trackFixesNumber -
      (repairAmounts (transferRound E opts cylhead repairMode uncached deviceReadingPolicy
        skip_stable_sectors track_retries track_round st).1.trace).sum =
    st.trackFixesNumber - (repairAmounts st.trace).sum := by
  rcases transferRound_cases opts cylhead repairMode uncached deviceReadingPolicy
      skip_stable_sectors track_retries track_round st with
    ⟨_, _, _, heq⟩ | ⟨st0, dst_track, evs, heq, hf, _, _, _, htr, _, hra, _, _, _, _⟩
  · rw [heq]
    simp [repairAmounts, List.filterMap_append, Event.asRepairTrack]
  · rw [heq]
    cases repairMode with
    | false =>
      obtain ⟨h1, h2, _, _⟩ := readAndTransfer_copy opts cylhead uncached track_retries
        track_round dst_track st0
      rw [h1, h2, htr, repairAmounts_append, hra, hf]
      simp
    | true =>
      obtain ⟨mid, tail, h1, hmid, htail, _, _, _, h2, _⟩ := readAndTransfer_repair opts cylhead
        uncached track_retries track_round dst_track st0
      rw [h1, h2, htr, hf]
      have e : repairAmounts (st.trace ++ evs ++ mid ++
          Event.repairTrack (roundRepair E opts cylhead uncached track_round dst_track st0).1 ::
          tail) = repairAmounts st.trace ++
          [(roundRepair E opts cylhead uncached track_round dst_track st0).1] := by
        rw [repairAmounts_append, repairAmounts_append, repairAmounts_append, hra, hmid]
        show _ ++ [] ++ [] ++ ((roundRepair E opts cylhead uncached track_round dst_track st0).1
          :: repairAmounts tail) = _
        rw [htail]
        simp
      rw [e, List.sum_append]
      simp

/-- The fix count after the loop exceeds the one before it by the sum of the results of the
`RepairTrack` calls of the loop. -/
theorem transferRounds_fixes (opts : Options) (cylhead : CylHead)
    (repairMode uncached : Bool) (deviceReadingPolicy : E.DeviceReadingPolicy)
    (skip_stable_sectors : Bool) (track_retries : Int) (rounds : List Nat)
    (st : RoundState E) :
    (transferRounds (transferRound E opts cylhead repairMode uncached
      deviceReadingPolicy skip_stable_sectors track_retries) rounds st).trackFixesNumber -
      (repairAmounts (transferRounds (transferRound E opts cylhead repairMode uncached
        deviceReadingPolicy skip_stable_sectors track_retries) rounds st).trace).sum =
    st.trackFixesNumber - (repairAmounts st.trace).sum := by
  refine transferRounds_induction _
    (fun s => s.trackFixesNumber - (repairAmounts s.trace).sum =
      st.trackFixesNumber - (repairAmounts st.trace).sum) ?_ rounds st rfl
  intro r s hs
  exact (transferRound_fixes opts cylhead repairMode uncached deviceReadingPolicy
    skip_stable_sectors track_retries r s).trans hs

/-- The loop reads the source disk at most once per round. -/
theorem transferRounds_srcReads_length (opts : Options) (cylhead : CylHead)
    (repairMode uncached : Bool) (deviceReadingPolicy : E.DeviceReadingPolicy)
    (skip_stable_sectors : Bool) (track_retries : Int) (rounds : List Nat) :
    ∀ st : RoundState E,
    (srcReads (transferRounds (transferRound E opts cylhead repairMode uncached
      deviceReadingPolicy skip_stable_sectors track_retries) rounds st).trace).length ≤
      (srcReads st.trace).length + rounds.length := by
  induction rounds with
  | nil => intro st; simp [transferRounds]
  | cons r rs ih =>
    intro st
    have hr : (srcReads (transferRound E opts cylhead repairMode uncached deviceReadingPolicy
        skip_stable_sectors track_retries r st).1.trace).length ≤
        (srcReads st.trace).length + 1 := by
      rcases transferRound_srcReads opts cylhead repairMode uncached deviceReadingPolicy
          skip_stable_sectors track_retries r st with ⟨h, _⟩ | ⟨st0, h⟩
      · rw [h]; omega
      · rw [h]; simp
    unfold transferRounds
    simp only []
    split
    · simp only [List.length_cons]; omega
    · have := ih (transferRound E opts cylhead repairMode uncached deviceReadingPolicy
        skip_stable_sectors track_retries r st).1
      simp only [List.length_cons]; omega

/-- The retry budget is never negative. -/
theorem trackRetries_nonneg (repairMode src_is_constant_disk : Bool) (opt_track_retries : Int) :
    0 ≤ trackRetries repairMode src_is_constant_disk opt_track_retries := by
  unfold trackRetries
  split
  · rename_i h
    simp at h
    exact h.2
  · exact le_refl 0

theorem roundNumbers_length (track_retries : Int) (h : 0 ≤ track_retries) :
    ((roundNumbers track_retries).length : Int) = track_retries + 1 := by
  unfold roundNumbers
  rw [List.length_range]
  omega

theorem roundNumbers_zero : roundNumbers 0 = [0] := by
  decide

end TransferRound

/-! ## Track transfer: the claims about `Disk::TransferTrack` -/

section TransferClaims

variable {E : Collaborators}

/-- A transfer that is not skipped returns the fix count of the loop and writes the final
`dst_data` once, after the loop. -/
theorem TransferTrack_run (opts : Options) (src_disk : E.SrcDisk) (cylhead : CylHead)
    (dst_disk : E.DstDisk) (context : E.ScanContext) (transferMode : TransferMode)
    (uncached : Bool) (deviceReadingPolicy : E.DeviceReadingPolicy)
    (hused : ¬ (opts.opt_minimal ≠ 0 ∧ E.IsTrackUsed cylhead.cyl cylhead.head = false)) :
    TransferTrack E opts src_disk cylhead dst_disk context transferMode uncached
      deviceReadingPolicy =
    { trackFixesNumber := (transferLoop E opts src_disk cylhead dst_disk context
        (decide (transferMode = TransferMode.Repair)) uncached
        deviceReadingPolicy).trackFixesNumber
      src_disk := (transferLoop E opts src_disk cylhead dst_disk context
        (decide (transferMode = TransferMode.Repair)) uncached deviceReadingPolicy).src_disk
      dst_disk := E.dst_write (dstAfterEarlyRead E cylhead dst_disk
          (decide (transferMode = TransferMode.Repair)))
        (transferLoop E opts src_disk cylhead dst_disk context
          (decide (transferMode = TransferMode.Repair)) uncached deviceReadingPolicy).dst_data
      context := (transferLoop E opts src_disk cylhead dst_disk context
        (decide (transferMode = TransferMode.Repair)) uncached deviceReadingPolicy).context
      trace := (transferLoop E opts src_disk cylhead dst_disk context
          (decide (transferMode = TransferMode.Repair)) uncached deviceReadingPolicy).trace ++
        [Event.dstWrite (transferLoop E opts src_disk cylhead dst_disk context
          (decide (transferMode = TransferMode.Repair)) uncached
          deviceReadingPolicy).dst_data] } := by
  unfold TransferTrack
  rw [if_neg hused]

/-- Before the first round the source disk has not been read, `RepairTrack` has not been
called, and nothing has been written. -/
theorem initialState_trace (src_disk : E.SrcDisk) (cylhead : CylHead)
    (dst_disk : E.DstDisk) (context : E.ScanContext) (repairMode : Bool)
    (deviceReadingPolicy : E.DeviceReadingPolicy) :
    srcReads (initialState E src_disk cylhead dst_disk context repairMode
      deviceReadingPolicy).trace = [] ∧
    repairAmounts (initialState E src_disk cylhead dst_disk context repairMode
      deviceReadingPolicy).trace = [] ∧
    dstWrites (initialState E src_disk cylhead dst_disk context repairMode
      deviceReadingPolicy).trace = [] := by
  cases repairMode <;>
    simp [initialState, srcReads, repairAmounts, dstWrites, Event.asSrcRead,
      Event.asRepairTrack, Event.asDstWrite]

/-- C11: when `opt_minimal` is set and `IsTrackUsed(cyl, head)` is false, `TransferTrack`
returns 0 in every transfer mode and performs no call at all: no read of the source disk,
no read of the destination disk, no write to the destination disk, no `RepairTrack`; both
disks and the scan context are left as they were. -/
theorem C11_minimal_mode_skip (opts : Options) (src_disk : E.SrcDisk) (cylhead : CylHead)
    (dst_disk : E.DstDisk) (context : E.ScanContext) (transferMode : TransferMode)
    (uncached : Bool) (deviceReadingPolicy : E.DeviceReadingPolicy)
    (hminimal : opts.opt_minimal ≠ 0)
    (hunused : E.IsTrackUsed cylhead.cyl cylhead.head = false) :
    (TransferTrack E opts src_disk cylhead dst_disk context transferMode uncached
      deviceReadingPolicy).trackFixesNumber = 0 ∧
    (TransferTrack E opts src_disk cylhead dst_disk context transferMode uncached
      deviceReadingPolicy).trace = [] ∧
    srcReads (TransferTrack E opts src_disk cylhead dst_disk context transferMode uncached
      deviceReadingPolicy).trace = [] ∧
    dstReads (TransferTrack E opts src_disk cylhead dst_disk context transferMode uncached
      deviceReadingPolicy).trace = [] ∧
    dstWrites (TransferTrack E opts src_disk cylhead dst_disk context transferMode uncached
      deviceReadingPolicy).trace = [] ∧
    (TransferTrack E opts src_disk cylhead dst_disk context transferMode uncached
      deviceReadingPolicy).src_disk = src_disk ∧
    (TransferTrack E opts src_disk cylhead dst_disk context transferMode uncached
      deviceReadingPolicy).dst_disk = dst_disk := by
  have hskip : opts.opt_minimal ≠ 0 ∧ E.IsTrackUsed cylhead.cyl cylhead.head = false :=
    ⟨hminimal, hunused⟩
  unfold TransferTrack
  rw [if_pos hskip]
  exact ⟨rfl, rfl, rfl, rfl, rfl, rfl, rfl⟩

/-- Witness of C11: minimal mode, cylinder 5 head 0 unused, in repair mode with a source that
has data and a destination with a bad sector. -/
theorem C11_minimal_mode_skip_witness :
    (TransferTrack (exampleCollaborators 0)
      { opt_minimal := 1, opt_skip_stable_sectors := false, opt_step := 1
        opt_track_retries := 3, opt_verbose := 1 }
      { constant := false, cyls := 40, pending := [exampleSrcData], deviceReads := 0 }
      { cyl := 5, head := 0 } [exampleDstData] (0 : Nat) TransferMode.Repair false
      { wanted := [1, 2], lookForPossibleSectors := false, skippable := [] }).trackFixesNumber
      = 0 ∧
    (TransferTrack (exampleCollaborators 0)
      { opt_minimal := 1, opt_skip_stable_sectors := false, opt_step := 1
        opt_track_retries := 3, opt_verbose := 1 }
      { constant := false, cyls := 40, pending := [exampleSrcData], deviceReads := 0 }
      { cyl := 5, head := 0 } [exampleDstData] (0 : Nat) TransferMode.Repair false
      { wanted := [1, 2], lookForPossibleSectors := false, skippable := [] }).trace = [] :=
  have h := C11_minimal_mode_skip (E := exampleCollaborators 0)
    { opt_minimal := 1, opt_skip_stable_sectors := false, opt_step := 1
      opt_track_retries := 3, opt_verbose := 1 }
    { constant := false, cyls := 40, pending := [exampleSrcData], deviceReads := 0 }
    { cyl := 5, head := 0 } [exampleDstData] (0 : Nat) TransferMode.Repair false
    { wanted := [1, 2], lookForPossibleSectors := false, skippable := [] }
    (by decide) (by decide)
  ⟨h.1, h.2.1⟩

/-- The rounds `0 .. track_retries` read the source disk at most `R + 1` times, where `R` is
`opt_track_retries` when the mode is Repair, the source is not a constant disk and
`opt_track_retries >= 0`, and `R = 0` in every other case. -/
theorem TransferTrack_reads_bounded (opts : Options) (src_disk : E.SrcDisk) (cylhead : CylHead)
    (dst_disk : E.DstDisk) (context : E.ScanContext) (transferMode : TransferMode)
    (uncached : Bool) (deviceReadingPolicy : E.DeviceReadingPolicy) :
    ((srcReads (TransferTrack E opts src_disk cylhead dst_disk context transferMode uncached
      deviceReadingPolicy).trace).length : Int) ≤
    (if transferMode = TransferMode.Repair ∧ E.src_is_constant_disk src_disk = false ∧
        0 ≤ opts.opt_track_retries then opts.opt_track_retries else 0) + 1 := by
  have hbudget : trackRetries (decide (transferMode = TransferMode.Repair))
      (E.src_is_constant_disk src_disk) opts.opt_track_retries =
      (if transferMode = TransferMode.Repair ∧ E.src_is_constant_disk src_disk = false ∧
        0 ≤ opts.opt_track_retries then opts.opt_track_retries else 0) := by
    unfold trackRetries
    by_cases h1 : transferMode = TransferMode.Repair <;>
      by_cases h2 : E.src_is_constant_disk src_disk = false <;>
      by_cases h3 : 0 ≤ opts.opt_track_retries <;> simp_all
  have hnonneg := trackRetries_nonneg (decide (transferMode = TransferMode.Repair))
    (E.src_is_constant_disk src_disk) opts.opt_track_retries
  rw [← hbudget]
  by_cases hused : opts.opt_minimal ≠ 0 ∧ E.IsTrackUsed cylhead.cyl cylhead.head = false
  · unfold TransferTrack
    rw [if_pos hused]
    simp only [srcReads, List.filterMap_nil, List.length_nil]
    omega
  · rw [TransferTrack_run opts src_disk cylhead dst_disk context transferMode uncached
      deviceReadingPolicy hused]
    simp only []
    rw [srcReads_append]
    have hloop := transferRounds_srcReads_length opts cylhead
      (decide (transferMode = TransferMode.Repair)) uncached deviceReadingPolicy
      (skipStableSectors E opts src_disk)
      (trackRetries (decide (transferMode = TransferMode.Repair))
        (E.src_is_constant_disk src_disk) opts.opt_track_retries)
      (roundNumbers (trackRetries (decide (transferMode = TransferMode.Repair))
        (E.src_is_constant_disk src_disk) opts.opt_track_retries))
      (initialState E src_disk cylhead dst_disk context
        (decide (transferMode = TransferMode.Repair)) deviceReadingPolicy)
    have hlen := roundNumbers_length _ hnonneg
    rw [(initialState_trace src_disk cylhead dst_disk context
      (decide (transferMode = TransferMode.Repair)) deviceReadingPolicy).1] at hloop
    have hw : ∀ d : E.TrackData, srcReads [Event.dstWrite (E := E) d] = [] := by
      intro d
      simp [srcReads, Event.asSrcRead]
    rw [hw, List.append_nil]
    simp only [transferLoop]
    simp only [List.length_nil] at hloop
    omega

/-- The result of an `int` operation lies in the range of `int`. -/
theorem wrapInt32_le (n : Int) : wrapInt32 n ≤ INT_MAX := by
  unfold wrapInt32 INT_MAX
  omega

/-- The loop with its `int` counter, for a retry budget below `INT_MAX`: from round `k` on,
with `n` rounds to go and more fuel than that, it ends with the state of the loop over the
rounds `k, k + 1, ..., k + n - 1`. -/
theorem transferRoundsCounted_eq (body : Nat → RoundState E → RoundState E × Bool)
    (track_retries : Int) (hretries : track_retries < INT_MAX) (n : Nat) :
    ∀ (k fuel : Nat) (st : RoundState E), (k : Int) + n = track_retries + 1 → n < fuel →
      transferRoundsCounted body track_retries fuel k st =
        some (transferRounds body (List.range' k n) st) := by
  induction n with
  | zero =>
    intro k fuel st hk hfuel
    obtain ⟨f, rfl⟩ : ∃ f, fuel = f + 1 := ⟨fuel - 1, by omega⟩
    unfold transferRoundsCounted
    rw [if_neg (by omega)]
    rfl
  | succ n ih =>
    intro k fuel st hk hfuel
    obtain ⟨f, rfl⟩ : ∃ f, fuel = f + 1 := ⟨fuel - 1, by omega⟩
    unfold transferRoundsCounted
    rw [if_pos (by omega), List.range'_succ]
    simp only [Int.toNat_ofNat]
    unfold transferRounds
    simp only []
    by_cases hb : (body k st).2 = true
    · rw [if_pos hb, if_pos hb]
    · rw [if_neg hb, if_neg hb]
      have hnext : intAdd (k : Int) 1 = ((k + 1 : Nat) : Int) := by
        rw [intAdd_of_range _ _ (by omega) (by omega)]
        rfl
      rw [hnext]
      exact ih (k + 1) f _ (by push_cast; omega) (by omega)

/-- With a retry budget below `INT_MAX` and enough fuel, `Disk::TransferTrack` with its
`int` counter ends and its outcome is that of `TransferTrack`. -/
theorem TransferTrackCounted_eq (opts : Options) (src_disk : E.SrcDisk) (cylhead : CylHead)
    (dst_disk : E.DstDisk) (context : E.ScanContext) (transferMode : TransferMode)
    (uncached : Bool) (deviceReadingPolicy : E.DeviceReadingPolicy) (fuel : Nat)
    (hretries : trackRetries (decide (transferMode = TransferMode.Repair))
      (E.src_is_constant_disk src_disk) opts.opt_track_retries < INT_MAX)
    (hfuel : trackRetries (decide (transferMode = TransferMode.Repair))
      (E.src_is_constant_disk src_disk) opts.opt_track_retries + 2 ≤ (fuel : Int)) :
    TransferTrackCounted E opts src_disk cylhead dst_disk context transferMode uncached
      deviceReadingPolicy fuel =
    some (TransferTrack E opts src_disk cylhead dst_disk context transferMode uncached
      deviceReadingPolicy) := by
  have hnonneg := trackRetries_nonneg (decide (transferMode = TransferMode.Repair))
    (E.src_is_constant_disk src_disk) opts.opt_track_retries
  unfold TransferTrackCounted TransferTrack
  split
  · rfl
  · simp only [transferLoop, roundNumbers]
    have hloop := transferRoundsCounted_eq
      (transferRound E opts cylhead (decide (transferMode = TransferMode.Repair)) uncached
        deviceReadingPolicy (skipStableSectors E opts src_disk)
        (trackRetries (decide (transferMode = TransferMode.Repair))
          (E.src_is_constant_disk src_disk) opts.opt_track_retries))
      (trackRetries (decide (transferMode = TransferMode.Repair))
        (E.src_is_constant_disk src_disk) opts.opt_track_retries) hretries
      (trackRetries (decide (transferMode = TransferMode.Repair))
        (E.src_is_constant_disk src_disk) opts.opt_track_retries + 1).toNat 0 fuel
      (initialState E src_disk cylhead dst_disk context
        (decide (transferMode = TransferMode.Repair)) deviceReadingPolicy)
      (by omega) (by omega)
    rw [← List.range_eq_range'] at hloop
    have hzero : ((0 : Nat) : Int) = 0 := rfl
    rw [hzero] at hloop
    rw [hloop]
    rfl

/-- A round of a repair without `skip_stable_sectors` whose retry budget is not
`DISK_RETRY_AUTO` does not leave the loop. -/
theorem transferRound_no_break (opts : Options) (cylhead : CylHead) (uncached : Bool)
    (deviceReadingPolicy : E.DeviceReadingPolicy) (track_retries : Int)
    (hauto : track_retries ≠ E.DISK_RETRY_AUTO) (track_round : Nat) (st : RoundState E) :
    (transferRound E opts cylhead true uncached deviceReadingPolicy false track_retries
      track_round st).2 = false := by
  rcases transferRound_cases opts cylhead true uncached deviceReadingPolicy false
      track_retries track_round st with ⟨_, hskip, _⟩ | ⟨st0, dst_track, evs, hrun, _⟩
  · cases hskip
  · rw [hrun]
    unfold readAndTransfer
    simp only []
    split_ifs <;> first | rfl | (rename_i h; exact absurd h.1 hauto)

/-- With the retry budget `INT_MAX` the loop condition `track_round <= track_retries` holds
for every value of the `int` counter: when no round leaves the loop, the loop does not end,
whatever the fuel. -/
theorem transferRoundsCounted_never_ends (body : Nat → RoundState E → RoundState E × Bool)
    (hbody : ∀ track_round st, (body track_round st).2 = false) (fuel : Nat) :
    ∀ (track_round : Int) (st : RoundState E), track_round ≤ INT_MAX →
      transferRoundsCounted body INT_MAX fuel track_round st = none := by
  induction fuel with
  | zero => intro track_round st _; rfl
  | succ f ih =>
    intro track_round st hround
    unfold transferRoundsCounted
    rw [if_pos hround]
    simp only []
    rw [hbody, if_neg (by simp)]
    exact ih _ _ (wrapInt32_le _)

/-- A repair from a source that is not constant, without `skip_stable_sectors`, with
`opt_track_retries = INT_MAX` and a `DISK_RETRY_AUTO` other than `INT_MAX`: the loop of
`Disk::TransferTrack` does not end, whatever the fuel. -/
theorem TransferTrackCounted_never_ends (opts : Options) (src_disk : E.SrcDisk)
    (cylhead : CylHead) (dst_disk : E.DstDisk) (context : E.ScanContext) (uncached : Bool)
    (deviceReadingPolicy : E.DeviceReadingPolicy)
    (hused : ¬(opts.opt_minimal ≠ 0 ∧ E.IsTrackUsed cylhead.cyl cylhead.head = false))
    (hconstant : E.src_is_constant_disk src_disk = false)
    (hskip : opts.opt_skip_stable_sectors = false)
    (hsetting : opts.opt_track_retries = INT_MAX) (hauto : INT_MAX ≠ E.DISK_RETRY_AUTO)
    (fuel : Nat) :
    TransferTrackCounted E opts src_disk cylhead dst_disk context TransferMode.Repair
      uncached deviceReadingPolicy fuel = none := by
  have hretries : trackRetries true (E.src_is_constant_disk src_disk)
      opts.opt_track_retries = INT_MAX := by
    rw [hconstant, hsetting]
    decide
  have hstable : skipStableSectors E opts src_disk = false := by
    unfold skipStableSectors
    rw [hskip]
    rfl
  have hmode : decide (TransferMode.Repair = TransferMode.Repair) = true := rfl
  unfold TransferTrackCounted
  rw [if_neg hused, hmode]
  simp only []
  rw [hretries, hstable]
  rw [transferRoundsCounted_never_ends _
    (transferRound_no_break opts cylhead uncached deviceReadingPolicy INT_MAX hauto) fuel 0 _
    (by decide)]
  rfl

/-- C12 (does not hold as stated): a repair of cylinder 39 from a source that is not constant
with `opt_track_retries = 2147483647`, the largest `int`: the condition
`track_round <= track_retries` of the loop holds for every value of the `int` counter and
no round leaves the loop, so `Disk::TransferTrack` does not end for any amount of fuel. -/
theorem C12_no_end_at_INT_MAX :
    ¬ ∃ fuel : Nat,
      (TransferTrackCounted (exampleCollaborators (-1)) (exampleOptions 2147483647 false)
        { constant := false, cyls := 40, pending := [exampleSrcData], deviceReads := 0 }
        { cyl := 39, head := 0 } [exampleDstData] (0 : Nat) TransferMode.Repair false
        { wanted := [1, 2], lookForPossibleSectors := false, skippable := [] }
        fuel).isSome = true := by
  rintro ⟨fuel, hfuel⟩
  rw [TransferTrackCounted_never_ends (E := exampleCollaborators (-1))
    (exampleOptions 2147483647 false)
    { constant := false, cyls := 40, pending := [exampleSrcData], deviceReads := 0 }
    { cyl := 39, head := 0 } [exampleDstData] (0 : Nat) false
    { wanted := [1, 2], lookForPossibleSectors := false, skippable := [] }
    (by decide) rfl rfl rfl (by decide) fuel] at hfuel
  cases hfuel

/-- C12 (amended): when the retry budget `R` is below `INT_MAX`, the round loop of
`Disk::TransferTrack` ends (with its `int` counter, every amount of fuel from `R + 2` on
gives the outcome, which is that of `TransferTrack`) and the source disk is read at most
`R + 1` times, where `R` is `opt_track_retries` when the mode is Repair, the source is not a
constant disk and `opt_track_retries >= 0`, and `R = 0` in every other case. -/
theorem C12_bounded_retries (opts : Options) (src_disk : E.SrcDisk) (cylhead : CylHead)
    (dst_disk : E.DstDisk) (context : E.ScanContext) (transferMode : TransferMode)
    (uncached : Bool) (deviceReadingPolicy : E.DeviceReadingPolicy)
    (hbudget : (if transferMode = TransferMode.Repair ∧
        E.src_is_constant_disk src_disk = false ∧ 0 ≤ opts.opt_track_retries
        then opts.opt_track_retries else 0) < INT_MAX) :
    (∀ fuel : Nat,
      (if transferMode = TransferMode.Repair ∧ E.src_is_constant_disk src_disk = false ∧
        0 ≤ opts.opt_track_retries then opts.opt_track_retries else 0) + 2 ≤ (fuel : Int) →
      TransferTrackCounted E opts src_disk cylhead dst_disk context transferMode uncached
        deviceReadingPolicy fuel =
      some (TransferTrack E opts src_disk cylhead dst_disk context transferMode uncached
        deviceReadingPolicy)) ∧
    ((srcReads (TransferTrack E opts src_disk cylhead dst_disk context transferMode uncached
      deviceReadingPolicy).trace).length : Int) ≤
    (if transferMode = TransferMode.Repair ∧ E.src_is_constant_disk src_disk = false ∧
        0 ≤ opts.opt_track_retries then opts.opt_track_retries else 0) + 1 := by
  have hR : trackRetries (decide (transferMode = TransferMode.Repair))
      (E.src_is_constant_disk src_disk) opts.opt_track_retries =
      (if transferMode = TransferMode.Repair ∧ E.src_is_constant_disk src_disk = false ∧
        0 ≤ opts.opt_track_retries then opts.opt_track_retries else 0) := by
    unfold trackRetries
    by_cases h1 : transferMode = TransferMode.Repair <;>
      by_cases h2 : E.src_is_constant_disk src_disk = false <;>
      by_cases h3 : 0 ≤ opts.opt_track_retries <;> simp_all
  refine ⟨?_, TransferTrack_reads_bounded opts src_disk cylhead dst_disk context transferMode
    uncached deviceReadingPolicy⟩
  intro fuel hfuel
  exact TransferTrackCounted_eq opts src_disk cylhead dst_disk context transferMode uncached
    deviceReadingPolicy fuel (by rw [hR]; exact hbudget) (by rw [hR]; exact hfuel)

/-- Witness of C12 (amended): a repair with 3 retries ends with 5 units of fuel and reads the
source disk 4 times. -/
theorem C12_bounded_retries_witness :
    ((TransferTrackCounted (exampleCollaborators (-1)) (exampleOptions 3 false)
      { constant := false, cyls := 40, pending := [exampleSrcData], deviceReads := 0 }
      { cyl := 39, head := 0 } [exampleDstData] (0 : Nat) TransferMode.Repair false
      { wanted := [1, 2], lookForPossibleSectors := false, skippable := [] } 5).map
      (fun result => (srcReads result.trace).length)) = some 4 ∧
    ((srcReads (TransferTrack (exampleCollaborators (-1)) (exampleOptions 3 false)
      { constant := false, cyls := 40, pending := [exampleSrcData], deviceReads := 0 }
      { cyl := 39, head := 0 } [exampleDstData] (0 : Nat) TransferMode.Repair false
      { wanted := [1, 2], lookForPossibleSectors := false, skippable := [] }).trace).length :
      Int) ≤ 3 + 1 :=
  ⟨by decide,
   (C12_bounded_retries (E := exampleCollaborators (-1)) (exampleOptions 3 false)
      { constant := false, cyls := 40, pending := [exampleSrcData], deviceReads := 0 }
      { cyl := 39, head := 0 } [exampleDstData] (0 : Nat) TransferMode.Repair false
      { wanted := [1, 2], lookForPossibleSectors := false, skippable := [] }
      (by decide)).2⟩

/-- C14: `TransferTrack` returns 0 for every transfer that is not a repair (Copy or Merge
mode), for all sources, destinations and option settings. -/
theorem C14_no_fixes_without_repair (opts : Options) (src_disk : E.SrcDisk)
    (cylhead : CylHead) (dst_disk : E.DstDisk) (context : E.ScanContext)
    (transferMode : TransferMode) (uncached : Bool)
    (deviceReadingPolicy : E.DeviceReadingPolicy)
    (hmode : transferMode = TransferMode.Copy ∨ transferMode = TransferMode.Merge) :
    (TransferTrack E opts src_disk cylhead dst_disk context transferMode uncached
      deviceReadingPolicy).trackFixesNumber = 0 := by
  have hrepair : decide (transferMode = TransferMode.Repair) = false := by
    rcases hmode with h | h <;> rw [h] <;> rfl
  by_cases hused : opts.opt_minimal ≠ 0 ∧ E.IsTrackUsed cylhead.cyl cylhead.head = false
  · unfold TransferTrack
    rw [if_pos hused]
  · rw [TransferTrack_run opts src_disk cylhead dst_disk context transferMode uncached
      deviceReadingPolicy hused]
    simp only [hrepair, transferLoop]
    refine transferRounds_induction _ (fun s => s.trackFixesNumber = 0) ?_ _ _ rfl
    intro r s hs
    rcases transferRound_cases opts cylhead false uncached deviceReadingPolicy
        (skipStableSectors E opts src_disk)
        (trackRetries false (E.src_is_constant_disk src_disk) opts.opt_track_retries) r s with
      ⟨hc, _⟩ | ⟨st0, dst_track, evs, heq, hf, _⟩
    · cases hc
    · rw [heq, (readAndTransfer_copy opts cylhead uncached _ r dst_track st0).2.1, hf, hs]

/-- Witness of C14: a copy and a merge from a source with good sectors return 0. -/
theorem C14_no_fixes_without_repair_witness :
    (TransferTrack (exampleCollaborators 0) (exampleOptions 3 false)
      { constant := false, cyls := 40, pending := [exampleSrcData], deviceReads := 0 }
      { cyl := 3, head := 0 } [exampleDstData] (0 : Nat) TransferMode.Copy false
      { wanted := [1, 2], lookForPossibleSectors := false, skippable := [] }).trackFixesNumber
      = 0 ∧
    (TransferTrack (exampleCollaborators 0) (exampleOptions 3 false)
      { constant := false, cyls := 40, pending := [exampleSrcData], deviceReads := 0 }
      { cyl := 3, head := 0 } [exampleDstData] (0 : Nat) TransferMode.Merge false
      { wanted := [1, 2], lookForPossibleSectors := false, skippable := [] }).trackFixesNumber
      = 0 :=
  ⟨C14_no_fixes_without_repair (E := exampleCollaborators 0) (exampleOptions 3 false)
      { constant := false, cyls := 40, pending := [exampleSrcData], deviceReads := 0 }
      { cyl := 3, head := 0 } [exampleDstData] (0 : Nat) TransferMode.Copy false
      { wanted := [1, 2], lookForPossibleSectors := false, skippable := [] } (Or.inl rfl),
   C14_no_fixes_without_repair (E := exampleCollaborators 0) (exampleOptions 3 false)
      { constant := false, cyls := 40, pending := [exampleSrcData], deviceReads := 0 }
      { cyl := 3, head := 0 } [exampleDstData] (0 : Nat) TransferMode.Merge false
      { wanted := [1, 2], lookForPossibleSectors := false, skippable := [] } (Or.inr rfl)⟩

end TransferClaims

section TransferSingleRound

variable {E : Collaborators}

/-- The source of a round depends on the state only through the source disk and the local
reading policy. -/
theorem roundSource_congr (opts : Options) (cylhead : CylHead) (uncached : Bool)
    (track_round : Nat) (st0 st : RoundState E) (hsrc : st0.src_disk = st.src_disk)
    (hpolicy : st0.deviceReadingPolicyLocal = st.deviceReadingPolicyLocal) :
    roundSource E opts cylhead uncached track_round st0 =
      roundSource E opts cylhead uncached track_round st := by
  unfold roundSource roundRead
  rw [hsrc, hpolicy]

/-- With a retry budget of 0 the loop is the single round 0. -/
theorem transferLoop_single (opts : Options) (src_disk : E.SrcDisk) (cylhead : CylHead)
    (dst_disk : E.DstDisk) (context : E.ScanContext) (repairMode uncached : Bool)
    (deviceReadingPolicy : E.DeviceReadingPolicy)
    (hbudget : trackRetries repairMode (E.src_is_constant_disk src_disk)
      opts.opt_track_retries = 0) :
    transferLoop E opts src_disk cylhead dst_disk context repairMode uncached
      deviceReadingPolicy =
    (transferRound E opts cylhead repairMode uncached deviceReadingPolicy
      (skipStableSectors E opts src_disk) 0 0
      (initialState E src_disk cylhead dst_disk context repairMode deviceReadingPolicy)).1 := by
  simp only [transferLoop]
  rw [hbudget, roundNumbers_zero, transferRounds_single]

end TransferSingleRound

section TransferCopy

variable {E : Collaborators}

/-- Copy and merge: the single round reads the source with no head seek, and the data
written is the track data of the changed source track or else the source data, as it is
after the bitstream normalisation, under the requested cylinder and head. -/
theorem TransferTrack_copy_written (opts : Options) (src_disk : E.SrcDisk)
    (cylhead : CylHead) (dst_disk : E.DstDisk) (context : E.ScanContext)
    (transferMode : TransferMode) (uncached : Bool)
    (deviceReadingPolicy : E.DeviceReadingPolicy)
    (hmode : transferMode = TransferMode.Copy ∨ transferMode = TransferMode.Merge)
    (hused : ¬ (opts.opt_minimal ≠ 0 ∧ E.IsTrackUsed cylhead.cyl cylhead.head = false)) :
    dstWrites (TransferTrack E opts src_disk cylhead dst_disk context transferMode uncached
      deviceReadingPolicy).trace =
      [if (E.NormaliseTrack cylhead (normaliseSource E
          (firstRead E opts src_disk cylhead uncached deviceReadingPolicy)).2).1 then
        E.trackDataOfTrack cylhead (E.NormaliseTrack cylhead (normaliseSource E
          (firstRead E opts src_disk cylhead uncached deviceReadingPolicy)).2).2
      else
        E.setCylhead (normaliseSource E
          (firstRead E opts src_disk cylhead uncached deviceReadingPolicy)).1 cylhead] ∧
    (TransferTrack E opts src_disk cylhead dst_disk context transferMode uncached
      deviceReadingPolicy).dst_disk =
      E.dst_write dst_disk
        (if (E.NormaliseTrack cylhead (normaliseSource E
            (firstRead E opts src_disk cylhead uncached deviceReadingPolicy)).2).1 then
          E.trackDataOfTrack cylhead (E.NormaliseTrack cylhead (normaliseSource E
            (firstRead E opts src_disk cylhead uncached deviceReadingPolicy)).2).2
        else
          E.setCylhead (normaliseSource E
            (firstRead E opts src_disk cylhead uncached deviceReadingPolicy)).1 cylhead) := by
  have hrepair : decide (transferMode = TransferMode.Repair) = false := by
    rcases hmode with h | h <;> rw [h] <;> rfl
  have hbudget : trackRetries false (E.src_is_constant_disk src_disk)
      opts.opt_track_retries = 0 := by
    simp [trackRetries]
  rw [TransferTrack_run opts src_disk cylhead dst_disk context transferMode uncached
    deviceReadingPolicy hused, hrepair]
  simp only []
  rw [transferLoop_single opts src_disk cylhead dst_disk context false uncached
    deviceReadingPolicy hbudget]
  rcases transferRound_cases opts cylhead false uncached deviceReadingPolicy
      (skipStableSectors E opts src_disk) 0 0
      (initialState E src_disk cylhead dst_disk context false deviceReadingPolicy) with
    ⟨hc, _⟩ | ⟨st0, dst_track, evs, heq, _, _, hsrc, _, htr, _, _, hw, _, _, hpol⟩
  · cases hc
  · have hdata := (readAndTransfer_copy opts cylhead uncached 0 0 dst_track st0).2.2.2
    rw [roundSource_congr opts cylhead uncached 0 st0 _ hsrc (hpol (Or.inl rfl))] at hdata
    have hsource : roundSource E opts cylhead uncached 0
        (initialState E src_disk cylhead dst_disk context false deviceReadingPolicy) =
        ((normaliseSource E
            (firstRead E opts src_disk cylhead uncached deviceReadingPolicy)).1,
          E.NormaliseTrack cylhead (normaliseSource E
            (firstRead E opts src_disk cylhead uncached deviceReadingPolicy)).2) := by
      simp [roundSource, roundRead, initialState, with_head_seek_to, firstRead]
    rw [hsource] at hdata
    simp only [] at hdata
    have hwrites : dstWrites (readAndTransfer E opts cylhead false uncached 0 0 dst_track
        st0).1.trace = [] := by
      rw [readAndTransfer_dstWrites, htr, dstWrites_append, hw,
        (initialState_trace src_disk cylhead dst_disk context false deviceReadingPolicy).2.2]
      rfl
    rw [heq, dstWrites_append, hwrites, hdata]
    exact ⟨rfl, rfl⟩

/-- The bitstream normalisation keeps source data without a bitstream, or with a bitstream
that `NormaliseBitstream` leaves alone, and rebuilds the source data otherwise. -/
theorem normaliseSource_fst (src_data : E.TrackData) :
    (E.has_bitstream src_data = false ∨ (E.NormaliseBitstream (E.bitstream src_data)).1 = false →
      (normaliseSource E src_data).1 = src_data) ∧
    (E.has_bitstream src_data = true ∧ (E.NormaliseBitstream (E.bitstream src_data)).1 = true →
      (normaliseSource E src_data).1 =
        E.trackDataOfBitstream (E.cylheadOf src_data)
          (E.NormaliseBitstream (E.bitstream src_data)).2) := by
  unfold normaliseSource
  constructor
  · intro h
    by_cases h1 : E.has_bitstream src_data = true
    · by_cases h2 : (E.NormaliseBitstream (E.bitstream src_data)).1 = true
      · rcases h with h | h
        · rw [h] at h1; cases h1
        · rw [h] at h2; cases h2
      · simp [h1, h2]
    · simp [h1]
  · rintro ⟨h1, h2⟩
    simp [h1, h2]

/-- C17 (does not hold as stated): in the example a copy reads track data with a raw
bitstream of 6 bits which `NormaliseBitstream` cuts to 4 bits; track-level normalisation
reports no change, both for the track as read and for the track of the rebuilt data; yet the
data written is not the read result with its `cylhead` set, but the track data rebuilt from
the normalised bitstream. -/
theorem C17_copy_after_bitstream_normalisation :
    ((exampleCollaborators 0).NormaliseTrack { cyl := 7, head := 1 }
      ((exampleCollaborators 0).track exampleRawData)).1 = false ∧
    ((exampleCollaborators 0).NormaliseTrack { cyl := 7, head := 1 }
      (normaliseSource (exampleCollaborators 0) exampleRawData).2).1 = false ∧
    (dstWrites (TransferTrack (exampleCollaborators 0) (exampleOptions 0 false)
      { constant := true, cyls := 40, pending := [exampleRawData], deviceReads := 0 }
      { cyl := 7, head := 1 } [] (0 : Nat) TransferMode.Copy false
      { wanted := [1, 2], lookForPossibleSectors := false, skippable := [] }).trace :
        List ExampleTrackData) =
      [{ cylhead := { cyl := 7, head := 1 }, track := []
         bitstream := some [true, false, true, true] }] ∧
    ((exampleCollaborators 0).setCylhead exampleRawData { cyl := 7, head := 1 } :
        ExampleTrackData) =
      { cylhead := { cyl := 7, head := 1 }, track := [(1, true), (2, true)]
        bitstream := some [true, false, true, true, false, false] } ∧
    (dstWrites (TransferTrack (exampleCollaborators 0) (exampleOptions 0 false)
      { constant := true, cyls := 40, pending := [exampleRawData], deviceReads := 0 }
      { cyl := 7, head := 1 } [] (0 : Nat) TransferMode.Copy false
      { wanted := [1, 2], lookForPossibleSectors := false, skippable := [] }).trace :
        List ExampleTrackData) ≠
      [(exampleCollaborators 0).setCylhead exampleRawData { cyl := 7, head := 1 }] := by
  refine ⟨by decide, by decide, rfl, rfl, ?_⟩
  intro h
  have hlen := congrArg (List.map (fun d : ExampleTrackData => d.track.length)) h
  exact absurd hlen (by decide)

/-- C17 (amended): in Copy or Merge mode, for a track not skipped by minimal mode, whenever
track-level normalisation of the source track reports no change: if the result of the
source read has no bitstream, or `NormaliseBitstream` reports no change of its bitstream,
the data written to the destination is that full original read result with only its
`cylhead` set to the requested cylinder and head; if `NormaliseBitstream` changed the
bitstream, the data written is `TrackData(src_data.cylhead, normalised bitstream)` with its
`cylhead` set to the requested cylinder and head. -/
theorem C17_copy_keeps_source_data (opts : Options) (src_disk : E.SrcDisk)
    (cylhead : CylHead) (dst_disk : E.DstDisk) (context : E.ScanContext)
    (transferMode : TransferMode) (uncached : Bool)
    (deviceReadingPolicy : E.DeviceReadingPolicy)
    (hmode : transferMode = TransferMode.Copy ∨ transferMode = TransferMode.Merge)
    (hused : ¬ (opts.opt_minimal ≠ 0 ∧ E.IsTrackUsed cylhead.cyl cylhead.head = false))
    (hunchanged : (E.NormaliseTrack cylhead (normaliseSource E
      (firstRead E opts src_disk cylhead uncached deviceReadingPolicy)).2).1 = false) :
    (E.has_bitstream (firstRead E opts src_disk cylhead uncached deviceReadingPolicy) = false ∨
      (E.NormaliseBitstream (E.bitstream
        (firstRead E opts src_disk cylhead uncached deviceReadingPolicy))).1 = false →
      dstWrites (TransferTrack E opts src_disk cylhead dst_disk context transferMode uncached
        deviceReadingPolicy).trace =
        [E.setCylhead (firstRead E opts src_disk cylhead uncached deviceReadingPolicy)
          cylhead] ∧
      (TransferTrack E opts src_disk cylhead dst_disk context transferMode uncached
        deviceReadingPolicy).dst_disk =
        E.dst_write dst_disk
          (E.setCylhead (firstRead E opts src_disk cylhead uncached deviceReadingPolicy)
            cylhead)) ∧
    (E.has_bitstream (firstRead E opts src_disk cylhead uncached deviceReadingPolicy) = true ∧
      (E.NormaliseBitstream (E.bitstream
        (firstRead E opts src_disk cylhead uncached deviceReadingPolicy))).1 = true →
      dstWrites (TransferTrack E opts src_disk cylhead dst_disk context transferMode uncached
        deviceReadingPolicy).trace =
        [E.setCylhead (E.trackDataOfBitstream
          (E.cylheadOf (firstRead E opts src_disk cylhead uncached deviceReadingPolicy))
          (E.NormaliseBitstream (E.bitstream
            (firstRead E opts src_disk cylhead uncached deviceReadingPolicy))).2) cylhead] ∧
      (TransferTrack E opts src_disk cylhead dst_disk context transferMode uncached
        deviceReadingPolicy).dst_disk =
        E.dst_write dst_disk
          (E.setCylhead (E.trackDataOfBitstream
            (E.cylheadOf (firstRead E opts src_disk cylhead uncached deviceReadingPolicy))
            (E.NormaliseBitstream (E.bitstream
              (firstRead E opts src_disk cylhead uncached deviceReadingPolicy))).2)
            cylhead)) := by
  obtain ⟨hw, hd⟩ := TransferTrack_copy_written opts src_disk cylhead dst_disk context
    transferMode uncached deviceReadingPolicy hmode hused
  rw [hunchanged] at hw hd
  simp only [Bool.false_eq_true, if_false] at hw hd
  obtain ⟨hkeep, hrebuilt⟩ := normaliseSource_fst
    (firstRead E opts src_disk cylhead uncached deviceReadingPolicy)
  constructor
  · intro h
    rw [hkeep h] at hw hd
    exact ⟨hw, hd⟩
  · intro h
    rw [hrebuilt h] at hw hd
    exact ⟨hw, hd⟩

/-- Witness of C17 (amended): a copy of read data without a bitstream writes the read data
under the requested cylinder and head. -/
theorem C17_copy_keeps_source_data_witness :
    dstWrites (TransferTrack (exampleCollaborators 0) (exampleOptions 0 false)
      { constant := true, cyls := 40, pending := [exampleSrcData], deviceReads := 0 }
      { cyl := 7, head := 1 } [] (0 : Nat) TransferMode.Copy false
      { wanted := [1, 2], lookForPossibleSectors := false, skippable := [] }).trace =
      [(exampleCollaborators 0).setCylhead exampleSrcData { cyl := 7, head := 1 }] :=
  ((C17_copy_keeps_source_data (E := exampleCollaborators 0) (exampleOptions 0 false)
      { constant := true, cyls := 40, pending := [exampleSrcData], deviceReads := 0 }
      { cyl := 7, head := 1 } [] (0 : Nat) TransferMode.Copy false
      { wanted := [1, 2], lookForPossibleSectors := false, skippable := [] }
      (Or.inl rfl) (by decide) rfl).1 (Or.inl rfl)).1

/-- C18: in Copy or Merge mode, whenever `NormaliseTrack` reports that it changed the source
track of the read, the data written to the destination is exactly
`TrackData(cylhead, normalised source track)`: it is built from the requested cylinder and
head and the changed track alone. -/
theorem C18_copy_of_changed_track (opts : Options) (src_disk : E.SrcDisk)
    (cylhead : CylHead) (dst_disk : E.DstDisk) (context : E.ScanContext)
    (transferMode : TransferMode) (uncached : Bool)
    (deviceReadingPolicy : E.DeviceReadingPolicy)
    (hmode : transferMode = TransferMode.Copy ∨ transferMode = TransferMode.Merge)
    (hused : ¬ (opts.opt_minimal ≠ 0 ∧ E.IsTrackUsed cylhead.cyl cylhead.head = false))
    (hchanged : (E.NormaliseTrack cylhead (normaliseSource E
      (firstRead E opts src_disk cylhead uncached deviceReadingPolicy)).2).1 = true) :
    dstWrites (TransferTrack E opts src_disk cylhead dst_disk context transferMode uncached
      deviceReadingPolicy).trace =
      [E.trackDataOfTrack cylhead (E.NormaliseTrack cylhead (normaliseSource E
        (firstRead E opts src_disk cylhead uncached deviceReadingPolicy)).2).2] ∧
    (TransferTrack E opts src_disk cylhead dst_disk context transferMode uncached
      deviceReadingPolicy).dst_disk =
      E.dst_write dst_disk
        (E.trackDataOfTrack cylhead (E.NormaliseTrack cylhead (normaliseSource E
          (firstRead E opts src_disk cylhead uncached deviceReadingPolicy)).2).2) := by
  obtain ⟨hw, hd⟩ := TransferTrack_copy_written opts src_disk cylhead dst_disk context
    transferMode uncached deviceReadingPolicy hmode hused
  rw [hchanged] at hw hd
  simp only [if_true] at hw hd
  exact ⟨hw, hd⟩

/-- Witness of C18: a merge of a source track with sector ids 1 and -1, which the example
`NormaliseTrack` changes by dropping the sector -1, from read data that has a raw bitstream
of 3 bits: the data written holds the changed track and no bitstream. -/
theorem C18_copy_of_changed_track_witness :
    dstWrites (TransferTrack (exampleCollaborators 0) (exampleOptions 0 false)
      { constant := true, cyls := 40
        pending := [{ cylhead := { cyl := 3, head := 0 }, track := [(1, true), (-1, true)]
                      bitstream := some [true, true, false] }]
        deviceReads := 0 }
      { cyl := 7, head := 1 } [exampleDstData] (0 : Nat) TransferMode.Merge false
      { wanted := [1, 2], lookForPossibleSectors := false, skippable := [] }).trace =
      [{ cylhead := { cyl := 7, head := 1 }, track := [(1, true)], bitstream := none }] :=
  (C18_copy_of_changed_track (E := exampleCollaborators 0) (exampleOptions 0 false)
      { constant := true, cyls := 40
        pending := [{ cylhead := { cyl := 3, head := 0 }, track := [(1, true), (-1, true)]
                      bitstream := some [true, true, false] }]
        deviceReads := 0 }
      { cyl := 7, head := 1 } [exampleDstData] (0 : Nat) TransferMode.Merge false
      { wanted := [1, 2], lookForPossibleSectors := false, skippable := [] }
      (Or.inr rfl) (by decide) rfl).1

end TransferCopy

section TransferSeek

variable {E : Collaborators}

/-- The head seek target of round 0 is -1; the one of a retried round is the clamped
neighbour cylinder, computed in `int`; it is the exact clamped neighbour when the requested
cylinder is not an end of the range of `int`, and it lies on the disk when the disk has a
cylinder. -/
theorem with_head_seek_to_spec (track_round : Nat) (cyl src_cyls : Int) :
    (track_round = 0 → with_head_seek_to track_round cyl src_cyls = -1) ∧
    (1 ≤ track_round →
      with_head_seek_to track_round cyl src_cyls =
        max 0 (min (intAdd cyl (if track_round % 2 = 1 then 1 else -1)) (intSub src_cyls 1)) ∧
      (-INT_MAX ≤ cyl → cyl < INT_MAX → -INT_MAX ≤ src_cyls → src_cyls ≤ INT_MAX →
        with_head_seek_to track_round cyl src_cyls =
          max 0 (min (cyl + (if track_round % 2 = 1 then 1 else -1)) (src_cyls - 1))) ∧
      (1 ≤ src_cyls → src_cyls ≤ INT_MAX → 0 ≤ with_head_seek_to track_round cyl src_cyls ∧
        with_head_seek_to track_round cyl src_cyls ≤ src_cyls - 1)) := by
  unfold with_head_seek_to
  constructor
  · intro h
    rw [if_neg (by omega)]
  · intro h
    rw [if_pos (by omega)]
    refine ⟨rfl, ?_, fun hc hmax => ⟨le_max_left _ _, ?_⟩⟩
    · intro h1 h2 h3 h4
      unfold INT_MAX at h1 h2 h3
      rw [intSub_of_range src_cyls 1 (by omega) (by omega)]
      rw [intAdd_of_range cyl _ (by split <;> omega) (by unfold INT_MAX; split <;> omega)]
    · rw [intSub_of_range src_cyls 1 (by omega) (by omega)]
      exact max_le (by omega) (min_le_right _ _)

/-- The record of the source read of a round: what the claim C19 says about one read. -/
theorem roundReadRecord_spec (opts : Options) (cylhead : CylHead) (uncached : Bool)
    (track_round : Nat) (st : RoundState E) :
    (roundReadRecord E opts cylhead uncached track_round st).cylhead =
      cylhead.mul opts.opt_step ∧
    ((roundReadRecord E opts cylhead uncached track_round st).track_round = 0 →
      (roundReadRecord E opts cylhead uncached track_round st).with_head_seek_to = -1 ∧
      (roundReadRecord E opts cylhead uncached track_round st).uncached = uncached) ∧
    (1 ≤ (roundReadRecord E opts cylhead uncached track_round st).track_round →
      (roundReadRecord E opts cylhead uncached track_round st).uncached = true ∧
      (roundReadRecord E opts cylhead uncached track_round st).with_head_seek_to =
        max 0 (min (intAdd cylhead.cyl
          (if (roundReadRecord E opts cylhead uncached track_round st).track_round % 2 = 1
            then 1 else -1))
          (intSub (roundReadRecord E opts cylhead uncached track_round st).src_cyls 1)) ∧
      (-INT_MAX ≤ cylhead.cyl → cylhead.cyl < INT_MAX →
        -INT_MAX ≤ (roundReadRecord E opts cylhead uncached track_round st).src_cyls →
        (roundReadRecord E opts cylhead uncached track_round st).src_cyls ≤ INT_MAX →
        (roundReadRecord E opts cylhead uncached track_round st).with_head_seek_to =
          max 0 (min (cylhead.cyl +
            (if (roundReadRecord E opts cylhead uncached track_round st).track_round % 2 = 1
              then 1 else -1))
            ((roundReadRecord E opts cylhead uncached track_round st).src_cyls - 1))) ∧
      (1 ≤ (roundReadRecord E opts cylhead uncached track_round st).src_cyls →
        (roundReadRecord E opts cylhead uncached track_round st).src_cyls ≤ INT_MAX →
        0 ≤ (roundReadRecord E opts cylhead uncached track_round st).with_head_seek_to ∧
        (roundReadRecord E opts cylhead uncached track_round st).with_head_seek_to ≤
          (roundReadRecord E opts cylhead uncached track_round st).src_cyls - 1)) := by
  obtain ⟨h0, h1⟩ := with_head_seek_to_spec track_round cylhead.cyl (E.src_cyls st.src_disk)
  refine ⟨rfl, ?_, ?_⟩
  · intro h
    have hr : track_round = 0 := h
    refine ⟨h0 hr, ?_⟩
    show (uncached || decide (track_round > 0)) = uncached
    rw [hr]
    simp
  · intro h
    have hr : 1 ≤ track_round := h
    refine ⟨?_, (h1 hr).1, (h1 hr).2.1, (h1 hr).2.2⟩
    show (uncached || decide (track_round > 0)) = true
    have : decide (track_round > 0) = true := by
      rw [decide_eq_true_eq]; omega
    rw [this]
    simp

/-- The source read of a round is the call `src_disk.read` on the source disk of the state,
with the arguments that the record of the round holds. -/
theorem roundRead_call (opts : Options) (cylhead : CylHead) (uncached : Bool)
    (track_round : Nat) (st : RoundState E) :
    roundRead E opts cylhead uncached track_round st =
      (roundReadRecord E opts cylhead uncached track_round st).call st.src_disk := rfl

/-- The source disk after the second half of a round is the one the source read returns. -/
theorem readAndTransfer_src_disk (opts : Options) (cylhead : CylHead)
    (repairMode uncached : Bool) (track_retries : Int) (track_round : Nat)
    (dst_track : E.Track) (st : RoundState E) :
    (readAndTransfer E opts cylhead repairMode uncached track_retries track_round
      dst_track st).1.src_disk = (roundRead E opts cylhead uncached track_round st).2 := by
  unfold readAndTransfer
  simp only []
  split_ifs <;> simp [RoundState.log]

theorem replayReads_append (reads : List (SrcRead E)) (rd : SrcRead E) (src_disk : E.SrcDisk) :
    replayReads (reads ++ [rd]) src_disk = (rd.call (replayReads reads src_disk)).2 := by
  unfold replayReads
  rw [List.foldl_append]
  rfl

/-- A round keeps the recorded reads in step with the calls on the source disk. -/
theorem transferRound_replayed (opts : Options) (cylhead : CylHead)
    (repairMode uncached : Bool) (deviceReadingPolicy : E.DeviceReadingPolicy)
    (skip_stable_sectors : Bool) (track_retries : Int) (src_disk : E.SrcDisk)
    (track_round : Nat) (st : RoundState E) (h : ReadsReplayed E src_disk st) :
    ReadsReplayed E src_disk (transferRound E opts cylhead repairMode uncached
      deviceReadingPolicy skip_stable_sectors track_retries track_round st).1 := by
  obtain ⟨hdisk, hcyls⟩ := h
  rcases transferRound_cases opts cylhead repairMode uncached deviceReadingPolicy
      skip_stable_sectors track_retries track_round st with
    ⟨_, _, _, hrun⟩ | ⟨st0, dst_track, evs, hrun, _, _, hsrc, _, htrace, hevs, _, _, _, _, _⟩
  · rw [hrun]
    have hreads : srcReads (st.trace ++
        [Event.message (Diagnostic.reading (decide (track_round > 0)) cylhead)]) =
        srcReads st.trace := by
      rw [srcReads_append]
      simp [srcReads, Event.asSrcRead]
    unfold ReadsReplayed
    simp only []
    rw [hreads]
    exact ⟨hdisk, hcyls⟩
  · rw [hrun]
    have hreads0 : srcReads st0.trace = srcReads st.trace := by
      rw [htrace, srcReads_append, hevs, List.append_nil]
    have hreads := readAndTransfer_srcReads opts cylhead repairMode uncached track_retries
      track_round dst_track st0
    rw [hreads0] at hreads
    unfold ReadsReplayed
    rw [hreads, readAndTransfer_src_disk, roundRead_call, replayReads_append, hsrc, hdisk]
    refine ⟨rfl, ?_⟩
    intro i rd hget
    by_cases hi : i < (srcReads st.trace).length
    · rw [List.getElem?_append_left hi] at hget
      rw [List.take_append_of_le_length (by omega)]
      exact hcyls i rd hget
    · rw [List.getElem?_append_right (by omega)] at hget
      have hzero : i - (srcReads st.trace).length = 0 := by
        by_contra hne
        rw [List.getElem?_eq_none (by simp only [List.length_singleton]; omega)] at hget
        cases hget
      have hlen : i = (srcReads st.trace).length := by omega
      rw [hzero] at hget
      simp only [List.getElem?_cons_zero, Option.some.injEq] at hget
      rw [hlen, List.take_left' rfl, ← hget, ← hdisk, ← hsrc]
      rfl

/-- The source reads of the loop over the rounds `k, k + 1, ...` are numbered in order. -/
theorem transferRounds_read_rounds (opts : Options) (cylhead : CylHead)
    (repairMode uncached : Bool) (deviceReadingPolicy : E.DeviceReadingPolicy)
    (skip_stable_sectors : Bool) (track_retries : Int) (n : Nat) :
    ∀ (k : Nat) (st : RoundState E),
      (srcReads st.trace).map (fun rd => rd.track_round) = List.range k →
      ∃ m, (srcReads (transferRounds (transferRound E opts cylhead repairMode uncached
        deviceReadingPolicy skip_stable_sectors track_retries) (List.range' k n)
        st).trace).map (fun rd => rd.track_round) = List.range m := by
  induction n with
  | zero =>
    intro k st h
    exact ⟨k, h⟩
  | succ n ih =>
    intro k st h
    rw [List.range'_succ]
    unfold transferRounds
    simp only []
    rcases transferRound_srcReads opts cylhead repairMode uncached deviceReadingPolicy
        skip_stable_sectors track_retries k st with ⟨hr, hb⟩ | ⟨st0, hr⟩
    · rw [if_pos hb, hr]
      exact ⟨k, h⟩
    · have hnext : (srcReads (transferRound E opts cylhead repairMode uncached
          deviceReadingPolicy skip_stable_sectors track_retries k st).1.trace).map
          (fun rd => rd.track_round) = List.range (k + 1) := by
        rw [hr, List.map_append, h, List.range_succ]
        rfl
      split
      · exact ⟨k + 1, hnext⟩
      · exact ih (k + 1) _ hnext

/-- C19: the source read of a round is the call `src_disk.read(cylhead * opt_step,
uncached || is_track_retried, with_head_seek_to, deviceReadingPolicyLocal)` on the source
disk of that moment, with head seek target -1 in round 0 and
`max(0, min(cyl + d, src.cyls() - 1))`, in `int` arithmetic, in a retried round `r >= 1`,
where `d = +1` for odd `r` and `d = -1` for even `r`. The reads recorded in the trace of
`TransferTrack` are these calls: the source disk returned is the one after the recorded
calls issued in order, every record holds `src.cyls()` of the disk it was issued on, and the
records are those of the rounds 0, 1, 2, ... in order, each at `cylhead * opt_step`. Round 0
reads with target -1 and the caller's `uncached` flag; every retried round reads uncached,
with the target above, which is the exact `max(0, min(cyl + d, src.cyls() - 1))` when the
requested cylinder is not an end of the range of `int`, and which lies in
`[0, src.cyls() - 1]` for a source with at least one cylinder, whatever the requested
cylinder. -/
theorem C19_alternating_clamped_seek (opts : Options) (src_disk : E.SrcDisk)
    (cylhead : CylHead) (dst_disk : E.DstDisk) (context : E.ScanContext)
    (transferMode : TransferMode) (uncached : Bool)
    (deviceReadingPolicy : E.DeviceReadingPolicy) :
    (∀ (track_round : Nat) (st : RoundState E),
      roundRead E opts cylhead uncached track_round st =
        E.src_read st.src_disk (cylhead.mul opts.opt_step)
          (uncached || decide (track_round > 0))
          (if track_round = 0 then -1
            else max 0 (min (intAdd cylhead.cyl (if track_round % 2 = 1 then 1 else -1))
              (intSub (E.src_cyls st.src_disk) 1)))
          st.deviceReadingPolicyLocal) ∧
    (TransferTrack E opts src_disk cylhead dst_disk context transferMode uncached
      deviceReadingPolicy).src_disk =
      replayReads (srcReads (TransferTrack E opts src_disk cylhead dst_disk context
        transferMode uncached deviceReadingPolicy).trace) src_disk ∧
    (∀ (i : Nat) (rd : SrcRead E),
      (srcReads (TransferTrack E opts src_disk cylhead dst_disk context transferMode uncached
        deviceReadingPolicy).trace)[i]? = some rd →
      rd.src_cyls = E.src_cyls (replayReads ((srcReads (TransferTrack E opts src_disk cylhead
        dst_disk context transferMode uncached deviceReadingPolicy).trace).take i)
        src_disk)) ∧
    (srcReads (TransferTrack E opts src_disk cylhead dst_disk context transferMode uncached
      deviceReadingPolicy).trace).map (fun rd => rd.track_round) =
      List.range (srcReads (TransferTrack E opts src_disk cylhead dst_disk context
        transferMode uncached deviceReadingPolicy).trace).length ∧
    ∀ rd ∈ srcReads (TransferTrack E opts src_disk cylhead dst_disk context transferMode
        uncached deviceReadingPolicy).trace,
      rd.cylhead = cylhead.mul opts.opt_step ∧
      (rd.track_round = 0 → rd.with_head_seek_to = -1 ∧ rd.uncached = uncached) ∧
      (1 ≤ rd.track_round →
        rd.uncached = true ∧
        rd.with_head_seek_to =
          max 0 (min (intAdd cylhead.cyl (if rd.track_round % 2 = 1 then 1 else -1))
            (intSub rd.src_cyls 1)) ∧
        (-INT_MAX ≤ cylhead.cyl → cylhead.cyl < INT_MAX →
          -INT_MAX ≤ rd.src_cyls → rd.src_cyls ≤ INT_MAX →
          rd.with_head_seek_to =
            max 0 (min (cylhead.cyl + (if rd.track_round % 2 = 1 then 1 else -1))
              (rd.src_cyls - 1))) ∧
        (1 ≤ rd.src_cyls → rd.src_cyls ≤ INT_MAX →
          0 ≤ rd.with_head_seek_to ∧ rd.with_head_seek_to ≤ rd.src_cyls - 1)) := by
  have hcall : ∀ (track_round : Nat) (st : RoundState E),
      roundRead E opts cylhead uncached track_round st =
        E.src_read st.src_disk (cylhead.mul opts.opt_step)
          (uncached || decide (track_round > 0))
          (if track_round = 0 then -1
            else max 0 (min (intAdd cylhead.cyl (if track_round % 2 = 1 then 1 else -1))
              (intSub (E.src_cyls st.src_disk) 1)))
          st.deviceReadingPolicyLocal := by
    intro track_round st
    unfold roundRead with_head_seek_to
    by_cases hr : track_round = 0
    · rw [if_pos hr, if_neg (by omega)]
    · rw [if_neg hr, if_pos (by omega)]
  refine ⟨hcall, ?_⟩
  by_cases hused : opts.opt_minimal ≠ 0 ∧ E.IsTrackUsed cylhead.cyl cylhead.head = false
  · have hrun : TransferTrack E opts src_disk cylhead dst_disk context transferMode
        uncached deviceReadingPolicy =
        { trackFixesNumber := 0, src_disk := src_disk, dst_disk := dst_disk
          context := context, trace := [] } := by
      unfold TransferTrack
      rw [if_pos hused]
    rw [hrun]
    refine ⟨rfl, ?_, rfl, ?_⟩
    · intro i rd hget
      cases hget
    · intro rd hrd
      cases hrd
  · rw [TransferTrack_run opts src_disk cylhead dst_disk context transferMode uncached
      deviceReadingPolicy hused]
    simp only []
    have hw : ∀ d : E.TrackData, srcReads [Event.dstWrite (E := E) d] = [] := by
      intro d
      simp [srcReads, Event.asSrcRead]
    rw [srcReads_append, hw, List.append_nil]
    have hinit := (initialState_trace src_disk cylhead dst_disk context
      (decide (transferMode = TransferMode.Repair)) deviceReadingPolicy).1
    have hreplayed : ReadsReplayed E src_disk (transferLoop E opts src_disk cylhead dst_disk
        context (decide (transferMode = TransferMode.Repair)) uncached
        deviceReadingPolicy) := by
      simp only [transferLoop]
      refine transferRounds_induction _ (ReadsReplayed E src_disk) ?_ _ _ ?_
      · intro r s hs
        exact transferRound_replayed opts cylhead _ uncached deviceReadingPolicy _ _ src_disk
          r s hs
      · unfold ReadsReplayed
        rw [hinit]
        refine ⟨rfl, ?_⟩
        intro i rd hget
        cases hget
    refine ⟨hreplayed.1, hreplayed.2, ?_, ?_⟩
    · simp only [transferLoop, roundNumbers]
      obtain ⟨m, hm⟩ := transferRounds_read_rounds opts cylhead
        (decide (transferMode = TransferMode.Repair)) uncached deviceReadingPolicy
        (skipStableSectors E opts src_disk)
        (trackRetries (decide (transferMode = TransferMode.Repair))
          (E.src_is_constant_disk src_disk) opts.opt_track_retries)
        ((trackRetries (decide (transferMode = TransferMode.Repair))
          (E.src_is_constant_disk src_disk) opts.opt_track_retries) + 1).toNat 0
        (initialState E src_disk cylhead dst_disk context
          (decide (transferMode = TransferMode.Repair)) deviceReadingPolicy)
        (by rw [hinit]; rfl)
      rw [← List.range_eq_range'] at hm
      have hlen := congrArg List.length hm
      rw [List.length_map, List.length_range] at hlen
      rw [hlen]
      exact hm
    · simp only [transferLoop]
      refine transferRounds_induction _
        (fun s => ∀ rd ∈ srcReads s.trace,
          rd.cylhead = cylhead.mul opts.opt_step ∧
          (rd.track_round = 0 → rd.with_head_seek_to = -1 ∧ rd.uncached = uncached) ∧
          (1 ≤ rd.track_round →
            rd.uncached = true ∧
            rd.with_head_seek_to =
              max 0 (min (intAdd cylhead.cyl (if rd.track_round % 2 = 1 then 1 else -1))
                (intSub rd.src_cyls 1)) ∧
            (-INT_MAX ≤ cylhead.cyl → cylhead.cyl < INT_MAX →
              -INT_MAX ≤ rd.src_cyls → rd.src_cyls ≤ INT_MAX →
              rd.with_head_seek_to =
                max 0 (min (cylhead.cyl + (if rd.track_round % 2 = 1 then 1 else -1))
                  (rd.src_cyls - 1))) ∧
            (1 ≤ rd.src_cyls → rd.src_cyls ≤ INT_MAX →
              0 ≤ rd.with_head_seek_to ∧ rd.with_head_seek_to ≤ rd.src_cyls - 1)))
        ?_ _ _ ?_
      · intro r s hs rd hrd
        rcases transferRound_srcReads opts cylhead
            (decide (transferMode = TransferMode.Repair)) uncached deviceReadingPolicy
            (skipStableSectors E opts src_disk)
            (trackRetries (decide (transferMode = TransferMode.Repair))
              (E.src_is_constant_disk src_disk) opts.opt_track_retries) r s with
          ⟨hr, _⟩ | ⟨st0, hr⟩
        · rw [hr] at hrd
          exact hs rd hrd
        · rw [hr, List.mem_append, List.mem_singleton] at hrd
          rcases hrd with hrd | hrd
          · exact hs rd hrd
          · rw [hrd]
            exact roundReadRecord_spec opts cylhead uncached r st0
      · intro rd hrd
        rw [hinit] at hrd
        cases hrd

/-- Witness of C19: a repair of cylinder 39 of a 40 cylinder source with 3 retries reads in
the rounds 0, 1, 2, 3 with the head seek targets -1, 39, 38, 39, the last three uncached. -/
theorem C19_alternating_clamped_seek_witness :
    (srcReads (TransferTrack (exampleCollaborators (-1)) (exampleOptions 3 false)
      { constant := false, cyls := 40, pending := [exampleSrcData], deviceReads := 0 }
      { cyl := 39, head := 0 } [exampleDstData] (0 : Nat) TransferMode.Repair false
      { wanted := [1, 2], lookForPossibleSectors := false, skippable := [] }).trace).map
      (fun rd => rd.with_head_seek_to) = [-1, 39, 38, 39] ∧
    (srcReads (TransferTrack (exampleCollaborators (-1)) (exampleOptions 3 false)
      { constant := false, cyls := 40, pending := [exampleSrcData], deviceReads := 0 }
      { cyl := 39, head := 0 } [exampleDstData] (0 : Nat) TransferMode.Repair false
      { wanted := [1, 2], lookForPossibleSectors := false, skippable := [] }).trace).map
      (fun rd => rd.uncached) = [false, true, true, true] ∧
    (srcReads (TransferTrack (exampleCollaborators (-1)) (exampleOptions 3 false)
      { constant := false, cyls := 40, pending := [exampleSrcData], deviceReads := 0 }
      { cyl := 39, head := 0 } [exampleDstData] (0 : Nat) TransferMode.Repair false
      { wanted := [1, 2], lookForPossibleSectors := false, skippable := [] }).trace).map
      (fun rd => rd.track_round) =
      List.range (srcReads (TransferTrack (exampleCollaborators (-1)) (exampleOptions 3 false)
        { constant := false, cyls := 40, pending := [exampleSrcData], deviceReads := 0 }
        { cyl := 39, head := 0 } [exampleDstData] (0 : Nat) TransferMode.Repair false
        { wanted := [1, 2], lookForPossibleSectors := false, skippable := [] }).trace).length :=
  ⟨by decide, by decide,
   (C19_alternating_clamped_seek (E := exampleCollaborators (-1)) (exampleOptions 3 false)
      { constant := false, cyls := 40, pending := [exampleSrcData], deviceReads := 0 }
      { cyl := 39, head := 0 } [exampleDstData] (0 : Nat) TransferMode.Repair false
      { wanted := [1, 2], lookForPossibleSectors := false, skippable := [] }).2.2.2.1⟩

end TransferSeek
section TransferStop

variable {E : Collaborators}

/-- C20: in Repair mode with `skip_stable_sectors` in force (option set, source not
constant), a round at whose start the local reading policy, made of the caller's skippable
sectors and the stable sectors of the destination track, wants no more sectors ends the
loop: from any state `st` at the start of any round, the loop issues no further source read
and no further `RepairTrack` call and keeps the fix count and `dst_data` of `st`. In
particular, when this happens in round 0, `TransferTrack` returns 0 without any source read
or `RepairTrack` call and writes back the destination data it read. -/
theorem C20_stable_sector_stop (opts : Options) (cylhead : CylHead) (uncached : Bool)
    (deviceReadingPolicy : E.DeviceReadingPolicy) :
    (∀ (track_retries : Int) (st : RoundState E) (track_round : Nat) (later : List Nat),
      E.WantMoreSectors (stablePolicy E deviceReadingPolicy st.deviceReadingPolicyLocal
        (E.NormaliseTrack cylhead (E.track st.dst_data)).2) = false →
      srcReads (transferRounds (transferRound E opts cylhead true uncached deviceReadingPolicy
        true track_retries) (track_round :: later) st).trace = srcReads st.trace ∧
      repairAmounts (transferRounds (transferRound E opts cylhead true uncached
        deviceReadingPolicy true track_retries) (track_round :: later) st).trace =
        repairAmounts st.trace ∧
      (transferRounds (transferRound E opts cylhead true uncached deviceReadingPolicy
        true track_retries) (track_round :: later) st).trackFixesNumber =
        st.trackFixesNumber ∧
      (transferRounds (transferRound E opts cylhead true uncached deviceReadingPolicy
        true track_retries) (track_round :: later) st).dst_data = st.dst_data ∧
      (transferRounds (transferRound E opts cylhead true uncached deviceReadingPolicy
        true track_retries) (track_round :: later) st).src_disk = st.src_disk) ∧
    (∀ (src_disk : E.SrcDisk) (dst_disk : E.DstDisk) (context : E.ScanContext),
      ¬ (opts.opt_minimal ≠ 0 ∧ E.IsTrackUsed cylhead.cyl cylhead.head = false) →
      E.src_is_constant_disk src_disk = false →
      opts.opt_skip_stable_sectors = true →
      E.WantMoreSectors (stablePolicy E deviceReadingPolicy
        (E.newPolicy (E.WantedSectorHeaderIds deviceReadingPolicy)
          (E.LookForPossibleSectors deviceReadingPolicy))
        (E.NormaliseTrack cylhead (E.track (E.dst_read dst_disk cylhead).1)).2) = false →
      (TransferTrack E opts src_disk cylhead dst_disk context TransferMode.Repair uncached
        deviceReadingPolicy).trackFixesNumber = 0 ∧
      srcReads (TransferTrack E opts src_disk cylhead dst_disk context TransferMode.Repair
        uncached deviceReadingPolicy).trace = [] ∧
      repairAmounts (TransferTrack E opts src_disk cylhead dst_disk context
        TransferMode.Repair uncached deviceReadingPolicy).trace = [] ∧
      dstWrites (TransferTrack E opts src_disk cylhead dst_disk context TransferMode.Repair
        uncached deviceReadingPolicy).trace = [(E.dst_read dst_disk cylhead).1] ∧
      (TransferTrack E opts src_disk cylhead dst_disk context TransferMode.Repair
        uncached deviceReadingPolicy).src_disk = src_disk) := by
  have hloop : ∀ (track_retries : Int) (st : RoundState E) (track_round : Nat)
      (later : List Nat),
      E.WantMoreSectors (stablePolicy E deviceReadingPolicy st.deviceReadingPolicyLocal
        (E.NormaliseTrack cylhead (E.track st.dst_data)).2) = false →
      transferRounds (transferRound E opts cylhead true uncached deviceReadingPolicy
        true track_retries) (track_round :: later) st =
      { st with
        deviceReadingPolicyLocal :=
          stablePolicy E deviceReadingPolicy st.deviceReadingPolicyLocal
            (E.NormaliseTrack cylhead (E.track st.dst_data)).2
        trace := st.trace ++
          [Event.message (Diagnostic.reading (decide (track_round > 0)) cylhead)] } := by
    intro track_retries st track_round later hw
    simp [transferRounds, transferRound, RoundState.log, hw]
  constructor
  · intro track_retries st track_round later hw
    rw [hloop track_retries st track_round later hw]
    simp [srcReads, repairAmounts, List.filterMap_append, Event.asSrcRead,
      Event.asRepairTrack]
  · intro src_disk dst_disk context hused hconstant hoption hw
    have hskip : skipStableSectors E opts src_disk = true := by
      simp [skipStableSectors, hconstant, hoption]
    have hmode : decide (TransferMode.Repair = TransferMode.Repair) = true := rfl
    rw [TransferTrack_run opts src_disk cylhead dst_disk context TransferMode.Repair uncached
      deviceReadingPolicy hused, hmode]
    simp only [transferLoop]
    have hrounds : roundNumbers (trackRetries true (E.src_is_constant_disk src_disk)
        opts.opt_track_retries) = 0 :: List.range' 1
        ((trackRetries true (E.src_is_constant_disk src_disk)
          opts.opt_track_retries).toNat) := by
      have hn := trackRetries_nonneg true (E.src_is_constant_disk src_disk)
        opts.opt_track_retries
      have e : (trackRetries true (E.src_is_constant_disk src_disk)
          opts.opt_track_retries + 1).toNat =
          (trackRetries true (E.src_is_constant_disk src_disk)
            opts.opt_track_retries).toNat + 1 := by omega
      rw [roundNumbers, e, List.range_eq_range', List.range'_succ]
    rw [hrounds, hskip, hloop _ _ 0 _ hw]
    simp [initialState, srcReads, repairAmounts, dstWrites, List.filterMap_append,
      Event.asSrcRead, Event.asRepairTrack, Event.asDstWrite]

/-- Witness of C20: with all wanted sectors of the destination track already good, a repair
with 3 retries stops in round 0; and with sector 2 bad, round 0 repairs it and round 1
stops, so that the source is read once and the fix count is 1. -/
theorem C20_stable_sector_stop_witness :
    (TransferTrack (exampleCollaborators (-1)) (exampleOptions 3 true)
      { constant := false, cyls := 40, pending := [exampleSrcData], deviceReads := 0 }
      { cyl := 3, head := 0 } [exampleSrcData] (0 : Nat) TransferMode.Repair false
      { wanted := [1, 2], lookForPossibleSectors := false, skippable := [] }).trackFixesNumber
      = 0 ∧
    srcReads (TransferTrack (exampleCollaborators (-1)) (exampleOptions 3 true)
      { constant := false, cyls := 40, pending := [exampleSrcData], deviceReads := 0 }
      { cyl := 3, head := 0 } [exampleSrcData] (0 : Nat) TransferMode.Repair false
      { wanted := [1, 2], lookForPossibleSectors := false, skippable := [] }).trace = [] ∧
    (srcReads (TransferTrack (exampleCollaborators (-1)) (exampleOptions 3 true)
      { constant := false, cyls := 40, pending := [exampleSrcData], deviceReads := 0 }
      { cyl := 3, head := 0 } [exampleDstData] (0 : Nat) TransferMode.Repair false
      { wanted := [1, 2], lookForPossibleSectors := false, skippable := [] }).trace).length
      = 1 ∧
    (TransferTrack (exampleCollaborators (-1)) (exampleOptions 3 true)
      { constant := false, cyls := 40, pending := [exampleSrcData], deviceReads := 0 }
      { cyl := 3, head := 0 } [exampleDstData] (0 : Nat) TransferMode.Repair false
      { wanted := [1, 2], lookForPossibleSectors := false, skippable := [] }).trackFixesNumber
      = 1 :=
  have h := (C20_stable_sector_stop (E := exampleCollaborators (-1)) (exampleOptions 3 true)
    { cyl := 3, head := 0 } false
    { wanted := [1, 2], lookForPossibleSectors := false, skippable := [] }).2
    { constant := false, cyls := 40, pending := [exampleSrcData], deviceReads := 0 }
    [exampleSrcData] (0 : Nat) (by decide) rfl rfl (by decide)
  ⟨h.1, h.2.1, by decide, by decide⟩

end TransferStop

section TransferAutoStop

variable {E : Collaborators}

/-- A trace with a `RepairTrack` call of result 0 has 0 among its repair results. -/
theorem zero_mem_repairAmounts (a b : List (Event E)) :
    (0 : Int) ∈ repairAmounts (a ++ Event.repairTrack 0 :: b) := by
  simp [repairAmounts, List.filterMap_append, Event.asRepairTrack]

/-- A trace with a single `RepairTrack` call of result 0 splits at that call in one way. -/
theorem split_at_zero_repair (p t pre post : List (Event E))
    (hp : (0 : Int) ∉ repairAmounts p) (ht : (0 : Int) ∉ repairAmounts t)
    (h : p ++ Event.repairTrack 0 :: t = pre ++ Event.repairTrack 0 :: post) :
    pre = p ∧ post = t := by
  rcases List.append_eq_append_iff.1 h with ⟨a, h1, h2⟩ | ⟨c, h1, h2⟩
  · cases a with
    | nil =>
      simp only [List.nil_append, List.cons.injEq, true_and] at h2
      simp only [List.append_nil] at h1
      exact ⟨h1, h2.symm⟩
    | cons e a =>
      simp only [List.cons_append, List.cons.injEq] at h2
      exact absurd (h2.2 ▸ zero_mem_repairAmounts a post) ht
  · cases c with
    | nil =>
      simp only [List.nil_append, List.cons.injEq, true_and] at h2
      simp only [List.append_nil] at h1
      exact ⟨h1.symm, h2⟩
    | cons e c =>
      simp only [List.cons_append, List.cons.injEq] at h2
      rw [h1, ← h2.1] at hp
      exact absurd (zero_mem_repairAmounts pre c) hp

/-- One repair round, from a state whose trace has no `RepairTrack` call of result 0 and
whose fix count is the sum of the results so far, with the auto sentinel as retry budget or
with a fix count of 0: afterwards either the same holds again, or the trace ends with a
`RepairTrack` call of result 0 that has left the fix count alone, and with the auto
sentinel the round has left the loop. -/
theorem transferRound_zero_stop (opts : Options) (cylhead : CylHead) (uncached : Bool)
    (deviceReadingPolicy : E.DeviceReadingPolicy) (skip_stable_sectors : Bool)
    (track_retries : Int) (track_round : Nat) (st : RoundState E)
    (hzero : (0 : Int) ∉ repairAmounts st.trace)
    (hsum : st.trackFixesNumber = (repairAmounts st.trace).sum)
    (hcase : track_retries = E.DISK_RETRY_AUTO ∨ st.trackFixesNumber = 0) :
    ((0 : Int) ∉ repairAmounts (transferRound E opts cylhead true uncached deviceReadingPolicy
        skip_stable_sectors track_retries track_round st).1.trace ∧
      (transferRound E opts cylhead true uncached deviceReadingPolicy
        skip_stable_sectors track_retries track_round st).1.trackFixesNumber =
      (repairAmounts (transferRound E opts cylhead true uncached deviceReadingPolicy
        skip_stable_sectors track_retries track_round st).1.trace).sum) ∨
    ((∃ p, (transferRound E opts cylhead true uncached deviceReadingPolicy
          skip_stable_sectors track_retries track_round st).1.trace =
          p ++ [Event.repairTrack 0] ∧
        (0 : Int) ∉ repairAmounts p ∧
        (transferRound E opts cylhead true uncached deviceReadingPolicy
          skip_stable_sectors track_retries track_round st).1.trackFixesNumber =
          (repairAmounts p).sum) ∧
      (track_retries = E.DISK_RETRY_AUTO →
        (transferRound E opts cylhead true uncached deviceReadingPolicy
          skip_stable_sectors track_retries track_round st).2 = true)) := by
  rcases transferRound_cases opts cylhead true uncached deviceReadingPolicy
      skip_stable_sectors track_retries track_round st with
    ⟨_, _, _, heq⟩ | ⟨st0, dst_track, evs, heq, hf, _, _, _, htr, _, hra, _, _, _, _⟩
  · left
    rw [heq]
    simp only []
    have e : repairAmounts (st.trace ++
        [Event.message (Diagnostic.reading (decide (track_round > 0)) cylhead)]) =
        repairAmounts st.trace := by
      simp [repairAmounts, List.filterMap_append, Event.asRepairTrack]
    rw [e]
    exact ⟨hzero, hsum⟩
  · obtain ⟨mid, tail, h1, hmid, htail, _, htl, hbrk, h2, _⟩ := readAndTransfer_repair opts
      cylhead uncached track_retries track_round dst_track st0
    rw [heq]
    have hpre : repairAmounts (st0.trace ++ mid) = repairAmounts st.trace := by
      rw [htr, repairAmounts_append, repairAmounts_append, hra, hmid]
      simp
    by_cases ha : (roundRepair E opts cylhead uncached track_round dst_track st0).1 = 0
    · right
      have htailnil : tail = [] := by
        by_contra hne
        obtain ⟨hpos, hb⟩ := htl hne
        rcases hcase with hauto | hfix
        · rw [hbrk.2 ⟨hauto, ha⟩] at hb
          cases hb
        · rw [ha, hf, hfix] at hpos
          omega
      refine ⟨⟨st0.trace ++ mid, ?_, ?_, ?_⟩, fun hauto => hbrk.2 ⟨hauto, ha⟩⟩
      · rw [h1, htailnil, ha]
      · rw [hpre]; exact hzero
      · rw [h2, ha, hpre, hf, hsum]
        simp
    · left
      have hall : repairAmounts (readAndTransfer E opts cylhead true uncached track_retries
          track_round dst_track st0).1.trace = repairAmounts st.trace ++
          [(roundRepair E opts cylhead uncached track_round dst_track st0).1] := by
        rw [h1, repairAmounts_append, hpre]
        show _ ++ ((roundRepair E opts cylhead uncached track_round dst_track st0).1 ::
          repairAmounts tail) = _
        rw [htail]
      rw [hall, h2, hf, hsum, List.sum_append]
      refine ⟨?_, by simp⟩
      rw [List.mem_append, List.mem_singleton]
      rintro (h | h)
      · exact hzero h
      · exact ha h.symm

/-- The repair loop with the auto sentinel as retry budget: afterwards either no
`RepairTrack` call had result 0, or the trace ends with the only such call; in both cases
the fix count is the sum of the results of the calls before it. -/
theorem transferRounds_zero_stop (opts : Options) (cylhead : CylHead) (uncached : Bool)
    (deviceReadingPolicy : E.DeviceReadingPolicy) (skip_stable_sectors : Bool)
    (track_retries : Int) (hauto : track_retries = E.DISK_RETRY_AUTO) (rounds : List Nat) :
    ∀ st : RoundState E,
      (0 : Int) ∉ repairAmounts st.trace →
      st.trackFixesNumber = (repairAmounts st.trace).sum →
      ((0 : Int) ∉ repairAmounts (transferRounds (transferRound E opts cylhead true uncached
          deviceReadingPolicy skip_stable_sectors track_retries) rounds st).trace ∧
        (transferRounds (transferRound E opts cylhead true uncached
          deviceReadingPolicy skip_stable_sectors track_retries) rounds st).trackFixesNumber =
        (repairAmounts (transferRounds (transferRound E opts cylhead true uncached
          deviceReadingPolicy skip_stable_sectors track_retries) rounds st).trace).sum) ∨
      (∃ p, (transferRounds (transferRound E opts cylhead true uncached
            deviceReadingPolicy skip_stable_sectors track_retries) rounds st).trace =
            p ++ [Event.repairTrack 0] ∧
          (0 : Int) ∉ repairAmounts p ∧
          (transferRounds (transferRound E opts cylhead true uncached
            deviceReadingPolicy skip_stable_sectors track_retries) rounds
            st).trackFixesNumber = (repairAmounts p).sum) := by
  induction rounds with
  | nil =>
    intro st hzero hsum
    exact Or.inl ⟨hzero, hsum⟩
  | cons r rs ih =>
    intro st hzero hsum
    unfold transferRounds
    simp only []
    rcases transferRound_zero_stop opts cylhead uncached deviceReadingPolicy
        skip_stable_sectors track_retries r st hzero hsum (Or.inl hauto) with
      ⟨h1, h2⟩ | ⟨hz, hb⟩
    · split
      · exact Or.inl ⟨h1, h2⟩
      · exact ih _ h1 h2
    · rw [if_pos (hb hauto)]
      exact Or.inr hz

/-- C16: in Repair mode of a non-constant source with the retry setting equal to the auto
sentinel (`opt_track_retries == DISK_RETRY_AUTO`, whatever the value of the sentinel), once a
`RepairTrack` call of a round returns 0 no further round runs: after that call the trace
holds only the write of the destination data, so no further source read and no further
`RepairTrack` call, and the returned fix count is the sum of the results of the calls
before it. -/
theorem C16_auto_retry_stop (opts : Options) (src_disk : E.SrcDisk) (cylhead : CylHead)
    (dst_disk : E.DstDisk) (context : E.ScanContext) (uncached : Bool)
    (deviceReadingPolicy : E.DeviceReadingPolicy)
    (hconstant : E.src_is_constant_disk src_disk = false)
    (hauto : opts.opt_track_retries = E.DISK_RETRY_AUTO)
    (pre post : List (Event E))
    (hsplit : (TransferTrack E opts src_disk cylhead dst_disk context TransferMode.Repair
      uncached deviceReadingPolicy).trace = pre ++ Event.repairTrack 0 :: post) :
    (∃ dst_data, post = [Event.dstWrite dst_data]) ∧
    srcReads post = [] ∧ repairAmounts post = [] ∧
    (0 : Int) ∉ repairAmounts pre ∧
    (TransferTrack E opts src_disk cylhead dst_disk context TransferMode.Repair
      uncached deviceReadingPolicy).trackFixesNumber = (repairAmounts pre).sum := by
  by_cases hused : opts.opt_minimal ≠ 0 ∧ E.IsTrackUsed cylhead.cyl cylhead.head = false
  · have htrace : (TransferTrack E opts src_disk cylhead dst_disk context
        TransferMode.Repair uncached deviceReadingPolicy).trace = [] := by
      unfold TransferTrack
      rw [if_pos hused]
    rw [htrace] at hsplit
    simp at hsplit
  · have hmode : decide (TransferMode.Repair = TransferMode.Repair) = true := rfl
    rw [TransferTrack_run opts src_disk cylhead dst_disk context TransferMode.Repair uncached
      deviceReadingPolicy hused, hmode] at hsplit ⊢
    simp only [] at hsplit ⊢
    obtain ⟨_, hi2, _⟩ := initialState_trace src_disk cylhead dst_disk context true
      deviceReadingPolicy
    have hinit0 : (0 : Int) ∉ repairAmounts (initialState E src_disk cylhead dst_disk context
        true deviceReadingPolicy).trace := by
      rw [hi2]; simp
    have hinitsum : (initialState E src_disk cylhead dst_disk context true
        deviceReadingPolicy).trackFixesNumber = (repairAmounts (initialState E src_disk
        cylhead dst_disk context true deviceReadingPolicy).trace).sum := by
      rw [hi2]; rfl
    have hfinal : ((0 : Int) ∉ repairAmounts (transferLoop E opts src_disk cylhead dst_disk
          context true uncached deviceReadingPolicy).trace ∧
        (transferLoop E opts src_disk cylhead dst_disk context true uncached
          deviceReadingPolicy).trackFixesNumber =
        (repairAmounts (transferLoop E opts src_disk cylhead dst_disk context true uncached
          deviceReadingPolicy).trace).sum) ∨
      (∃ p, (transferLoop E opts src_disk cylhead dst_disk context true uncached
            deviceReadingPolicy).trace = p ++ [Event.repairTrack 0] ∧
          (0 : Int) ∉ repairAmounts p ∧
          (transferLoop E opts src_disk cylhead dst_disk context true uncached
            deviceReadingPolicy).trackFixesNumber = (repairAmounts p).sum) := by
      by_cases hsign : 0 ≤ E.DISK_RETRY_AUTO
      · have hbudget : trackRetries true (E.src_is_constant_disk src_disk)
            opts.opt_track_retries = E.DISK_RETRY_AUTO := by
          simp [trackRetries, hconstant, hauto, hsign]
        simp only [transferLoop]
        exact transferRounds_zero_stop opts cylhead uncached deviceReadingPolicy _ _ hbudget
          _ _ hinit0 hinitsum
      · have hbudget : trackRetries true (E.src_is_constant_disk src_disk)
            opts.opt_track_retries = 0 := by
          simp [trackRetries, hconstant, hauto, hsign]
        rw [transferLoop_single opts src_disk cylhead dst_disk context true uncached
          deviceReadingPolicy hbudget]
        rcases transferRound_zero_stop opts cylhead uncached deviceReadingPolicy
            (skipStableSectors E opts src_disk) 0 0 _ hinit0 hinitsum (Or.inr rfl) with
          h | ⟨h, _⟩
        · exact Or.inl h
        · exact Or.inr h
    rcases hfinal with ⟨hz, _⟩ | ⟨p, hp, hpz, hpsum⟩
    · exfalso
      have hmem := zero_mem_repairAmounts pre post
      rw [← hsplit, repairAmounts_append] at hmem
      simp only [repairAmounts, List.filterMap_cons, Event.asRepairTrack, List.filterMap_nil,
        List.append_nil] at hmem
      exact hz hmem
    · rw [hp, List.append_assoc] at hsplit
      have hw : (0 : Int) ∉ repairAmounts [Event.dstWrite (E := E)
          (transferLoop E opts src_disk cylhead dst_disk context true uncached
            deviceReadingPolicy).dst_data] := by
        simp [repairAmounts, Event.asRepairTrack]
      obtain ⟨hpre, hpost⟩ := split_at_zero_repair p _ pre post hpz hw hsplit
      rw [hpre, hpost]
      refine ⟨⟨_, rfl⟩, ?_, ?_, hpz, hpsum⟩
      · simp [srcReads, Event.asSrcRead]
      · simp [repairAmounts, Event.asRepairTrack]

/-- Witness of C16: with `DISK_RETRY_AUTO = 3` and 3 retries, round 0 fixes sector 2, round 1
fixes nothing, and the rounds 2 and 3 do not run: the source is read twice and the fix count
is 1. -/
theorem C16_auto_retry_stop_witness :
    (srcReads (TransferTrack (exampleCollaborators 3) (exampleOptions 3 false)
      { constant := false, cyls := 40, pending := [exampleSrcData], deviceReads := 0 }
      { cyl := 3, head := 0 } [exampleDstData] (0 : Nat) TransferMode.Repair false
      { wanted := [1, 2], lookForPossibleSectors := false, skippable := [] }).trace).length
      = 2 ∧
    repairAmounts (TransferTrack (exampleCollaborators 3) (exampleOptions 3 false)
      { constant := false, cyls := 40, pending := [exampleSrcData], deviceReads := 0 }
      { cyl := 3, head := 0 } [exampleDstData] (0 : Nat) TransferMode.Repair false
      { wanted := [1, 2], lookForPossibleSectors := false, skippable := [] }).trace
      = [1, 0] ∧
    (TransferTrack (exampleCollaborators 3) (exampleOptions 3 false)
      { constant := false, cyls := 40, pending := [exampleSrcData], deviceReads := 0 }
      { cyl := 3, head := 0 } [exampleDstData] (0 : Nat) TransferMode.Repair false
      { wanted := [1, 2], lookForPossibleSectors := false, skippable := [] }).trackFixesNumber
      = (repairAmounts
          ([Event.dstRead { cyl := 3, head := 0 },
            Event.message (Diagnostic.reading false { cyl := 3, head := 0 }),
            Event.srcRead
              { track_round := 0, src_cyls := 40, cylhead := { cyl := 3, head := 0 }
                uncached := false, with_head_seek_to := -1
                deviceReadingPolicy :=
                  { wanted := [1, 2], lookForPossibleSectors := false, skippable := [] } },
            Event.repairTrack 1,
            Event.message (Diagnostic.reading true { cyl := 3, head := 0 }),
            Event.srcRead
              { track_round := 1, src_cyls := 40, cylhead := { cyl := 3, head := 0 }
                uncached := true, with_head_seek_to := 4
                deviceReadingPolicy :=
                  { wanted := [1, 2], lookForPossibleSectors := false, skippable := [] } }] :
            List (Event (exampleCollaborators 3)))).sum :=
  ⟨by decide, by decide,
   (C16_auto_retry_stop (E := exampleCollaborators 3) (exampleOptions 3 false)
      { constant := false, cyls := 40, pending := [exampleSrcData], deviceReads := 0 }
      { cyl := 3, head := 0 } [exampleDstData] (0 : Nat) false
      { wanted := [1, 2], lookForPossibleSectors := false, skippable := [] } rfl rfl
      [Event.dstRead { cyl := 3, head := 0 },
        Event.message (Diagnostic.reading false { cyl := 3, head := 0 }),
        Event.srcRead
          { track_round := 0, src_cyls := 40, cylhead := { cyl := 3, head := 0 }
            uncached := false, with_head_seek_to := -1
            deviceReadingPolicy :=
              { wanted := [1, 2], lookForPossibleSectors := false, skippable := [] } },
        Event.repairTrack 1,
        Event.message (Diagnostic.reading true { cyl := 3, head := 0 }),
        Event.srcRead
          { track_round := 1, src_cyls := 40, cylhead := { cyl := 3, head := 0 }
            uncached := true, with_head_seek_to := 4
            deviceReadingPolicy :=
              { wanted := [1, 2], lookForPossibleSectors := false, skippable := [] } }]
      [Event.dstWrite
        { cylhead := { cyl := 3, head := 0 }, track := [(1, true), (2, true)]
          bitstream := none }]
      rfl).2.2.2.2⟩

end TransferAutoStop

/-! ## The cursor comparison as coded -/

namespace ByteBitPosition

/-- C30: the operators `==` and `<` of `ByteBitPosition` look at the byte position only: two
cursors with the same byte position compare equal and neither is `<` the other, whatever
their bit positions; `a == b` holds exactly when the byte positions are equal and `a < b`
exactly when `a.BytePosition() < b.BytePosition()`. -/
theorem C30_comparison_by_byte_position (a b : ByteBitPosition) :
    (a.BytePosition = b.BytePosition →
      eq a b = true ∧ lt a b = false ∧ lt b a = false) ∧
    (eq a b = true ↔ a.BytePosition = b.BytePosition) ∧
    (lt a b = true ↔ a.BytePosition < b.BytePosition) := by
  have hlt := operator_lt_iff a b
  have hgt := operator_lt_iff b a
  have heq := operator_eq_iff a b
  refine ⟨fun h => ⟨heq.2 h, ?_, ?_⟩, heq, hlt⟩
  · cases hx : lt a b
    · rfl
    · have h1 := hlt.1 hx
      have h2 : a.m_byte_position = b.m_byte_position := h
      omega
  · cases hx : lt b a
    · rfl
    · have h1 := hgt.1 hx
      have h2 : a.m_byte_position = b.m_byte_position := h
      omega

/-- Witness of C30: the cursors `(byte 4, bit 1)` and `(byte 4, bit 6)` compare equal and
neither is less than the other. -/
theorem C30_comparison_by_byte_position_witness :
    eq (ByteBitPosition.mk 4 1) (ByteBitPosition.mk 4 6) = true ∧
    lt (ByteBitPosition.mk 4 1) (ByteBitPosition.mk 4 6) = false ∧
    lt (ByteBitPosition.mk 4 6) (ByteBitPosition.mk 4 1) = false :=
  (C30_comparison_by_byte_position (ByteBitPosition.mk 4 1) (ByteBitPosition.mk 4 6)).1 rfl

end ByteBitPosition

/-! ## `FdrawcmdSys`: errors of `SetEncRate` and `Seek` -/

namespace FdrawcmdSys

/-- C24: `SetEncRate(encoding, datarate)` raises an error if and only if the encoding is
neither MFM nor FM or the data rate is not one of 250K, 300K, 500K, 1M; when it raises,
`m_encoding_flags` is unchanged; when it does not raise, `m_encoding_flags` is
`FD_OPTION_MFM` for MFM and `FD_OPTION_FM` for FM. -/
theorem C24_SetEncRate_errors (c : FdConstants) (device : IoctlCall → Bool) (s : FdrawcmdSys)
    (encoding : Encoding) (datarate : DataRate) :
    ((∃ msg, (SetEncRate c device s encoding datarate).1 = Except.error msg) ↔
      (encoding ≠ Encoding.MFM ∧ encoding ≠ Encoding.FM) ∨
      (datarate ≠ DataRate._250K ∧ datarate ≠ DataRate._300K ∧
        datarate ≠ DataRate._500K ∧ datarate ≠ DataRate._1M)) ∧
    ((∃ msg, (SetEncRate c device s encoding datarate).1 = Except.error msg) →
      (SetEncRate c device s encoding datarate).2.m_encoding_flags = s.m_encoding_flags) ∧
    ((∃ result, (SetEncRate c device s encoding datarate).1 = Except.ok result) →
      (encoding = Encoding.MFM →
        (SetEncRate c device s encoding datarate).2.m_encoding_flags = c.FD_OPTION_MFM) ∧
      (encoding = Encoding.FM →
        (SetEncRate c device s encoding datarate).2.m_encoding_flags = c.FD_OPTION_FM)) := by
  by_cases henc : encoding ≠ Encoding.MFM ∧ encoding ≠ Encoding.FM
  · have hrun : SetEncRate c device s encoding datarate =
        (Except.error "unsupported encoding for fdrawcmd.sys", s) := by
      unfold SetEncRate
      rw [if_pos henc]
    rw [hrun]
    refine ⟨⟨fun _ => Or.inl henc, fun _ => ⟨_, rfl⟩⟩, fun _ => rfl, ?_⟩
    rintro ⟨result, h⟩
    cases h
  · have hsupported : encoding = Encoding.MFM ∨ encoding = Encoding.FM := by
      by_cases h1 : encoding = Encoding.MFM
      · exact Or.inl h1
      · by_cases h2 : encoding = Encoding.FM
        · exact Or.inr h2
        · exact absurd ⟨h1, h2⟩ henc
    cases datarate <;> rcases hsupported with h | h <;> subst h <;>
      simp [SetEncRate, Ioctl]

/-- Witness of C24: MFM at 500K does not raise and stores the MFM option; FM at an unknown
data rate raises and keeps the stored flags. -/
theorem C24_SetEncRate_errors_witness :
    (SetEncRate
      { FD_OPTION_MFM := 0x40, FD_OPTION_FM := 0, FD_RATE_250K := 2, FD_RATE_300K := 1
        FD_RATE_500K := 0, FD_RATE_1M := 3 }
      (fun _ => true) { m_encoding_flags := 7, issued := [] } Encoding.MFM
      DataRate._500K).2.m_encoding_flags = 0x40 ∧
    (SetEncRate
      { FD_OPTION_MFM := 0x40, FD_OPTION_FM := 0, FD_RATE_250K := 2, FD_RATE_300K := 1
        FD_RATE_500K := 0, FD_RATE_1M := 3 }
      (fun _ => true) { m_encoding_flags := 7, issued := [] } Encoding.FM
      DataRate.Unknown).2.m_encoding_flags = 7 :=
  ⟨((C24_SetEncRate_errors
      { FD_OPTION_MFM := 0x40, FD_OPTION_FM := 0, FD_RATE_250K := 2, FD_RATE_300K := 1
        FD_RATE_500K := 0, FD_RATE_1M := 3 }
      (fun _ => true) { m_encoding_flags := 7, issued := [] } Encoding.MFM
      DataRate._500K).2.2 ⟨true, rfl⟩).1 rfl,
   (C24_SetEncRate_errors
      { FD_OPTION_MFM := 0x40, FD_OPTION_FM := 0, FD_RATE_250K := 2, FD_RATE_300K := 1
        FD_RATE_500K := 0, FD_RATE_1M := 3 }
      (fun _ => true) { m_encoding_flags := 7, issued := [] } Encoding.FM
      DataRate.Unknown).2.1 ⟨"unsupported datarate", rfl⟩⟩

end FdrawcmdSys

/-! ## Track transfer: diagnostics and the fix count -/

section TransferDiagnostics

variable {E : Collaborators}

/-- The second half of a round under two settings of `opt_verbose`, from states that agree
up to diagnostics: the states afterwards agree up to diagnostics, and the rounds break
alike. -/
theorem readAndTransfer_verbose (opts : Options) (verbose : Int) (cylhead : CylHead)
    (repairMode uncached : Bool) (track_retries : Int) (track_round : Nat)
    (dst_track : E.Track) (s1 s2 : RoundState E) (h : s1.core = s2.core) :
    (readAndTransfer E opts cylhead repairMode uncached track_retries track_round
      dst_track s1).1.core =
    (readAndTransfer E { opts with opt_verbose := verbose } cylhead repairMode uncached
      track_retries track_round dst_track s2).1.core ∧
    (readAndTransfer E opts cylhead repairMode uncached track_retries track_round
      dst_track s1).2 =
    (readAndTransfer E { opts with opt_verbose := verbose } cylhead repairMode uncached
      track_retries track_round dst_track s2).2 := by
  simp only [RoundState.core, Prod.mk.injEq, srcReads, repairAmounts, dstWrites,
    dstReads] at h
  obtain ⟨h1, h2, h3, h4, h5, h6, h7, h8⟩ := h
  simp only [readAndTransfer, roundRead, roundSource, roundRepair, roundReadRecord,
    RoundState.core, RoundState.log, srcReads, repairAmounts, dstWrites, dstReads, h1, h2,
    h3, h4]
  split_ifs <;>
    simp_all [List.filterMap_append, Event.asSrcRead, Event.asRepairTrack,
      Event.asDstWrite, Event.asDstRead]

/-- One round under two settings of `opt_verbose`, from states that agree up to
diagnostics: the states afterwards agree up to diagnostics, and the rounds break alike. -/
theorem transferRound_verbose (opts : Options) (verbose : Int) (cylhead : CylHead)
    (repairMode uncached : Bool) (deviceReadingPolicy : E.DeviceReadingPolicy)
    (skip_stable_sectors : Bool) (track_retries : Int) (track_round : Nat)
    (s1 s2 : RoundState E) (h : s1.core = s2.core) :
    (transferRound E opts cylhead repairMode uncached deviceReadingPolicy
      skip_stable_sectors track_retries track_round s1).1.core =
    (transferRound E { opts with opt_verbose := verbose } cylhead repairMode uncached
      deviceReadingPolicy skip_stable_sectors track_retries track_round s2).1.core ∧
    (transferRound E opts cylhead repairMode uncached deviceReadingPolicy
      skip_stable_sectors track_retries track_round s1).2 =
    (transferRound E { opts with opt_verbose := verbose } cylhead repairMode uncached
      deviceReadingPolicy skip_stable_sectors track_retries track_round s2).2 := by
  have hparts := h
  simp only [RoundState.core, Prod.mk.injEq, srcReads, repairAmounts, dstWrites,
    dstReads] at hparts
  obtain ⟨h1, h2, h3, h4, h5, h6, h7, h8⟩ := hparts
  cases repairMode with
  | false =>
    simp only [transferRound, Bool.false_eq_true, if_false]
    apply readAndTransfer_verbose
    simp [RoundState.core, RoundState.log, srcReads, repairAmounts, dstWrites, dstReads,
      List.filterMap_append, Event.asSrcRead, Event.asRepairTrack, Event.asDstWrite,
      Event.asDstRead, h1, h2, h3, h4, h5, h6, h7, h8]
  | true =>
    cases skip_stable_sectors with
    | false =>
      simp only [transferRound, RoundState.log, Bool.false_eq_true, if_false, if_true, h2]
      apply readAndTransfer_verbose
      simp [RoundState.core, srcReads, repairAmounts, dstWrites, dstReads,
        List.filterMap_append, Event.asSrcRead, Event.asRepairTrack, Event.asDstWrite,
        Event.asDstRead, h1, h2, h3, h4, h5, h6, h7, h8]
    | true =>
      simp only [transferRound, RoundState.log, if_true, h2, h3]
      split
      · simp [RoundState.core, srcReads, repairAmounts, dstWrites, dstReads,
          List.filterMap_append, Event.asSrcRead, Event.asRepairTrack, Event.asDstWrite,
          Event.asDstRead, h1, h2, h3, h4, h5, h6, h7, h8]
      · apply readAndTransfer_verbose
        split_ifs <;>
          simp [RoundState.core, srcReads, repairAmounts, dstWrites, dstReads,
            List.filterMap_append, Event.asSrcRead, Event.asRepairTrack, Event.asDstWrite,
            Event.asDstRead, h1, h2, h3, h4, h5, h6, h7, h8]

/-- The loop under two settings of `opt_verbose`, from states that agree up to diagnostics:
the states afterwards agree up to diagnostics. -/
theorem transferRounds_verbose (opts : Options) (verbose : Int) (cylhead : CylHead)
    (repairMode uncached : Bool) (deviceReadingPolicy : E.DeviceReadingPolicy)
    (skip_stable_sectors : Bool) (track_retries : Int) (rounds : List Nat) :
    ∀ s1 s2 : RoundState E, s1.core = s2.core →
      (transferRounds (transferRound E opts cylhead repairMode uncached deviceReadingPolicy
        skip_stable_sectors track_retries) rounds s1).core =
      (transferRounds (transferRound E { opts with opt_verbose := verbose } cylhead
        repairMode uncached deviceReadingPolicy skip_stable_sectors track_retries) rounds
        s2).core := by
  induction rounds with
  | nil => intro s1 s2 h; exact h
  | cons r rs ih =>
    intro s1 s2 h
    obtain ⟨hc, hb⟩ := transferRound_verbose opts verbose cylhead repairMode uncached
      deviceReadingPolicy skip_stable_sectors track_retries r s1 s2 h
    unfold transferRounds
    simp only []
    rw [hb]
    split
    · exact hc
    · exact ih _ _ hc

/-- C26: two runs of `TransferTrack` that differ only in `opt_verbose`, with the same
collaborators, return the same fix count, issue the same sequence of source reads with the
same arguments, get the same `RepairTrack` results, write the same data to the destination
and leave the same source and destination disks; `ScanTrack` and `Message` only add to the
scan context and to the diagnostics. -/
theorem C26_verbose_is_diagnostic_only (opts : Options) (verbose : Int)
    (src_disk : E.SrcDisk) (cylhead : CylHead) (dst_disk : E.DstDisk)
    (context : E.ScanContext) (transferMode : TransferMode) (uncached : Bool)
    (deviceReadingPolicy : E.DeviceReadingPolicy) :
    (TransferTrack E opts src_disk cylhead dst_disk context transferMode uncached
      deviceReadingPolicy).trackFixesNumber =
    (TransferTrack E { opts with opt_verbose := verbose } src_disk cylhead dst_disk context
      transferMode uncached deviceReadingPolicy).trackFixesNumber ∧
    srcReads (TransferTrack E opts src_disk cylhead dst_disk context transferMode uncached
      deviceReadingPolicy).trace =
    srcReads (TransferTrack E { opts with opt_verbose := verbose } src_disk cylhead dst_disk
      context transferMode uncached deviceReadingPolicy).trace ∧
    repairAmounts (TransferTrack E opts src_disk cylhead dst_disk context transferMode
      uncached deviceReadingPolicy).trace =
    repairAmounts (TransferTrack E { opts with opt_verbose := verbose } src_disk cylhead
      dst_disk context transferMode uncached deviceReadingPolicy).trace ∧
    dstWrites (TransferTrack E opts src_disk cylhead dst_disk context transferMode uncached
      deviceReadingPolicy).trace =
    dstWrites (TransferTrack E { opts with opt_verbose := verbose } src_disk cylhead dst_disk
      context transferMode uncached deviceReadingPolicy).trace ∧
    (TransferTrack E opts src_disk cylhead dst_disk context transferMode uncached
      deviceReadingPolicy).dst_disk =
    (TransferTrack E { opts with opt_verbose := verbose } src_disk cylhead dst_disk context
      transferMode uncached deviceReadingPolicy).dst_disk ∧
    (TransferTrack E opts src_disk cylhead dst_disk context transferMode uncached
      deviceReadingPolicy).src_disk =
    (TransferTrack E { opts with opt_verbose := verbose } src_disk cylhead dst_disk context
      transferMode uncached deviceReadingPolicy).src_disk := by
  by_cases hused : opts.opt_minimal ≠ 0 ∧ E.IsTrackUsed cylhead.cyl cylhead.head = false
  · have hused2 : ({ opts with opt_verbose := verbose } : Options).opt_minimal ≠ 0 ∧
        E.IsTrackUsed cylhead.cyl cylhead.head = false := hused
    unfold TransferTrack
    rw [if_pos hused, if_pos hused2]
    exact ⟨rfl, rfl, rfl, rfl, rfl, rfl⟩
  · have hused2 : ¬ (({ opts with opt_verbose := verbose } : Options).opt_minimal ≠ 0 ∧
        E.IsTrackUsed cylhead.cyl cylhead.head = false) := hused
    rw [TransferTrack_run opts src_disk cylhead dst_disk context transferMode uncached
      deviceReadingPolicy hused,
      TransferTrack_run { opts with opt_verbose := verbose } src_disk cylhead dst_disk context
      transferMode uncached deviceReadingPolicy hused2]
    have hloop : (transferLoop E opts src_disk cylhead dst_disk context
        (decide (transferMode = TransferMode.Repair)) uncached deviceReadingPolicy).core =
        (transferLoop E { opts with opt_verbose := verbose } src_disk cylhead dst_disk
          context (decide (transferMode = TransferMode.Repair)) uncached
          deviceReadingPolicy).core := by
      simp only [transferLoop, skipStableSectors]
      exact transferRounds_verbose opts verbose cylhead _ uncached deviceReadingPolicy _ _ _
        _ _ rfl
    simp only [RoundState.core, Prod.mk.injEq] at hloop
    obtain ⟨h1, h2, _, h4, h5, h6, h7, _⟩ := hloop
    simp only []
    rw [srcReads_append, srcReads_append, repairAmounts_append, repairAmounts_append,
      dstWrites_append, dstWrites_append, h1, h2, h4, h5, h6, h7]
    exact ⟨rfl, rfl, rfl, rfl, rfl, rfl⟩

/-- Every `RepairTrack` result in the trace of the loop is a value returned by the
collaborator `RepairTrack`. -/
theorem transferRound_repairAmounts_origin (opts : Options) (cylhead : CylHead)
    (repairMode uncached : Bool) (deviceReadingPolicy : E.DeviceReadingPolicy)
    (skip_stable_sectors : Bool) (track_retries : Int) (track_round : Nat)
    (st : RoundState E)
    (hst : ∀ a ∈ repairAmounts st.trace,
      ∃ ch dst_track src_track skippable, a = (E.RepairTrack ch dst_track src_track
        skippable).1) :
    ∀ a ∈ repairAmounts (transferRound E opts cylhead repairMode uncached
        deviceReadingPolicy skip_stable_sectors track_retries track_round st).1.trace,
      ∃ ch dst_track src_track skippable, a = (E.RepairTrack ch dst_track src_track
        skippable).1 := by
  rcases transferRound_cases opts cylhead repairMode uncached deviceReadingPolicy
      skip_stable_sectors track_retries track_round st with
    ⟨_, _, _, heq⟩ | ⟨st0, dst_track, evs, heq, _, _, _, _, htr, _, hra, _, _, _, _⟩
  · rw [heq]
    intro a ha
    apply hst
    simpa [repairAmounts, List.filterMap_append, Event.asRepairTrack] using ha
  · rw [heq]
    have hpre : repairAmounts st0.trace = repairAmounts st.trace := by
      rw [htr, repairAmounts_append, hra, List.append_nil]
    cases repairMode with
    | false =>
      rw [(readAndTransfer_copy opts cylhead uncached track_retries track_round dst_track
        st0).1, hpre]
      exact hst
    | true =>
      obtain ⟨mid, tail, h1, hmid, htail, _⟩ := readAndTransfer_repair opts cylhead
        uncached track_retries track_round dst_track st0
      have hall : repairAmounts (readAndTransfer E opts cylhead true uncached track_retries
          track_round dst_track st0).1.trace = repairAmounts st.trace ++
          [(roundRepair E opts cylhead uncached track_round dst_track st0).1] := by
        rw [h1, repairAmounts_append, repairAmounts_append, hpre, hmid, List.append_nil]
        show _ ++ ((roundRepair E opts cylhead uncached track_round dst_track st0).1 ::
          repairAmounts tail) = _
        rw [htail]
      rw [hall]
      intro a ha
      rw [List.mem_append, List.mem_singleton] at ha
      rcases ha with ha | ha
      · exact hst a ha
      · exact ⟨_, _, _, _, ha⟩

/-- C29: the value `TransferTrack` returns is the sum of the values returned by
`RepairTrack` over all rounds that ran (a round of result 0 that triggers the auto stop
contributes 0), in Repair mode as in every mode; it is not negative when no `RepairTrack`
result of the run is negative, in particular when `RepairTrack` never returns a negative
value. -/
theorem C29_fix_count_accumulation (opts : Options) (src_disk : E.SrcDisk)
    (cylhead : CylHead) (dst_disk : E.DstDisk) (context : E.ScanContext)
    (transferMode : TransferMode) (uncached : Bool)
    (deviceReadingPolicy : E.DeviceReadingPolicy) :
    (TransferTrack E opts src_disk cylhead dst_disk context transferMode uncached
      deviceReadingPolicy).trackFixesNumber =
      (repairAmounts (TransferTrack E opts src_disk cylhead dst_disk context transferMode
        uncached deviceReadingPolicy).trace).sum ∧
    ((∀ a ∈ repairAmounts (TransferTrack E opts src_disk cylhead dst_disk context
        transferMode uncached deviceReadingPolicy).trace, 0 ≤ a) →
      0 ≤ (TransferTrack E opts src_disk cylhead dst_disk context transferMode uncached
        deviceReadingPolicy).trackFixesNumber) ∧
    ((∀ ch dst_track src_track skippable,
        0 ≤ (E.RepairTrack ch dst_track src_track skippable).1) →
      0 ≤ (TransferTrack E opts src_disk cylhead dst_disk context transferMode uncached
        deviceReadingPolicy).trackFixesNumber) := by
  have hsum : (TransferTrack E opts src_disk cylhead dst_disk context transferMode uncached
      deviceReadingPolicy).trackFixesNumber =
      (repairAmounts (TransferTrack E opts src_disk cylhead dst_disk context transferMode
        uncached deviceReadingPolicy).trace).sum := by
    by_cases hused : opts.opt_minimal ≠ 0 ∧ E.IsTrackUsed cylhead.cyl cylhead.head = false
    · unfold TransferTrack
      rw [if_pos hused]
      rfl
    · rw [TransferTrack_run opts src_disk cylhead dst_disk context transferMode uncached
        deviceReadingPolicy hused]
      simp only []
      have hw : ∀ d : E.TrackData, repairAmounts [Event.dstWrite (E := E) d] = [] := by
        intro d
        simp [repairAmounts, Event.asRepairTrack]
      rw [repairAmounts_append, hw, List.append_nil]
      have hloop := transferRounds_fixes opts cylhead
        (decide (transferMode = TransferMode.Repair)) uncached deviceReadingPolicy
        (skipStableSectors E opts src_disk)
        (trackRetries (decide (transferMode = TransferMode.Repair))
          (E.src_is_constant_disk src_disk) opts.opt_track_retries)
        (roundNumbers (trackRetries (decide (transferMode = TransferMode.Repair))
          (E.src_is_constant_disk src_disk) opts.opt_track_retries))
        (initialState E src_disk cylhead dst_disk context
          (decide (transferMode = TransferMode.Repair)) deviceReadingPolicy)
      rw [(initialState_trace src_disk cylhead dst_disk context
        (decide (transferMode = TransferMode.Repair)) deviceReadingPolicy).2.1] at hloop
      have hzero : (initialState E src_disk cylhead dst_disk context
          (decide (transferMode = TransferMode.Repair)) deviceReadingPolicy).trackFixesNumber
          = 0 := rfl
      rw [hzero] at hloop
      simp only [transferLoop]
      simp only [List.sum_nil] at hloop
      omega
  have hnonneg : (∀ a ∈ repairAmounts (TransferTrack E opts src_disk cylhead dst_disk context
        transferMode uncached deviceReadingPolicy).trace, 0 ≤ a) →
      0 ≤ (TransferTrack E opts src_disk cylhead dst_disk context transferMode uncached
        deviceReadingPolicy).trackFixesNumber := by
    intro h
    rw [hsum]
    exact List.sum_nonneg h
  refine ⟨hsum, hnonneg, ?_⟩
  intro hrepair
  apply hnonneg
  have horigin : ∀ a ∈ repairAmounts (TransferTrack E opts src_disk cylhead dst_disk context
      transferMode uncached deviceReadingPolicy).trace,
      ∃ ch dst_track src_track skippable, a = (E.RepairTrack ch dst_track src_track
        skippable).1 := by
    by_cases hused : opts.opt_minimal ≠ 0 ∧ E.IsTrackUsed cylhead.cyl cylhead.head = false
    · unfold TransferTrack
      rw [if_pos hused]
      intro a ha
      cases ha
    · rw [TransferTrack_run opts src_disk cylhead dst_disk context transferMode uncached
        deviceReadingPolicy hused]
      simp only []
      have hw : ∀ d : E.TrackData, repairAmounts [Event.dstWrite (E := E) d] = [] := by
        intro d
        simp [repairAmounts, Event.asRepairTrack]
      rw [repairAmounts_append, hw, List.append_nil]
      simp only [transferLoop]
      refine transferRounds_induction _
        (fun s => ∀ a ∈ repairAmounts s.trace,
          ∃ ch dst_track src_track skippable, a = (E.RepairTrack ch dst_track src_track
            skippable).1) ?_ _ _ ?_
      · intro r s hs
        exact transferRound_repairAmounts_origin opts cylhead _ uncached deviceReadingPolicy
          _ _ r s hs
      · intro a ha
        rw [(initialState_trace src_disk cylhead dst_disk context
          (decide (transferMode = TransferMode.Repair)) deviceReadingPolicy).2.1] at ha
        cases ha
  intro a ha
  obtain ⟨ch, dt, st, sk, hval⟩ := horigin a ha
  rw [hval]
  exact hrepair ch dt st sk

/-- Witness of C29: a repair with 3 retries whose `RepairTrack` calls return 1, 0, 0, 0
returns 1. -/
theorem C29_fix_count_accumulation_witness :
    repairAmounts (TransferTrack (exampleCollaborators (-1)) (exampleOptions 3 false)
      { constant := false, cyls := 40, pending := [exampleSrcData], deviceReads := 0 }
      { cyl := 3, head := 0 } [exampleDstData] (0 : Nat) TransferMode.Repair false
      { wanted := [1, 2], lookForPossibleSectors := false, skippable := [] }).trace =
      [1, 0, 0, 0] ∧
    (TransferTrack (exampleCollaborators (-1)) (exampleOptions 3 false)
      { constant := false, cyls := 40, pending := [exampleSrcData], deviceReads := 0 }
      { cyl := 3, head := 0 } [exampleDstData] (0 : Nat) TransferMode.Repair false
      { wanted := [1, 2], lookForPossibleSectors := false, skippable := [] }).trackFixesNumber
      = 1 ∧
    0 ≤ (TransferTrack (exampleCollaborators (-1)) (exampleOptions 3 false)
      { constant := false, cyls := 40, pending := [exampleSrcData], deviceReads := 0 }
      { cyl := 3, head := 0 } [exampleDstData] (0 : Nat) TransferMode.Repair false
      { wanted := [1, 2], lookForPossibleSectors := false, skippable := [] }).trackFixesNumber :=
  ⟨by decide, by decide,
   (C29_fix_count_accumulation (E := exampleCollaborators (-1)) (exampleOptions 3 false)
      { constant := false, cyls := 40, pending := [exampleSrcData], deviceReads := 0 }
      { cyl := 3, head := 0 } [exampleDstData] (0 : Nat) TransferMode.Repair false
      { wanted := [1, 2], lookForPossibleSectors := false, skippable := [] }).2.1
      (by decide)⟩

end TransferDiagnostics


/-! ## The base `Disk`: reads, writes and resize -/

namespace TrackMap

variable {TD : Type}

theorem find_insertOrdered_self (m : TrackMap TD) (key : CylHead) (v : TD)
    (h : m.find key = none) : (m.insertOrdered key v).find key = some v := by
  induction m with
  | nil => simp [insertOrdered, find]
  | cons p rest ih =>
    obtain ⟨k, x⟩ := p
    have hk : key ≠ k := by
      intro hk
      simp [find, hk] at h
    have hrest : find rest key = none := by
      simpa [find, hk] using h
    unfold insertOrdered
    split
    · simp [find]
    · simp [find, hk, ih hrest]

theorem find_insertOrdered_ne (m : TrackMap TD) (key other : CylHead) (v : TD)
    (h : other ≠ key) : (m.insertOrdered key v).find other = m.find other := by
  induction m with
  | nil => simp [insertOrdered, find, h]
  | cons p rest ih =>
    obtain ⟨k, x⟩ := p
    unfold insertOrdered
    split
    · simp [find, h]
    · simp [find, ih]

theorem find_cons (k : CylHead) (x : TD) (rest : TrackMap TD) (key : CylHead) :
    find ((k, x) :: rest) key = if key = k then some x else find rest key := rfl

theorem replace_cons (k : CylHead) (x : TD) (rest : TrackMap TD) (key : CylHead) (v : TD) :
    replace ((k, x) :: rest) key v =
      (if k = key then (k, v) else (k, x)) :: replace rest key v := rfl

theorem find_replace (m : TrackMap TD) (key other : CylHead) (v : TD) :
    (m.replace key v).find other =
      if other = key then (m.find key).map (fun _ => v) else m.find other := by
  induction m with
  | nil => simp [replace, find]
  | cons p rest ih =>
    obtain ⟨k, x⟩ := p
    rw [replace_cons]
    by_cases hk : k = key
    · rw [if_pos hk, find_cons, ih]
      subst hk
      by_cases ho : other = k
      · rw [if_pos ho, if_pos ho, find_cons, if_pos rfl]
        rfl
      · rw [if_neg ho, if_neg ho, if_neg ho, find_cons, if_neg ho]
    · rw [if_neg hk, find_cons, ih]
      by_cases ho : other = key
      · have hok : other ≠ k := by
          rw [ho]; exact fun e => hk e.symm
        have hkk : key ≠ k := fun e => hk e.symm
        rw [if_neg hok, if_pos ho, if_pos ho, find_cons, if_neg hkk]
      · rw [if_neg ho, if_neg ho, find_cons]

theorem replace_replace (m : TrackMap TD) (key : CylHead) (v v2 : TD) :
    (m.replace key v).replace key v2 = m.replace key v2 := by
  unfold replace
  rw [List.map_map]
  apply List.map_congr_left
  intro p _
  by_cases hp : p.1 = key <;> simp [hp]

theorem replace_of_not_stored (m : TrackMap TD) (key : CylHead) (v : TD)
    (h : m.find key = none) : m.replace key v = m := by
  induction m with
  | nil => rfl
  | cons p rest ih =>
    obtain ⟨k, x⟩ := p
    rw [find_cons] at h
    by_cases hk : key = k
    · rw [if_pos hk] at h
      cases h
    · rw [if_neg hk] at h
      rw [replace_cons, if_neg (fun e => hk e.symm), ih h]

theorem replace_insertOrdered (m : TrackMap TD) (key : CylHead) (v v2 : TD)
    (h : m.find key = none) :
    (m.insertOrdered key v).replace key v2 = m.insertOrdered key v2 := by
  induction m with
  | nil =>
    show replace [(key, v)] key v2 = [(key, v2)]
    rw [replace_cons, if_pos rfl]
    rfl
  | cons p rest ih =>
    obtain ⟨k, x⟩ := p
    have h0 := h
    rw [find_cons] at h
    by_cases hk : key = k
    · rw [if_pos hk] at h
      cases h
    · rw [if_neg hk] at h
      unfold insertOrdered
      split
      · rw [replace_cons, if_pos rfl, replace_of_not_stored _ _ _ h0]
      · rw [replace_cons, if_neg (fun e => hk e.symm), ih h]

theorem find_assign_self (m : TrackMap TD) (key : CylHead) (v : TD) :
    (m.assign key v).find key = some v := by
  unfold assign
  split
  · rename_i h
    rw [find_replace, if_pos rfl]
    cases hf : find m key with
    | none => rw [hf] at h; cases h
    | some x => rfl
  · rename_i h
    apply find_insertOrdered_self
    cases hf : find m key with
    | none => rfl
    | some x => rw [hf] at h; exact absurd rfl h

theorem find_assign_ne (m : TrackMap TD) (key other : CylHead) (v : TD) (h : other ≠ key) :
    (m.assign key v).find other = m.find other := by
  unfold assign
  split
  · rw [find_replace, if_neg h]
  · exact find_insertOrdered_ne m key other v h

theorem assign_of_stored (m : TrackMap TD) (key : CylHead) (v : TD)
    (h : (m.find key).isSome = true) : m.assign key v = m.replace key v := by
  unfold assign
  rw [if_pos h]

theorem assign_of_not_stored (m : TrackMap TD) (key : CylHead) (v : TD)
    (h : m.find key = none) : m.assign key v = m.insertOrdered key v := by
  unfold assign
  rw [h]
  rfl

theorem assign_assign (m : TrackMap TD) (key : CylHead) (v v2 : TD) :
    (m.assign key v).assign key v2 = m.assign key v2 := by
  have hsome : ((m.assign key v).find key).isSome = true := by
    rw [find_assign_self]; rfl
  rw [assign_of_stored _ _ _ hsome]
  cases hf : find m key with
  | none =>
    rw [assign_of_not_stored m key v hf, assign_of_not_stored m key v2 hf]
    exact replace_insertOrdered m key v v2 hf
  | some x =>
    have hs : (m.find key).isSome = true := by rw [hf]; rfl
    rw [assign_of_stored m key v hs, assign_of_stored m key v2 hs]
    exact replace_replace m key v v2

theorem emplace_of_stored (m : TrackMap TD) (key : CylHead) (v : TD)
    (h : (m.find key).isSome = true) : m.emplace key v = m := by
  unfold emplace
  rw [if_pos h]

theorem find_emplace_self (m : TrackMap TD) (key : CylHead) (v : TD)
    (h : (m.find key).isSome = false) : (m.emplace key v).find key = some v := by
  unfold emplace
  rw [if_neg (by rw [h]; simp)]
  apply find_insertOrdered_self
  cases hf : find m key with
  | none => rfl
  | some x => rw [hf] at h; cases h

theorem find_emplace_ne (m : TrackMap TD) (key other : CylHead) (v : TD) (h : other ≠ key) :
    (m.emplace key v).find other = m.find other := by
  unfold emplace
  split
  · rfl
  · exact find_insertOrdered_ne m key other v h

theorem length_insertOrdered (m : TrackMap TD) (key : CylHead) (v : TD) :
    (m.insertOrdered key v).length = m.length + 1 := by
  induction m with
  | nil => rfl
  | cons p rest ih =>
    obtain ⟨k, x⟩ := p
    unfold insertOrdered
    split
    · rfl
    · simp [ih]

theorem mem_insertOrdered (m : TrackMap TD) (key : CylHead) (v : TD) (p : CylHead × TD) :
    p ∈ m.insertOrdered key v ↔ p = (key, v) ∨ p ∈ m := by
  induction m with
  | nil => simp [insertOrdered]
  | cons q rest ih =>
    obtain ⟨k, x⟩ := q
    unfold insertOrdered
    split
    · simp
    · simp only [List.mem_cons, ih]
      constructor
      · rintro (h | h | h)
        · exact Or.inr (Or.inl h)
        · exact Or.inl h
        · exact Or.inr (Or.inr h)
      · rintro (h | h | h)
        · exact Or.inr (Or.inl h)
        · exact Or.inl h
        · exact Or.inr (Or.inr h)

end TrackMap

namespace Disk

variable {E : Collaborators}

/-- C21: for the base `Disk`, `write(trackdata)` returns the written track data, and a read
of `trackdata.cylhead` afterwards returns exactly the written track data and leaves the
disk as it is, whatever was stored under that key before; the entries under the other keys
are untouched; and a second write to the same key replaces the first wholesale: the disk
after both writes is the disk after the second write alone. -/
theorem C21_write_then_read (d : Disk E) (trackdata trackdata2 : E.TrackData) :
    (d.write trackdata).1 = trackdata ∧
    ((d.write trackdata).2.read (E.cylheadOf trackdata)).1 = trackdata ∧
    ((d.write trackdata).2.read (E.cylheadOf trackdata)).2 = (d.write trackdata).2 ∧
    (∀ other, other ≠ E.cylheadOf trackdata →
      (d.write trackdata).2.m_trackdata.find other = d.m_trackdata.find other) ∧
    (E.cylheadOf trackdata2 = E.cylheadOf trackdata →
      ((d.write trackdata).2.write trackdata2).2 = (d.write trackdata2).2 ∧
      (((d.write trackdata).2.write trackdata2).2.read (E.cylheadOf trackdata)).1 =
        trackdata2) := by
  have hwrite : ∀ (d0 : Disk E) (td : E.TrackData),
      d0.write td = (td, { m_trackdata := d0.m_trackdata.assign (E.cylheadOf td) td
                           fmt_sectors := 0 }) := by
    intro d0 td
    have hs : ((d0.m_trackdata.assign (E.cylheadOf td) td).find (E.cylheadOf td)).isSome
        = true := by
      rw [TrackMap.find_assign_self]; rfl
    simp only [write, writeNC]
    rw [TrackMap.emplace_of_stored _ _ _ hs, TrackMap.find_assign_self]
    rfl
  have hread : ∀ (d0 : Disk E) (td : E.TrackData),
      (d0.write td).2.read (E.cylheadOf td) = (td, (d0.write td).2) := by
    intro d0 td
    have hs : ((d0.m_trackdata.assign (E.cylheadOf td) td).find (E.cylheadOf td)).isSome
        = true := by
      rw [TrackMap.find_assign_self]; rfl
    rw [hwrite]
    simp only [read, readNC]
    rw [TrackMap.emplace_of_stored _ _ _ hs, TrackMap.find_assign_self]
    rfl
  refine ⟨?_, ?_, ?_, ?_, ?_⟩
  · rw [hwrite]
  · rw [hread]
  · rw [hread]
  · intro other hother
    rw [hwrite]
    exact TrackMap.find_assign_ne _ _ _ _ hother
  · intro hsame
    have hboth : ((d.write trackdata).2.write trackdata2).2 = (d.write trackdata2).2 := by
      rw [hwrite (d.write trackdata).2 trackdata2, hwrite d trackdata, hwrite d trackdata2]
      simp only []
      rw [hsame, TrackMap.assign_assign]
    refine ⟨hboth, ?_⟩
    rw [hboth, ← hsame, hread]

/-- Witness of C21: on a disk that holds a track at cylinder 3 head 0, writing another track
there and reading it back gives the written track. -/
theorem C21_write_then_read_witness :
    (((({ m_trackdata := [({ cyl := 3, head := 0 }, exampleDstData)], fmt_sectors := 9 } :
      Disk (exampleCollaborators 0)).write exampleSrcData).2.write exampleRawData).2.read
        { cyl := 3, head := 0 }).1 = exampleRawData :=
  ((C21_write_then_read (E := exampleCollaborators 0)
    { m_trackdata := [({ cyl := 3, head := 0 }, exampleDstData)], fmt_sectors := 9 }
    exampleSrcData exampleRawData).2.2.2.2 rfl).2

/-- C23: for the base `Disk`, reading a cylinder and head that has no entry returns the
default track data and creates a default entry for that key, so that `track_exists` is
true afterwards, one entry is added, and the entries under all other keys are as before;
reading a key that has an entry returns that entry and changes nothing. -/
theorem C23_read_miss_insert (d : Disk E) (cylhead : CylHead) :
    (d.track_exists cylhead = false →
      (d.read cylhead).1 = E.trackDataDefault ∧
      (d.read cylhead).2.track_exists cylhead = true ∧
      (d.read cylhead).2.m_trackdata.find cylhead = some E.trackDataDefault ∧
      (d.read cylhead).2.m_trackdata.length = d.m_trackdata.length + 1 ∧
      (∀ other, other ≠ cylhead →
        (d.read cylhead).2.m_trackdata.find other = d.m_trackdata.find other)) ∧
    (d.track_exists cylhead = true →
      (d.read cylhead).2 = d ∧
      d.m_trackdata.find cylhead = some (d.read cylhead).1) := by
  constructor
  · intro hmiss
    have hs : (d.m_trackdata.find cylhead).isSome = false := hmiss
    have hfind := TrackMap.find_emplace_self d.m_trackdata cylhead E.trackDataDefault hs
    have hins : d.m_trackdata.emplace cylhead E.trackDataDefault =
        d.m_trackdata.insertOrdered cylhead E.trackDataDefault := by
      unfold TrackMap.emplace
      rw [if_neg (by rw [hs]; simp)]
    simp only [read, readNC, track_exists]
    refine ⟨?_, ?_, hfind, ?_, ?_⟩
    · rw [hfind]; rfl
    · rw [hfind]; rfl
    · rw [hins, TrackMap.length_insertOrdered]
    · intro other hother
      exact TrackMap.find_emplace_ne _ _ _ _ hother
  · intro hhit
    have hs : (d.m_trackdata.find cylhead).isSome = true := hhit
    simp only [read, readNC]
    rw [TrackMap.emplace_of_stored _ _ _ hs]
    refine ⟨rfl, ?_⟩
    cases hf : d.m_trackdata.find cylhead with
    | none => rw [hf] at hs; cases hs
    | some x => rfl

/-- Witness of C23: reading cylinder 4 head 1 of a disk that only holds cylinder 3 head 0
adds a default entry behind the stored one. -/
theorem C23_read_miss_insert_witness :
    (({ m_trackdata := [({ cyl := 3, head := 0 }, exampleDstData)], fmt_sectors := 9 } :
      Disk (exampleCollaborators 0)).read { cyl := 4, head := 1 }).2.track_exists
        { cyl := 4, head := 1 } = true ∧
    (({ m_trackdata := [({ cyl := 3, head := 0 }, exampleDstData)], fmt_sectors := 9 } :
      Disk (exampleCollaborators 0)).read { cyl := 4, head := 1 }).2.m_trackdata.find
        { cyl := 3, head := 0 } = some exampleDstData :=
  have h := (C23_read_miss_insert (E := exampleCollaborators 0)
    { m_trackdata := [({ cyl := 3, head := 0 }, exampleDstData)], fmt_sectors := 9 }
    { cyl := 4, head := 1 }).1 rfl
  ⟨h.2.1, (h.2.2.2.2 { cyl := 3, head := 0 } (by decide)).trans rfl⟩

end Disk



/-! ## Merging an `OrphanDataCapableTrack` into itself -/

namespace OrphanDataCapableTrack

variable {Sector : Type}

/-- The header comparison `compare_crn` is reflexive. -/
theorem compare_crn_self (a : Header) : a.compare_crn a = true := by
  simp [Header.compare_crn]

end OrphanDataCapableTrack



/-! ## The order of the keys of the track map -/

namespace CylHead

theorem less_iff (a b : CylHead) :
    a.less b = true ↔ a.cyl < b.cyl ∨ (a.cyl = b.cyl ∧ a.head < b.head) := by
  simp [CylHead.less]

theorem less_irrefl (a : CylHead) : a.less a = false := by
  cases h : a.less a with
  | false => rfl
  | true => rw [less_iff] at h; omega

theorem less_trans {a b c : CylHead} (hab : a.less b = true) (hbc : b.less c = true) :
    a.less c = true := by
  rw [less_iff] at *
  omega

theorem less_asymm {a b : CylHead} (hab : a.less b = true) : b.less a = false := by
  cases h : b.less a with
  | false => rfl
  | true => rw [less_iff] at *; omega

theorem less_of_not_less {a b : CylHead} (hne : a ≠ b) (h : a.less b = false) :
    b.less a = true := by
  have hn : ¬ (a.less b = true) := by rw [h]; simp
  rw [less_iff] at *
  have hcases : a.cyl ≠ b.cyl ∨ a.head ≠ b.head := by
    by_contra hcon
    apply hne
    cases a; cases b
    simp only [ne_eq, not_or, not_not] at hcon
    simp only [CylHead.mk.injEq]
    exact hcon
  omega

theorem ne_of_less {a b : CylHead} (h : a.less b = true) : a ≠ b := by
  intro heq
  rw [heq, less_irrefl] at h
  cases h

theorem cyl_le_of_less {a b : CylHead} (h : a.less b = true) : a.cyl ≤ b.cyl := by
  rw [less_iff] at h
  omega

/-- The exclusive or of a natural number with 1 moves an even number up and an odd number
down by one. -/
theorem nat_xor_one (n : Nat) : n ^^^ 1 = if n % 2 = 0 then n + 1 else n - 1 := by
  have h1 := Nat.xor_div_two (a := n) (b := 1)
  have h2 := Nat.xor_mod_two_eq (m := n) (n := 1)
  simp at h1
  split <;> omega

/-- The exclusive or of an integer with 1 moves an even number up and an odd number down by
one. -/
theorem int_xor_one (h : Int) : Int.xor h 1 = if h % 2 = 0 then h + 1 else h - 1 := by
  cases h with
  | ofNat n =>
    have hx : Int.xor (Int.ofNat n) 1 = ((n ^^^ 1 : Nat) : Int) := rfl
    rw [hx, nat_xor_one, Int.ofNat_eq_coe]
    by_cases hn : n % 2 = 0
    · rw [if_pos hn, if_pos (by omega)]; push_cast; rfl
    · rw [if_neg hn, if_neg (by omega)]; omega
  | negSucc n =>
    have hx : Int.xor (Int.negSucc n) 1 = Int.negSucc (n ^^^ 1) := rfl
    rw [hx, nat_xor_one]
    by_cases hn : n % 2 = 0
    · rw [if_pos hn, if_neg (by rw [Int.negSucc_eq]; omega)]
      simp only [Int.negSucc_eq]; push_cast; omega
    · rw [if_neg hn, if_pos (by rw [Int.negSucc_eq]; omega)]
      simp only [Int.negSucc_eq]; omega

theorem flipHead_head (a : CylHead) :
    a.flipHead.head = if a.head % 2 = 0 then a.head + 1 else a.head - 1 :=
  int_xor_one a.head

theorem flipHead_flipHead (a : CylHead) : a.flipHead.flipHead = a := by
  have h1 := flipHead_head a
  have h2 := flipHead_head a.flipHead
  have hc : a.flipHead.flipHead.cyl = a.cyl := rfl
  have hh : a.flipHead.flipHead.head = a.head := by
    rw [h2, h1]
    split <;> split <;> omega
  cases hff : a.flipHead.flipHead
  cases a
  rw [hff] at hc hh
  simp only at hc hh
  rw [hc, hh]

theorem flipHead_injective {a b : CylHead} (h : a.flipHead = b.flipHead) : a = b := by
  rw [← flipHead_flipHead a, h, flipHead_flipHead]

theorem eq_flipHead_iff (a b : CylHead) : a = b.flipHead ↔ a.flipHead = b := by
  constructor
  · intro h; rw [h, flipHead_flipHead]
  · intro h; rw [← h, flipHead_flipHead]

end CylHead

namespace TrackMap

variable {TD : Type}

theorem mem_keys_of_find (m : TrackMap TD) (key : CylHead) (x : TD)
    (h : m.find key = some x) : (key, x) ∈ m := by
  induction m with
  | nil => cases h
  | cons p rest ih =>
    obtain ⟨k, y⟩ := p
    rw [find_cons] at h
    by_cases hk : key = k
    · rw [if_pos hk] at h
      cases h
      rw [hk]
      exact List.mem_cons_self _ _
    · rw [if_neg hk] at h
      exact List.mem_cons_of_mem _ (ih h)

theorem find_none_of_forall_ne (m : TrackMap TD) (key : CylHead)
    (h : ∀ p ∈ m, p.1 ≠ key) : m.find key = none := by
  cases hf : m.find key with
  | none => rfl
  | some x => exact absurd rfl (h _ (mem_keys_of_find m key x hf))

/-- In an ordered map a key is found at the pair that holds it. -/
theorem find_of_mem_ordered (m : TrackMap TD) (hm : m.Ordered) (p : CylHead × TD)
    (h : p ∈ m) : m.find p.1 = some p.2 := by
  induction m with
  | nil => cases h
  | cons q rest ih =>
    obtain ⟨k, y⟩ := q
    rw [Ordered, List.pairwise_cons] at hm
    rw [find_cons]
    rcases List.mem_cons.mp h with h1 | h1
    · rw [h1, if_pos rfl]
    · have hne : p.1 ≠ k := fun heq => by
        have := hm.1 p h1
        rw [heq, CylHead.less_irrefl] at this
        cases this
      rw [if_neg hne]
      exact ih hm.2 h1

theorem ordered_insertOrdered (m : TrackMap TD) (key : CylHead) (v : TD) (hm : m.Ordered)
    (h : m.find key = none) : (m.insertOrdered key v).Ordered := by
  induction m with
  | nil => simp [insertOrdered, Ordered]
  | cons p rest ih =>
    obtain ⟨k, x⟩ := p
    rw [Ordered, List.pairwise_cons] at hm
    obtain ⟨hk, hrest⟩ := hm
    rw [find_cons] at h
    have hne : key ≠ k := by
      intro heq
      rw [if_pos heq] at h
      cases h
    rw [if_neg hne] at h
    unfold insertOrdered
    by_cases hless : key.less k = true
    · rw [if_pos hless, Ordered, List.pairwise_cons, List.pairwise_cons]
      refine ⟨?_, hk, hrest⟩
      intro q hq
      rcases List.mem_cons.mp hq with h1 | h1
      · rw [h1]; exact hless
      · exact CylHead.less_trans hless (hk q h1)
    · rw [if_neg hless, Ordered, List.pairwise_cons]
      refine ⟨?_, ih hrest h⟩
      intro q hq
      rcases (mem_insertOrdered rest key v q).mp hq with h1 | h1
      · rw [h1]
        exact CylHead.less_of_not_less hne (by simpa using hless)
      · exact hk q h1

theorem ordered_replace (m : TrackMap TD) (key : CylHead) (v : TD) (hm : m.Ordered) :
    (m.replace key v).Ordered := by
  unfold replace Ordered
  rw [List.pairwise_map]
  refine List.Pairwise.imp ?_ hm
  intro a b hab
  have ha : (if a.1 = key then (a.1, v) else a).1 = a.1 := by split <;> rfl
  have hb : (if b.1 = key then (b.1, v) else b).1 = b.1 := by split <;> rfl
  rw [ha, hb]
  exact hab

theorem ordered_assign (m : TrackMap TD) (key : CylHead) (v : TD) (hm : m.Ordered) :
    (m.assign key v).Ordered := by
  cases hf : m.find key with
  | none =>
    rw [assign_of_not_stored m key v hf]
    exact ordered_insertOrdered m key v hm hf
  | some x =>
    rw [assign_of_stored m key v (by rw [hf]; rfl)]
    exact ordered_replace m key v hm

/-- Two ordered maps that hold the same value under every key are the same map. -/
theorem ordered_ext : ∀ (m1 m2 : TrackMap TD), m1.Ordered → m2.Ordered →
    (∀ key, m1.find key = m2.find key) → m1 = m2
  | [], [], _, _, _ => rfl
  | [], (k, x) :: rest, _, _, h => by
    have := h k
    rw [find_cons, if_pos rfl] at this
    cases this
  | (k, x) :: rest, [], _, _, h => by
    have := h k
    rw [find_cons, if_pos rfl] at this
    cases this
  | (k1, x1) :: r1, (k2, x2) :: r2, h1, h2, h => by
    rw [Ordered, List.pairwise_cons] at h1 h2
    have hkeys : k1 = k2 := by
      by_contra hne
      have e1 := h k1
      rw [find_cons, if_pos rfl, find_cons, if_neg hne] at e1
      have e2 := h k2
      rw [find_cons, if_neg (Ne.symm hne), find_cons, if_pos rfl] at e2
      have l1 := h2.1 _ (mem_keys_of_find r2 k1 x1 e1.symm)
      have l2 := h1.1 _ (mem_keys_of_find r1 k2 x2 e2)
      simp only at l1 l2
      rw [CylHead.less_asymm l1] at l2
      cases l2
    subst hkeys
    have hvals : x1 = x2 := by
      have e1 := h k1
      rw [find_cons, if_pos rfl, find_cons, if_pos rfl] at e1
      exact Option.some.inj e1
    subst hvals
    have hn1 : find r1 k1 = none := find_none_of_forall_ne r1 k1
      (fun p hp => (CylHead.ne_of_less (h1.1 p hp)).symm)
    have hn2 : find r2 k1 = none := find_none_of_forall_ne r2 k1
      (fun p hp => (CylHead.ne_of_less (h2.1 p hp)).symm)
    have hrest : r1 = r2 := by
      apply ordered_ext r1 r2 h1.2 h2.2
      intro key
      by_cases hk : key = k1
      · rw [hk, hn1, hn2]
      · have e := h key
        rw [find_cons, if_neg hk, find_cons, if_neg hk] at e
        exact e
    rw [hrest]

/-- The last pair of an ordered map holds the highest cylinder. -/
theorem cyl_le_getLast (m : TrackMap TD) (hm : m.Ordered) (last : CylHead × TD)
    (hlast : m.getLast? = some last) : ∀ p ∈ m, p.1.cyl ≤ last.1.cyl := by
  induction m with
  | nil => intro p hp; cases hp
  | cons q rest ih =>
    rw [Ordered, List.pairwise_cons] at hm
    intro p hp
    cases rest with
    | nil =>
      simp only [List.getLast?_singleton, Option.some.injEq] at hlast
      rcases List.mem_cons.mp hp with h1 | h1
      · rw [h1, hlast]
      · cases h1
    | cons r rest2 =>
      have hl : (r :: rest2).getLast? = some last := by
        rw [List.getLast?_cons_cons] at hlast
        exact hlast
      rcases List.mem_cons.mp hp with h1 | h1
      · rw [h1]
        have hmem : last ∈ r :: rest2 := List.mem_of_getLast?_eq_some hl
        exact CylHead.cyl_le_of_less (hm.1 last hmem)
      · exact ih hm.2 hl p h1

end TrackMap

/-! ## `Disk::flip_sides` -/

namespace TrackMap

variable {TD : Type}

theorem ordered_foldl_flipInto (l : TrackMap TD) :
    ∀ acc : TrackMap TD, acc.Ordered → (l.foldl flipInto acc).Ordered := by
  induction l with
  | nil => intro acc hacc; exact hacc
  | cons p rest ih =>
    intro acc hacc
    rw [List.foldl_cons]
    exact ih _ (ordered_assign acc p.1.flipHead p.2 hacc)

/-- The new map of `flip_sides` after the loop over an ordered map `l`, started from `acc`:
under a key it holds what `l` holds under the key with the head flipped, and else what
`acc` held. -/
theorem find_foldl_flipInto (l : TrackMap TD) (hl : l.Ordered) :
    ∀ (acc : TrackMap TD) (key : CylHead),
      find (l.foldl flipInto acc) key =
        if (find l key.flipHead).isSome then find l key.flipHead else find acc key := by
  induction l with
  | nil => intro acc key; rfl
  | cons p rest ih =>
    obtain ⟨k, x⟩ := p
    rw [Ordered, List.pairwise_cons] at hl
    intro acc key
    rw [List.foldl_cons, ih hl.2, find_cons]
    have hstep : flipInto acc (k, x) = acc.assign k.flipHead x := rfl
    by_cases hk : key.flipHead = k
    · have hkey : key = k.flipHead := (CylHead.eq_flipHead_iff key k).mpr hk
      have hnone : find rest key.flipHead = none := by
        rw [hk]
        exact find_none_of_forall_ne rest k
          (fun q hq => (CylHead.ne_of_less (hl.1 q hq)).symm)
      rw [hnone, if_pos hk, hstep, hkey, find_assign_self]
      rfl
    · have hkey : key ≠ k.flipHead := fun h => hk ((CylHead.eq_flipHead_iff key k).mp h)
      rw [if_neg hk, hstep, find_assign_ne acc k.flipHead key x hkey]

theorem find_flipped (l : TrackMap TD) (hl : l.Ordered) (key : CylHead) :
    find (l.foldl flipInto []) key = find l key.flipHead := by
  rw [find_foldl_flipInto l hl]
  cases hf : find l key.flipHead with
  | none => rfl
  | some x => rfl

theorem length_foldl_flipInto (l : TrackMap TD) (hl : l.Ordered) :
    ∀ acc : TrackMap TD, (∀ p ∈ l, find acc p.1.flipHead = none) →
      (l.foldl flipInto acc).length = acc.length + l.length := by
  induction l with
  | nil => intro acc _; rfl
  | cons p rest ih =>
    obtain ⟨k, x⟩ := p
    rw [Ordered, List.pairwise_cons] at hl
    intro acc hacc
    have hnew : find acc k.flipHead = none := hacc (k, x) (List.mem_cons_self _ _)
    have hstep : flipInto acc (k, x) = acc.insertOrdered k.flipHead x :=
      assign_of_not_stored acc k.flipHead x hnew
    rw [List.foldl_cons, ih hl.2, hstep, length_insertOrdered, List.length_cons]
    · omega
    · intro q hq
      have hne : q.1.flipHead ≠ k.flipHead := fun h =>
        CylHead.ne_of_less (hl.1 q hq) (CylHead.flipHead_injective h).symm
      rw [hstep, find_insertOrdered_ne acc k.flipHead q.1.flipHead x hne]
      exact hacc q (List.mem_cons_of_mem _ hq)

end TrackMap

namespace Disk

variable {E : Collaborators}

/-- C31: for a track map in the order of its keys, after `flip_sides` the entry stored under
a key is the entry that was stored under the key with `head ^ 1` (for the heads 0 and 1:
the other side of the same cylinder), the number of entries and `cyls()` are unchanged, the
map is again in the order of its keys, and `flip_sides` applied twice gives the original
disk back. -/
theorem C31_flip_sides_involution (d : Disk E) (hordered : d.m_trackdata.Ordered) :
    (∀ key, d.flip_sides.m_trackdata.find key = d.m_trackdata.find key.flipHead) ∧
    (∀ cyl, ({ cyl := cyl, head := 0 } : CylHead).flipHead = { cyl := cyl, head := 1 } ∧
      ({ cyl := cyl, head := 1 } : CylHead).flipHead = { cyl := cyl, head := 0 }) ∧
    d.flip_sides.m_trackdata.length = d.m_trackdata.length ∧
    d.flip_sides.cyls = d.cyls ∧
    d.flip_sides.m_trackdata.Ordered ∧
    d.flip_sides.flip_sides = d := by
  have hfind : ∀ key, d.flip_sides.m_trackdata.find key = d.m_trackdata.find key.flipHead :=
    fun key => TrackMap.find_flipped d.m_trackdata hordered key
  have hlen : d.flip_sides.m_trackdata.length = d.m_trackdata.length := by
    have h := TrackMap.length_foldl_flipInto d.m_trackdata hordered [] (fun _ _ => rfl)
    simp only [List.length_nil, Nat.zero_add] at h
    exact h
  have hord : d.flip_sides.m_trackdata.Ordered :=
    TrackMap.ordered_foldl_flipInto d.m_trackdata [] List.Pairwise.nil
  have hback : d.flip_sides.flip_sides = d := by
    have hmap : d.flip_sides.flip_sides.m_trackdata = d.m_trackdata := by
      apply TrackMap.ordered_ext _ _
        (TrackMap.ordered_foldl_flipInto d.flip_sides.m_trackdata [] List.Pairwise.nil)
        hordered
      intro key
      have h2 : d.flip_sides.flip_sides.m_trackdata.find key =
          d.flip_sides.m_trackdata.find key.flipHead :=
        TrackMap.find_flipped d.flip_sides.m_trackdata hord key
      exact h2.trans (by rw [hfind, CylHead.flipHead_flipHead])
    cases d
    simp only [flip_sides] at hmap ⊢
    rw [hmap]
  have hcyls : d.flip_sides.cyls = d.cyls := by
    unfold cyls
    cases h1 : d.m_trackdata.getLast? with
    | none =>
      have hnil : d.m_trackdata = [] := List.getLast?_eq_none_iff.mp h1
      have hnil2 : d.flip_sides.m_trackdata = [] := by
        apply List.eq_nil_of_length_eq_zero
        rw [hlen, hnil]
        rfl
      rw [hnil2]
      rfl
    | some last =>
      cases h2 : d.flip_sides.m_trackdata.getLast? with
      | none =>
        have hnil2 : d.flip_sides.m_trackdata = [] := List.getLast?_eq_none_iff.mp h2
        have hnil : d.m_trackdata = [] := by
          apply List.eq_nil_of_length_eq_zero
          rw [← hlen, hnil2]
          rfl
        rw [hnil] at h1
        cases h1
      | some last2 =>
        simp only []
        have hmem1 : last ∈ d.m_trackdata := List.mem_of_getLast?_eq_some h1
        have hmem2 : last2 ∈ d.flip_sides.m_trackdata := List.mem_of_getLast?_eq_some h2
        have hle1 : last2.1.cyl ≤ last.1.cyl := by
          have hs := TrackMap.find_of_mem_ordered _ hord last2 hmem2
          rw [hfind] at hs
          have := TrackMap.cyl_le_getLast _ hordered last h1 _
            (TrackMap.mem_keys_of_find _ _ _ hs)
          exact this
        have hle2 : last.1.cyl ≤ last2.1.cyl := by
          have hs := TrackMap.find_of_mem_ordered _ hordered last hmem1
          have hs2 : d.flip_sides.m_trackdata.find last.1.flipHead = some last.2 := by
            rw [hfind, CylHead.flipHead_flipHead]
            exact hs
          have := TrackMap.cyl_le_getLast _ hord last2 h2 _
            (TrackMap.mem_keys_of_find _ _ _ hs2)
          exact this
        omega
  exact ⟨hfind, fun cyl => ⟨rfl, rfl⟩, hlen, hcyls, hord, hback⟩

/-- Witness of C31: a disk with tracks at (0,0), (0,1) and (7,0) has them at (0,1), (0,0)
and (7,1) after `flip_sides`, and is itself again after a second `flip_sides`. -/
theorem C31_flip_sides_involution_witness :
    (({ m_trackdata := [({ cyl := 0, head := 0 }, exampleDstData),
        ({ cyl := 0, head := 1 }, exampleSrcData), ({ cyl := 7, head := 0 }, exampleRawData)]
        fmt_sectors := 9 } : Disk (exampleCollaborators 0)).flip_sides).m_trackdata =
      [({ cyl := 0, head := 0 }, exampleSrcData), ({ cyl := 0, head := 1 }, exampleDstData),
        ({ cyl := 7, head := 1 }, exampleRawData)] ∧
    (({ m_trackdata := [({ cyl := 0, head := 0 }, exampleDstData),
        ({ cyl := 0, head := 1 }, exampleSrcData), ({ cyl := 7, head := 0 }, exampleRawData)]
        fmt_sectors := 9 } : Disk (exampleCollaborators 0)).flip_sides).flip_sides =
      { m_trackdata := [({ cyl := 0, head := 0 }, exampleDstData),
        ({ cyl := 0, head := 1 }, exampleSrcData), ({ cyl := 7, head := 0 }, exampleRawData)]
        fmt_sectors := 9 } :=
  ⟨rfl,
   (C31_flip_sides_involution (E := exampleCollaborators 0)
    { m_trackdata := [({ cyl := 0, head := 0 }, exampleDstData),
        ({ cyl := 0, head := 1 }, exampleSrcData), ({ cyl := 7, head := 0 }, exampleRawData)]
      fmt_sectors := 9 } (by decide)).2.2.2.2.2⟩

end Disk

/-! ## `Disk::resize` and the geometry -/

namespace Disk

variable {E : Collaborators}

/-- The member function `resize` in terms of its erase loop. -/
theorem resize_eq (d : Disk E) (new_cyls new_heads : Int) :
    d.resize new_cyls new_heads =
      if new_cyls ≤ 0 ∧ new_heads ≤ 0 then { d with m_trackdata := [] }
      else if (d.eraseBeyond new_cyls new_heads).cyls < new_cyls ∨
          (d.eraseBeyond new_cyls new_heads).heads < new_heads then
        { d.eraseBeyond new_cyls new_heads with
          m_trackdata := (d.eraseBeyond new_cyls new_heads).m_trackdata.emplace
            { cyl := new_cyls - 1, head := new_heads - 1 } E.trackDataDefault }
      else d.eraseBeyond new_cyls new_heads := rfl

/-- In an ordered map whose highest cylinder is `c`, `cyls()` is `c + 1`. -/
theorem cyls_of_top (d : Disk E) (hord : d.m_trackdata.Ordered) (c : Int)
    (hle : ∀ p ∈ d.m_trackdata, p.1.cyl ≤ c) (htop : ∃ p ∈ d.m_trackdata, p.1.cyl = c) :
    d.cyls = c + 1 := by
  obtain ⟨top, htopmem, htopcyl⟩ := htop
  unfold cyls
  cases hl : d.m_trackdata.getLast? with
  | none =>
    rw [List.getLast?_eq_none_iff.mp hl] at htopmem
    cases htopmem
  | some last =>
    simp only []
    have h1 := hle last (List.mem_of_getLast?_eq_some hl)
    have h2 := TrackMap.cyl_le_getLast d.m_trackdata hord last hl top htopmem
    omega

/-- When every cylinder of a map that is not empty is below `c`, `cyls()` is at most `c`. -/
theorem cyls_le (d : Disk E) (c : Int) (hlt : ∀ p ∈ d.m_trackdata, p.1.cyl < c)
    (hne : d.m_trackdata ≠ []) : d.cyls ≤ c := by
  unfold cyls
  cases hl : d.m_trackdata.getLast? with
  | none => exact absurd (List.getLast?_eq_none_iff.mp hl) hne
  | some last =>
    simp only []
    have h1 := hlt last (List.mem_of_getLast?_eq_some hl)
    omega

theorem heads_of_empty (d : Disk E) (h : d.m_trackdata = []) : d.heads = 0 := by
  unfold heads
  rw [h]
  rfl

theorem heads_of_side_zero (d : Disk E) (hne : d.m_trackdata ≠ [])
    (h : ∀ p ∈ d.m_trackdata, p.1.head = 0) : d.heads = 1 := by
  unfold heads
  have hempty : d.m_trackdata.isEmpty = false := by
    cases hm : d.m_trackdata with
    | nil => exact absurd hm hne
    | cons _ _ => rfl
  have hany : d.m_trackdata.any (fun p => decide (p.1.head ≠ 0)) = false := by
    rw [List.any_eq_false]
    intro p hp
    simp [h p hp]
  rw [hempty, hany]
  rfl

theorem heads_of_side_one (d : Disk E) (h : ∃ p ∈ d.m_trackdata, p.1.head ≠ 0) :
    d.heads = 2 := by
  obtain ⟨p, hp, hhead⟩ := h
  unfold heads
  have hempty : d.m_trackdata.isEmpty = false := by
    cases hm : d.m_trackdata with
    | nil => rw [hm] at hp; cases hp
    | cons _ _ => rfl
  have hany : d.m_trackdata.any (fun p => decide (p.1.head ≠ 0)) = true := by
    rw [List.any_eq_true]
    exact ⟨p, hp, by simp [hhead]⟩
  rw [hempty, hany]
  rfl

theorem heads_le_two (d : Disk E) : d.heads ≤ 2 := by
  unfold heads
  split
  · decide
  · split <;> decide

/-- C32: for a track map in the order of its keys whose keys have no negative head, and
for `new_heads` 1 or 2 and every `new_cyls` (so for the stores and arguments of the claim,
with cylinders from 0, heads 0 and 1 and `new_cyls >= 1`), after
`resize(new_cyls, new_heads)` `cyls()` is `new_cyls` and `heads()` is `new_heads`. When the
tracks that remain after the erase loop fall short of either dimension, the key
`(new_cyls - 1, new_heads - 1)` was not among them and a blank track is inserted under it;
when they do not fall short, nothing is inserted. -/
theorem C32_resize_reaches_geometry (d : Disk E) (new_cyls new_heads : Int)
    (hordered : d.m_trackdata.Ordered)
    (hkeys : ∀ key ∈ d.m_trackdata.keys, 0 ≤ key.head)
    (hheads : new_heads = 1 ∨ new_heads = 2) :
    (d.resize new_cyls new_heads).cyls = new_cyls ∧
    (d.resize new_cyls new_heads).heads = new_heads ∧
    ((d.eraseBeyond new_cyls new_heads).cyls < new_cyls ∨
        (d.eraseBeyond new_cyls new_heads).heads < new_heads →
      (d.eraseBeyond new_cyls new_heads).m_trackdata.find
        { cyl := new_cyls - 1, head := new_heads - 1 } = none ∧
      (d.resize new_cyls new_heads).m_trackdata =
        (d.eraseBeyond new_cyls new_heads).m_trackdata.insertOrdered
          { cyl := new_cyls - 1, head := new_heads - 1 } E.trackDataDefault ∧
      (d.resize new_cyls new_heads).m_trackdata.find
        { cyl := new_cyls - 1, head := new_heads - 1 } = some E.trackDataDefault) ∧
    (¬((d.eraseBeyond new_cyls new_heads).cyls < new_cyls ∨
        (d.eraseBeyond new_cyls new_heads).heads < new_heads) →
      d.resize new_cyls new_heads = d.eraseBeyond new_cyls new_heads) := by
  have hkord : (d.eraseBeyond new_cyls new_heads).m_trackdata.Ordered :=
    List.Pairwise.filter _ hordered
  have hkin : ∀ p ∈ (d.eraseBeyond new_cyls new_heads).m_trackdata,
      p.1.cyl < new_cyls ∧ p.1.head < new_heads ∧ 0 ≤ p.1.head := by
    intro p hp
    simp only [eraseBeyond, List.mem_filter, Bool.not_eq_true', Bool.or_eq_false_iff,
      decide_eq_false_iff_not] at hp
    have h0 := hkeys p.1 (List.mem_map.mpr ⟨p, hp.1, rfl⟩)
    omega
  have hnotclear : ¬(new_cyls ≤ 0 ∧ new_heads ≤ 0) := by omega
  have hkheads : (d.eraseBeyond new_cyls new_heads).m_trackdata ≠ [] →
      (∃ p ∈ (d.eraseBeyond new_cyls new_heads).m_trackdata, p.1.head = new_heads - 1) ∨
        new_heads = 1 → (d.eraseBeyond new_cyls new_heads).heads = new_heads := by
    intro hne hside
    rcases hheads with h1 | h2
    · refine (heads_of_side_zero _ hne ?_).trans h1.symm
      intro p hp
      have := hkin p hp
      omega
    · rcases hside with ⟨p, hp, hhead⟩ | h1
      · exact (heads_of_side_one _ ⟨p, hp, by omega⟩).trans h2.symm
      · omega
  by_cases hshort : (d.eraseBeyond new_cyls new_heads).cyls < new_cyls ∨
      (d.eraseBeyond new_cyls new_heads).heads < new_heads
  · have hnone : (d.eraseBeyond new_cyls new_heads).m_trackdata.find
        { cyl := new_cyls - 1, head := new_heads - 1 } = none := by
      cases hf : (d.eraseBeyond new_cyls new_heads).m_trackdata.find
          { cyl := new_cyls - 1, head := new_heads - 1 } with
      | none => rfl
      | some x =>
        exfalso
        have hmem := TrackMap.mem_keys_of_find _ _ _ hf
        have hc : (d.eraseBeyond new_cyls new_heads).cyls = new_cyls - 1 + 1 :=
          cyls_of_top _ hkord (new_cyls - 1)
            (fun p hp => by have := hkin p hp; omega) ⟨_, hmem, rfl⟩
        have hh : (d.eraseBeyond new_cyls new_heads).heads = new_heads :=
          hkheads (List.ne_nil_of_mem hmem) (Or.inl ⟨_, hmem, rfl⟩)
        omega
    have hres : (d.resize new_cyls new_heads).m_trackdata =
        (d.eraseBeyond new_cyls new_heads).m_trackdata.insertOrdered
          { cyl := new_cyls - 1, head := new_heads - 1 } E.trackDataDefault := by
      rw [resize_eq, if_neg hnotclear, if_pos hshort]
      simp only [TrackMap.emplace, hnone]
      rfl
    have hrord : (d.resize new_cyls new_heads).m_trackdata.Ordered := by
      rw [hres]
      exact TrackMap.ordered_insertOrdered _ _ _ hkord hnone
    have hrin : ∀ p ∈ (d.resize new_cyls new_heads).m_trackdata,
        p.1.cyl < new_cyls ∧ p.1.head < new_heads ∧ 0 ≤ p.1.head := by
      intro p hp
      rw [hres, TrackMap.mem_insertOrdered] at hp
      rcases hp with hp | hp
      · rw [hp]
        simp only []
        omega
      · exact hkin p hp
    have hrmem : (({ cyl := new_cyls - 1, head := new_heads - 1 } : CylHead),
        E.trackDataDefault) ∈ (d.resize new_cyls new_heads).m_trackdata := by
      rw [hres, TrackMap.mem_insertOrdered]
      exact Or.inl rfl
    refine ⟨?_, ?_, fun _ => ⟨hnone, hres, ?_⟩, fun hn => absurd hshort hn⟩
    · have hc := cyls_of_top _ hrord (new_cyls - 1)
        (fun p hp => by have := hrin p hp; omega) ⟨_, hrmem, rfl⟩
      omega
    · rcases hheads with h1 | h2
      · refine (heads_of_side_zero _ (List.ne_nil_of_mem hrmem) ?_).trans h1.symm
        intro p hp
        have := hrin p hp
        omega
      · refine (heads_of_side_one _ ⟨_, hrmem, ?_⟩).trans h2.symm
        show new_heads - 1 ≠ 0
        omega
    · rw [hres]
      exact TrackMap.find_insertOrdered_self _ _ _ hnone
  · have hres : d.resize new_cyls new_heads = d.eraseBeyond new_cyls new_heads := by
      rw [resize_eq, if_neg hnotclear, if_neg hshort]
    have hne : (d.eraseBeyond new_cyls new_heads).m_trackdata ≠ [] := by
      intro hnil
      have := heads_of_empty _ hnil
      omega
    have hc := cyls_le _ new_cyls (fun p hp => (hkin p hp).1) hne
    have hh2 := heads_le_two (d.eraseBeyond new_cyls new_heads)
    have hh1 : new_heads = 1 → (d.eraseBeyond new_cyls new_heads).heads = 1 := by
      intro h1
      apply heads_of_side_zero _ hne
      intro p hp
      have := hkin p hp
      omega
    refine ⟨?_, ?_, fun hs => absurd hs hshort, fun _ => hres⟩
    · rw [hres]; omega
    · rw [hres]
      rcases hheads with h1 | h2
      · rw [hh1 h1, h1]
      · omega

/-- Witness of C32: a disk with tracks at (0,0), (0,1) and (7,0) resized to 5 cylinders and
2 heads has `cyls()` 5 and `heads()` 2. -/
theorem C32_resize_reaches_geometry_witness :
    (({ m_trackdata := [({ cyl := 0, head := 0 }, exampleDstData),
        ({ cyl := 0, head := 1 }, exampleSrcData), ({ cyl := 7, head := 0 }, exampleRawData)]
        fmt_sectors := 9 } : Disk (exampleCollaborators 0)).resize 5 2).cyls = 5 ∧
    (({ m_trackdata := [({ cyl := 0, head := 0 }, exampleDstData),
        ({ cyl := 0, head := 1 }, exampleSrcData), ({ cyl := 7, head := 0 }, exampleRawData)]
        fmt_sectors := 9 } : Disk (exampleCollaborators 0)).resize 5 2).heads = 2 :=
  have h := C32_resize_reaches_geometry (E := exampleCollaborators 0)
    { m_trackdata := [({ cyl := 0, head := 0 }, exampleDstData),
        ({ cyl := 0, head := 1 }, exampleSrcData), ({ cyl := 7, head := 0 }, exampleRawData)]
      fmt_sectors := 9 } 5 2 (by decide) (by decide) (by decide)
  ⟨h.1, h.2.1⟩

end Disk

end Samdisk
